import Mathlib

/-!
# SQL statement builder of BD-MIREA-V4: embedding and verified properties

The Go package `internal` holds a fluent builder of SELECT statements
(`querybuilder.go`, `querybuilder_extended.go`, `internal_extencions.go`).
This development embeds the builder as Lean definitions and proves
properties of its rendering algorithm.

Conventions of the embedding

* A Go `string` is a Lean `String`, `+` and `strings.Builder.WriteString` are `++`.
* A Go `[]string` is a `List String`; `append(s, xs...)` is `s ++ xs`.
* A Go `map[string]string` is a finite map `StrMap`.  Go leaves the order of
  `for k, v := range m` unspecified, and it may change from one loop to the
  next, so every function that ranges over a map takes the order of that
  particular loop as an argument `ord`, an enumeration of the entries of the map
  (`RangeOrder m ord`).
* A Go `int` is an `Int`; the builder does no arithmetic on its integers.
* A method with a pointer receiver that returns the receiver is a function
  from the state of the receiver to its new state.
* Sharing of storage between builders (`Copy`) is studied in a second
  embedding over a heap of backing arrays, maps and structs; it is proved to
  refine the state-passing one (`call_refines`, `copy_refines`).
-/

namespace BDMirea

/-! ## Go library functions used by the builder -/

/-- Go `strings.Join(elems, sep)`: the empty string for no element, else the
first element followed by `sep` and the next element, for each further element. -/
def stringsJoin : List String → String → String
  | [], _ => ""
  | a :: rest, sep => rest.foldl (fun b s => b ++ sep ++ s) a

/-- Go `unicode.IsSpace`: the Latin-1 white space characters and the other code
points of the Unicode property White_Space. -/
def unicodeIsSpace (r : Char) : Bool :=
  let n := r.toNat
  if n ≤ 0xFF then
    n = 0x09 || n = 0x0A || n = 0x0B || n = 0x0C || n = 0x0D || n = 0x20 || n = 0x85 || n = 0xA0
  else
    n = 0x1680 || (0x2000 ≤ n && n ≤ 0x200A) || n = 0x2028 || n = 0x2029 || n = 0x202F ||
      n = 0x205F || n = 0x3000

/-- Go `strings.TrimSpace`: the string without its leading and trailing white space. -/
def stringsTrimSpace (s : String) : String :=
  String.mk ((s.data.dropWhile unicodeIsSpace).reverse.dropWhile unicodeIsSpace).reverse

/-- Go `fmt.Sprintf("%d", n)`: the decimal text of an integer. -/
def fmtInt (n : Int) : String := toString n

/-! ## Data model (`querybuilder.go`) -/

/-- An entry of a Go `map[string]string`: key and value. -/
abbrev Entry := Sigma (fun _ : String => String)

/-- A Go `map[string]string`: a finite map without any order of its entries. -/
abbrev StrMap := Finmap (fun _ : String => String)

/-- Go `len(m)` of a map. -/
def mapLen (m : StrMap) : Nat := Multiset.card m.entries

/-- The list `ord` is a possible order of one `range` loop over `m`: it holds
every entry of `m` exactly once. -/
def RangeOrder (m : StrMap) (ord : List Entry) : Prop := (↑ord : Multiset Entry) = m.entries

instance (m : StrMap) (ord : List Entry) : Decidable (RangeOrder m ord) := by
  unfold RangeOrder; infer_instance

/-- Struct `JoinClause`; the field `Type` of the source is `Type_` here. -/
structure JoinClause where
  Type_ : String
  Table : String
  OnCondition : String
deriving DecidableEq, Repr

/-- Struct `QueryBuilder`. -/
structure QueryBuilder where
  table : String
  columns : List String
  conditions : List String
  groupBy : List String
  having : List String
  orderBy : List String
  aggregates : StrMap
  limit : Int
  offset : Int
  joins : List JoinClause
deriving DecidableEq

/-- The constants of type `AggregateFunc`, a string type. -/
def Count : String := "COUNT"
def Sum : String := "SUM"
def Avg : String := "AVG"
def Min : String := "MIN"
def Max : String := "MAX"

/-- Function `NewQueryBuilder`. -/
def NewQueryBuilder (table : String) : QueryBuilder :=
  { table := table
    columns := []
    conditions := []
    groupBy := []
    having := []
    orderBy := []
    aggregates := ∅
    limit := 0
    offset := 0
    joins := [] }

namespace QueryBuilder

/-! ## Mutators of `querybuilder.go` -/

/-- Method `Select`. -/
def Select (qb : QueryBuilder) (columns : List String) : QueryBuilder :=
  if columns.length > 0 then { qb with columns := qb.columns ++ columns } else qb

/-- Method `Where`. -/
def Where (qb : QueryBuilder) (condition : String) : QueryBuilder :=
  if stringsTrimSpace condition ≠ "" then { qb with conditions := qb.conditions ++ [condition] }
  else qb

/-- Method `WhereEq`. -/
def WhereEq (qb : QueryBuilder) (column value : String) : QueryBuilder :=
  let condition := column ++ " = '" ++ value ++ "'"
  { qb with conditions := qb.conditions ++ [condition] }

/-- Method `WhereGt`. -/
def WhereGt (qb : QueryBuilder) (column value : String) : QueryBuilder :=
  let condition := column ++ " > " ++ value
  { qb with conditions := qb.conditions ++ [condition] }

/-- Method `WhereLt`. -/
def WhereLt (qb : QueryBuilder) (column value : String) : QueryBuilder :=
  let condition := column ++ " < " ++ value
  { qb with conditions := qb.conditions ++ [condition] }

/-- Method `WhereGte`. -/
def WhereGte (qb : QueryBuilder) (column value : String) : QueryBuilder :=
  let condition := column ++ " >= " ++ value
  { qb with conditions := qb.conditions ++ [condition] }

/-- Method `WhereLte`. -/
def WhereLte (qb : QueryBuilder) (column value : String) : QueryBuilder :=
  let condition := column ++ " <= " ++ value
  { qb with conditions := qb.conditions ++ [condition] }

/-- Method `WhereLike`. -/
def WhereLike (qb : QueryBuilder) (column pattern : String) : QueryBuilder :=
  let condition := column ++ " LIKE '" ++ pattern ++ "'"
  { qb with conditions := qb.conditions ++ [condition] }

/-- Method `WhereIn`. -/
def WhereIn (qb : QueryBuilder) (column values : String) : QueryBuilder :=
  let condition := column ++ " IN (" ++ values ++ ")"
  { qb with conditions := qb.conditions ++ [condition] }

/-- Method `WhereRegex`. -/
def WhereRegex (qb : QueryBuilder) (column pattern : String) : QueryBuilder :=
  let condition := column ++ " ~ '" ++ pattern ++ "'"
  { qb with conditions := qb.conditions ++ [condition] }

/-- Method `WhereRegexNoCase`. -/
def WhereRegexNoCase (qb : QueryBuilder) (column pattern : String) : QueryBuilder :=
  let condition := column ++ " ~* '" ++ pattern ++ "'"
  { qb with conditions := qb.conditions ++ [condition] }

/-- Method `WhereNotRegex`. -/
def WhereNotRegex (qb : QueryBuilder) (column pattern : String) : QueryBuilder :=
  let condition := column ++ " !~ '" ++ pattern ++ "'"
  { qb with conditions := qb.conditions ++ [condition] }

/-- Method `WhereNotRegexNoCase`. -/
def WhereNotRegexNoCase (qb : QueryBuilder) (column pattern : String) : QueryBuilder :=
  let condition := column ++ " !~* '" ++ pattern ++ "'"
  { qb with conditions := qb.conditions ++ [condition] }

/-- Method `GroupBy`. -/
def GroupBy (qb : QueryBuilder) (columns : List String) : QueryBuilder :=
  { qb with groupBy := qb.groupBy ++ columns }

/-- Method `Aggregate`: the map assignment `qb.aggregates[column] = string(fn)`. -/
def Aggregate (qb : QueryBuilder) (column : String) (fn : String) : QueryBuilder :=
  { qb with aggregates := qb.aggregates.insert column fn }

/-- Method `Having`. -/
def Having (qb : QueryBuilder) (condition : String) : QueryBuilder :=
  if stringsTrimSpace condition ≠ "" then { qb with having := qb.having ++ [condition] }
  else qb

/-- Method `OrderBy`. -/
def OrderBy (qb : QueryBuilder) (columns : List String) : QueryBuilder :=
  { qb with orderBy := qb.orderBy ++ columns }

/-- Method `OrderByAsc`: one append per column, in a loop. -/
def OrderByAsc (qb : QueryBuilder) (columns : List String) : QueryBuilder :=
  columns.foldl (fun q col => { q with orderBy := q.orderBy ++ [col ++ " ASC"] }) qb

/-- Method `OrderByDesc`: one append per column, in a loop. -/
def OrderByDesc (qb : QueryBuilder) (columns : List String) : QueryBuilder :=
  columns.foldl (fun q col => { q with orderBy := q.orderBy ++ [col ++ " DESC"] }) qb

/-- Method `Limit`. -/
def Limit (qb : QueryBuilder) (limit : Int) : QueryBuilder := { qb with limit := limit }

/-- Method `Offset`. -/
def Offset (qb : QueryBuilder) (offset : Int) : QueryBuilder := { qb with offset := offset }

/-- Method `InnerJoin`. -/
def InnerJoin (qb : QueryBuilder) (table onCondition : String) : QueryBuilder :=
  { qb with joins := qb.joins ++ [{ Type_ := "INNER", Table := table, OnCondition := onCondition }] }

/-- Method `LeftJoin`. -/
def LeftJoin (qb : QueryBuilder) (table onCondition : String) : QueryBuilder :=
  { qb with joins := qb.joins ++ [{ Type_ := "LEFT", Table := table, OnCondition := onCondition }] }

/-- Method `RightJoin`. -/
def RightJoin (qb : QueryBuilder) (table onCondition : String) : QueryBuilder :=
  { qb with joins := qb.joins ++ [{ Type_ := "RIGHT", Table := table, OnCondition := onCondition }] }

/-- Method `FullJoin`. -/
def FullJoin (qb : QueryBuilder) (table onCondition : String) : QueryBuilder :=
  { qb with joins := qb.joins ++ [{ Type_ := "FULL", Table := table, OnCondition := onCondition }] }

/-- Method `SelectUpper`. -/
def SelectUpper (qb : QueryBuilder) (column : String) : QueryBuilder :=
  { qb with columns := qb.columns ++ ["UPPER(" ++ column ++ ")"] }

/-- Method `SelectLower`. -/
def SelectLower (qb : QueryBuilder) (column : String) : QueryBuilder :=
  { qb with columns := qb.columns ++ ["LOWER(" ++ column ++ ")"] }

/-- Method `SelectTrim`. -/
def SelectTrim (qb : QueryBuilder) (column : String) : QueryBuilder :=
  { qb with columns := qb.columns ++ ["TRIM(" ++ column ++ ")"] }

/-- Method `SelectLTrim`. -/
def SelectLTrim (qb : QueryBuilder) (column : String) : QueryBuilder :=
  { qb with columns := qb.columns ++ ["LTRIM(" ++ column ++ ")"] }

/-- Method `SelectRTrim`. -/
def SelectRTrim (qb : QueryBuilder) (column : String) : QueryBuilder :=
  { qb with columns := qb.columns ++ ["RTRIM(" ++ column ++ ")"] }

/-- Method `SelectSubstring`. -/
def SelectSubstring (qb : QueryBuilder) (column : String) (start length : Int) : QueryBuilder :=
  { qb with columns := qb.columns ++
      ["SUBSTRING(" ++ column ++ ", " ++ fmtInt start ++ ", " ++ fmtInt length ++ ")"] }

/-- Method `SelectLPad`. -/
def SelectLPad (qb : QueryBuilder) (column : String) (length : Int) (padChar : String) :
    QueryBuilder :=
  { qb with columns := qb.columns ++
      ["LPAD(" ++ column ++ ", " ++ fmtInt length ++ ", '" ++ padChar ++ "')"] }

/-- Method `SelectRPad`. -/
def SelectRPad (qb : QueryBuilder) (column : String) (length : Int) (padChar : String) :
    QueryBuilder :=
  { qb with columns := qb.columns ++
      ["RPAD(" ++ column ++ ", " ++ fmtInt length ++ ", '" ++ padChar ++ "')"] }

/-- Method `SelectConcat`. -/
def SelectConcat (qb : QueryBuilder) (columns : List String) : QueryBuilder :=
  if columns.length = 0 then qb
  else
    let concatExpr := stringsJoin columns " || ' ' || "
    { qb with columns := qb.columns ++ [concatExpr] }

/-- Method `Reset`. -/
def Reset (qb : QueryBuilder) : QueryBuilder :=
  { qb with
    columns := []
    conditions := []
    groupBy := []
    having := []
    orderBy := []
    aggregates := ∅
    joins := []
    limit := 0
    offset := 0 }

/-! ## Mutators of `querybuilder_extended.go` -/

/-- Method `Rollup`. -/
def Rollup (qb : QueryBuilder) (columns : List String) : QueryBuilder :=
  if columns.length > 0 then
    let rollupExpr := "ROLLUP(" ++ stringsJoin columns ", " ++ ")"
    { qb with groupBy := qb.groupBy ++ [rollupExpr] }
  else qb

/-- Method `Cube`. -/
def Cube (qb : QueryBuilder) (columns : List String) : QueryBuilder :=
  if columns.length > 0 then
    let cubeExpr := "CUBE(" ++ stringsJoin columns ", " ++ ")"
    { qb with groupBy := qb.groupBy ++ [cubeExpr] }
  else qb

/-- Method `GroupingSets`. -/
def GroupingSets (qb : QueryBuilder) (sets : List (List String)) : QueryBuilder :=
  if sets.length > 0 then
    let setClauses : List String :=
      sets.foldl
        (fun acc set =>
          if set.length > 0 then acc ++ ["(" ++ stringsJoin set ", " ++ ")"] else acc)
        []
    if setClauses.length > 0 then
      let groupingExpr := "GROUPING SETS (" ++ stringsJoin setClauses ", " ++ ")"
      { qb with groupBy := qb.groupBy ++ [groupingExpr] }
    else qb
  else qb

/-- Method `SelectGrouping`. -/
def SelectGrouping (qb : QueryBuilder) (column alias_ : String) : QueryBuilder :=
  let alias_ := if alias_ ≠ "" then " AS " ++ alias_ else alias_
  { qb with columns := qb.columns ++ ["GROUPING(" ++ column ++ ")" ++ alias_] }

/-- Method `SelectGroupingID`. -/
def SelectGroupingID (qb : QueryBuilder) (columns : List String) (alias_ : String) :
    QueryBuilder :=
  if columns.length = 0 then qb
  else
    let expr := "GROUPING_ID(" ++ stringsJoin columns ", " ++ ")"
    let expr := if alias_ ≠ "" then expr ++ " AS " ++ alias_ else expr
    { qb with columns := qb.columns ++ [expr] }

/-- Method `SelectAggregateWithFilter`. -/
def SelectAggregateWithFilter (qb : QueryBuilder)
    (aggFunc column filterCondition alias_ : String) : QueryBuilder :=
  let expr := aggFunc ++ "(" ++ column ++ ") FILTER (WHERE " ++ filterCondition ++ ")"
  let expr := if alias_ ≠ "" then expr ++ " AS " ++ alias_ else expr
  { qb with columns := qb.columns ++ [expr] }

end QueryBuilder

/-! ## Simple CASE expressions (`internal_extencions.go`) -/

/-- Struct `SimpleCaseExpression`. -/
structure SimpleCaseExpression where
  column : String
  whens : StrMap
  else_ : String
deriving DecidableEq

/-- Function `NewSimpleCase`. -/
def NewSimpleCase (column : String) : SimpleCaseExpression :=
  { column := column, whens := ∅, else_ := "" }

namespace SimpleCaseExpression

/-- Method `When`. -/
def When (sce : SimpleCaseExpression) (value result : String) : SimpleCaseExpression :=
  { sce with whens := sce.whens.insert value result }

/-- Method `Else`. -/
def Else (sce : SimpleCaseExpression) (value : String) : SimpleCaseExpression :=
  { sce with else_ := value }

/-- Method `Build`; `ord` is the order of the loop over `sce.whens`. -/
def Build (sce : SimpleCaseExpression) (ord : List Entry) : String :=
  if mapLen sce.whens = 0 then ""
  else
    let caseStr := ""
    let caseStr := caseStr ++ ("CASE " ++ sce.column)
    let caseStr := ord.foldl (fun c e => c ++ (" WHEN " ++ e.1 ++ " THEN " ++ e.2)) caseStr
    let caseStr := if sce.else_ ≠ "" then caseStr ++ (" ELSE " ++ sce.else_) else caseStr
    let caseStr := caseStr ++ " END"
    caseStr

end SimpleCaseExpression

namespace QueryBuilder

/-! ## Mutators of `internal_extencions.go` -/

/-- Method `SelectCoalesceFixed`. -/
def SelectCoalesceFixed (qb : QueryBuilder) (columns : List String) (alias_ : String) :
    QueryBuilder :=
  if columns.length = 0 then qb
  else
    let coalesceSql := "COALESCE(" ++ stringsJoin columns ", " ++ ")"
    let coalesceSql := if alias_ ≠ "" then coalesceSql ++ " AS " ++ alias_ else coalesceSql
    { qb with columns := qb.columns ++ [coalesceSql] }

/-- Method `SelectNullifFixed`. -/
def SelectNullifFixed (qb : QueryBuilder) (column1 column2 alias_ : String) : QueryBuilder :=
  let nullifSql := "NULLIF(" ++ column1 ++ ", " ++ column2 ++ ")"
  let nullifSql := if alias_ ≠ "" then nullifSql ++ " AS " ++ alias_ else nullifSql
  { qb with columns := qb.columns ++ [nullifSql] }

/-- Method `WhereCoalesceFixed`. -/
def WhereCoalesceFixed (qb : QueryBuilder) (columns : List String) (operator value : String) :
    QueryBuilder :=
  if columns.length = 0 then qb
  else
    let condition := "COALESCE(" ++ stringsJoin columns ", " ++ ") " ++ operator ++ " " ++ value
    { qb with conditions := qb.conditions ++ [condition] }

/-- Method `SelectSimpleCase`; `ord` is the order of the loop in `caseExpr.Build()`. -/
def SelectSimpleCase (qb : QueryBuilder) (caseExpr : SimpleCaseExpression) (ord : List Entry)
    (alias_ : String) : QueryBuilder :=
  let caseSQL := caseExpr.Build ord
  if caseSQL ≠ "" then
    let caseSQL := if alias_ ≠ "" then caseSQL ++ " AS " ++ alias_ else caseSQL
    { qb with columns := qb.columns ++ [caseSQL] }
  else qb

/-- Method `WhereIsNull`. -/
def WhereIsNull (qb : QueryBuilder) (column : String) : QueryBuilder :=
  let condition := column ++ " IS NULL"
  { qb with conditions := qb.conditions ++ [condition] }

/-- Method `WhereIsNotNull`. -/
def WhereIsNotNull (qb : QueryBuilder) (column : String) : QueryBuilder :=
  let condition := column ++ " IS NOT NULL"
  { qb with conditions := qb.conditions ++ [condition] }

/-- Method `AggregateWithCoalesce`. -/
def AggregateWithCoalesce (qb : QueryBuilder) (column fn defaultValue : String) : QueryBuilder :=
  let aggregateExpr := "COALESCE(" ++ fn ++ "(" ++ column ++ "), " ++ defaultValue ++ ")"
  { qb with columns := qb.columns ++ [aggregateExpr] }

/-- Method `SelectCharLength`. -/
def SelectCharLength (qb : QueryBuilder) (column alias_ : String) : QueryBuilder :=
  let expr := "CHAR_LENGTH(" ++ column ++ ")"
  let expr := if alias_ ≠ "" then expr ++ " AS " ++ alias_ else expr
  { qb with columns := qb.columns ++ [expr] }

/-- Method `SelectStringPosition`. -/
def SelectStringPosition (qb : QueryBuilder) (column substring alias_ : String) : QueryBuilder :=
  let expr := "POSITION(" ++ substring ++ " IN " ++ column ++ ")"
  let expr := if alias_ ≠ "" then expr ++ " AS " ++ alias_ else expr
  { qb with columns := qb.columns ++ [expr] }

/-- Method `SelectReplace`. -/
def SelectReplace (qb : QueryBuilder) (column from_ to_ alias_ : String) : QueryBuilder :=
  let expr := "REPLACE(" ++ column ++ ", " ++ from_ ++ ", " ++ to_ ++ ")"
  let expr := if alias_ ≠ "" then expr ++ " AS " ++ alias_ else expr
  { qb with columns := qb.columns ++ [expr] }

/-- Method `SelectCast`. -/
def SelectCast (qb : QueryBuilder) (column targetType alias_ : String) : QueryBuilder :=
  let expr := "CAST(" ++ column ++ " AS " ++ targetType ++ ")"
  let expr := if alias_ ≠ "" then expr ++ " AS " ++ alias_ else expr
  { qb with columns := qb.columns ++ [expr] }

/-- Method `SelectCurrentDate`. -/
def SelectCurrentDate (qb : QueryBuilder) (alias_ : String) : QueryBuilder :=
  let expr := "CURRENT_DATE"
  let expr := if alias_ ≠ "" then expr ++ " AS " ++ alias_ else expr
  { qb with columns := qb.columns ++ [expr] }

/-- Method `SelectCurrentTimestamp`. -/
def SelectCurrentTimestamp (qb : QueryBuilder) (alias_ : String) : QueryBuilder :=
  let expr := "CURRENT_TIMESTAMP"
  let expr := if alias_ ≠ "" then expr ++ " AS " ++ alias_ else expr
  { qb with columns := qb.columns ++ [expr] }

/-- Method `SelectExtract`. -/
def SelectExtract (qb : QueryBuilder) (column field alias_ : String) : QueryBuilder :=
  let expr := "EXTRACT(" ++ field ++ " FROM " ++ column ++ ")"
  let expr := if alias_ ≠ "" then expr ++ " AS " ++ alias_ else expr
  { qb with columns := qb.columns ++ [expr] }

/-- Method `SelectIf`. -/
def SelectIf (qb : QueryBuilder) (condition trueVal falseVal alias_ : String) : QueryBuilder :=
  let expr := "CASE WHEN " ++ condition ++ " THEN " ++ trueVal ++ " ELSE " ++ falseVal ++ " END"
  let expr := if alias_ ≠ "" then expr ++ " AS " ++ alias_ else expr
  { qb with columns := qb.columns ++ [expr] }

/-- Method `WhereBetween`. -/
def WhereBetween (qb : QueryBuilder) (column start end_ : String) : QueryBuilder :=
  let condition := column ++ " BETWEEN " ++ start ++ " AND " ++ end_
  { qb with conditions := qb.conditions ++ [condition] }

/-- Method `WhereNotBetween`. -/
def WhereNotBetween (qb : QueryBuilder) (column start end_ : String) : QueryBuilder :=
  let condition := column ++ " NOT BETWEEN " ++ start ++ " AND " ++ end_
  { qb with conditions := qb.conditions ++ [condition] }

/-- Method `WhereArrayContains`. -/
def WhereArrayContains (qb : QueryBuilder) (column value : String) : QueryBuilder :=
  let condition := value ++ " = ANY(" ++ column ++ ")"
  { qb with conditions := qb.conditions ++ [condition] }

/-- Method `Distinct`: the assignment `qb.columns[0] = "DISTINCT " + qb.columns[0]`. -/
def Distinct (qb : QueryBuilder) : QueryBuilder :=
  match qb.columns with
  | [] => qb
  | c :: rest => { qb with columns := ("DISTINCT " ++ c) :: rest }

/-- Method `SetSelectColumns`. -/
def SetSelectColumns (qb : QueryBuilder) (columns : List String) : QueryBuilder :=
  let qb := { qb with columns := [] }
  if columns.length > 0 then { qb with columns := qb.columns ++ columns } else qb

/-- Method `ClearConditions`. -/
def ClearConditions (qb : QueryBuilder) : QueryBuilder := { qb with conditions := [] }

/-- Method `ClearGroupBy`. -/
def ClearGroupBy (qb : QueryBuilder) : QueryBuilder := { qb with groupBy := [] }

/-! ## Rendering (`Build`) -/

/-- Method `Build`.  The local `query` is the `strings.Builder`; `ord` is the
order in which the loop `for col, fn := range qb.aggregates` meets the entries. -/
def Build (qb : QueryBuilder) (ord : List Entry) : String :=
  let query := ""
  let query := query ++ "SELECT "
  let query :=
    if qb.columns.length = 0 ∧ mapLen qb.aggregates = 0 then
      query ++ "*"
    else
      let query :=
        if qb.columns.length > 0 then query ++ stringsJoin qb.columns ", " else query
      if mapLen qb.aggregates > 0 then
        let query := if qb.columns.length > 0 then query ++ ", " else query
        let aggFunctions : List String :=
          ord.foldl (fun acc e => acc ++ [e.2 ++ "(" ++ e.1 ++ ")"]) []
        query ++ stringsJoin aggFunctions ", "
      else query
  let query := query ++ " FROM "
  let query := query ++ qb.table
  let query :=
    qb.joins.foldl
      (fun query join =>
        query ++ " " ++ join.Type_ ++ " JOIN " ++ join.Table ++ " ON " ++ join.OnCondition)
      query
  let query :=
    if qb.conditions.length > 0 then
      query ++ " WHERE " ++ stringsJoin qb.conditions " AND "
    else query
  let query :=
    if qb.groupBy.length > 0 then query ++ " GROUP BY " ++ stringsJoin qb.groupBy ", "
    else query
  let query :=
    if qb.having.length > 0 then query ++ " HAVING " ++ stringsJoin qb.having " AND "
    else query
  let query :=
    if qb.orderBy.length > 0 then query ++ " ORDER BY " ++ stringsJoin qb.orderBy ", "
    else query
  let query := if qb.limit > 0 then query ++ " LIMIT " ++ fmtInt qb.limit else query
  let query := if qb.offset > 0 then query ++ " OFFSET " ++ fmtInt qb.offset else query
  query

/-- Method `Copy`.  `ord` is the order in which the loop
`for k, v := range qb.aggregates` meets the entries. -/
def Copy (qb : QueryBuilder) (ord : List Entry) : QueryBuilder :=
  let newQB := NewQueryBuilder qb.table
  let newQB := { newQB with columns := newQB.columns ++ qb.columns }
  let newQB := { newQB with conditions := newQB.conditions ++ qb.conditions }
  let newQB := { newQB with groupBy := newQB.groupBy ++ qb.groupBy }
  let newQB := { newQB with having := newQB.having ++ qb.having }
  let newQB := { newQB with orderBy := newQB.orderBy ++ qb.orderBy }
  let newQB := { newQB with joins := newQB.joins ++ qb.joins }
  let newQB := { newQB with limit := qb.limit }
  let newQB := { newQB with offset := qb.offset }
  ord.foldl (fun n e => { n with aggregates := n.aggregates.insert e.1 e.2 }) newQB

end QueryBuilder

/-! ## Common table expressions (`querybuilder_extended.go`) -/

/-- Struct `CTEDefinition`. -/
structure CTEDefinition where
  Name : String
  Query : String
  Columns : List String
deriving DecidableEq, Repr

/-- Struct `QueryBuilderWithCTE`; the field `QB` is the wrapped builder. -/
structure QueryBuilderWithCTE where
  CTEs : List CTEDefinition
  QB : QueryBuilder
deriving DecidableEq

/-- Function `NewQueryBuilderWithCTE`. -/
def NewQueryBuilderWithCTE (table : String) : QueryBuilderWithCTE :=
  { CTEs := [], QB := NewQueryBuilder table }

namespace QueryBuilderWithCTE

/-- Method `AddCTE`. -/
def AddCTE (qbc : QueryBuilderWithCTE) (name query : String) (columns : List String) :
    QueryBuilderWithCTE :=
  { qbc with CTEs := qbc.CTEs ++ [{ Name := name, Query := query, Columns := columns }] }

/-- Method `Build`.  The loop `for i, cte := range qbc.CTEs` carries the index
`i` and the `strings.Builder` `result`; `ord` is the order of the map loop in
`qbc.QB.Build()`. -/
def Build (qbc : QueryBuilderWithCTE) (ord : List Entry) : String :=
  if qbc.CTEs.length = 0 then qbc.QB.Build ord
  else
    let result := ""
    let result := result ++ "WITH "
    let loop : Nat × String :=
      qbc.CTEs.foldl
        (fun (st : Nat × String) cte =>
          let i := st.1
          let result := st.2
          let result := if i > 0 then result ++ ", " else result
          let result := result ++ cte.Name
          let result :=
            if cte.Columns.length > 0 then
              result ++ (" (" ++ stringsJoin cte.Columns ", " ++ ")")
            else result
          let result := result ++ (" AS (" ++ cte.Query ++ ")")
          (i + 1, result))
        (0, result)
    let result := loop.2
    let result := result ++ (" " ++ qbc.QB.Build ord)
    result

end QueryBuilderWithCTE

/-! ## Mutator calls as data -/

/-- A call of one mutator of `QueryBuilder` with its arguments; one constructor
per method of the source that returns the receiver. -/
inductive Mutator where
  | Select (columns : List String)
  | Where (condition : String)
  | WhereEq (column value : String)
  | WhereGt (column value : String)
  | WhereLt (column value : String)
  | WhereGte (column value : String)
  | WhereLte (column value : String)
  | WhereLike (column pattern : String)
  | WhereIn (column values : String)
  | WhereRegex (column pattern : String)
  | WhereRegexNoCase (column pattern : String)
  | WhereNotRegex (column pattern : String)
  | WhereNotRegexNoCase (column pattern : String)
  | GroupBy (columns : List String)
  | Aggregate (column : String) (fn : String)
  | Having (condition : String)
  | OrderBy (columns : List String)
  | OrderByAsc (columns : List String)
  | OrderByDesc (columns : List String)
  | Limit (limit : Int)
  | Offset (offset : Int)
  | InnerJoin (table onCondition : String)
  | LeftJoin (table onCondition : String)
  | RightJoin (table onCondition : String)
  | FullJoin (table onCondition : String)
  | SelectUpper (column : String)
  | SelectLower (column : String)
  | SelectTrim (column : String)
  | SelectLTrim (column : String)
  | SelectRTrim (column : String)
  | SelectSubstring (column : String) (start length : Int)
  | SelectLPad (column : String) (length : Int) (padChar : String)
  | SelectRPad (column : String) (length : Int) (padChar : String)
  | SelectConcat (columns : List String)
  | Reset
  | Rollup (columns : List String)
  | Cube (columns : List String)
  | GroupingSets (sets : List (List String))
  | SelectGrouping (column alias_ : String)
  | SelectGroupingID (columns : List String) (alias_ : String)
  | SelectAggregateWithFilter (aggFunc column filterCondition alias_ : String)
  | SelectCoalesceFixed (columns : List String) (alias_ : String)
  | SelectNullifFixed (column1 column2 alias_ : String)
  | WhereCoalesceFixed (columns : List String) (operator value : String)
  | SelectSimpleCase (caseExpr : SimpleCaseExpression) (ord : List Entry) (alias_ : String)
  | WhereIsNull (column : String)
  | WhereIsNotNull (column : String)
  | AggregateWithCoalesce (column fn defaultValue : String)
  | SelectCharLength (column alias_ : String)
  | SelectStringPosition (column substring alias_ : String)
  | SelectReplace (column from_ to_ alias_ : String)
  | SelectCast (column targetType alias_ : String)
  | SelectCurrentDate (alias_ : String)
  | SelectCurrentTimestamp (alias_ : String)
  | SelectExtract (column field alias_ : String)
  | SelectIf (condition trueVal falseVal alias_ : String)
  | WhereBetween (column start end_ : String)
  | WhereNotBetween (column start end_ : String)
  | WhereArrayContains (column value : String)
  | Distinct
  | SetSelectColumns (columns : List String)
  | ClearConditions
  | ClearGroupBy

/-- The effect of a mutator call on the state of the receiver. -/
def Mutator.apply : Mutator → QueryBuilder → QueryBuilder
  | .Select columns, qb => qb.Select columns
  | .Where condition, qb => qb.Where condition
  | .WhereEq column value, qb => qb.WhereEq column value
  | .WhereGt column value, qb => qb.WhereGt column value
  | .WhereLt column value, qb => qb.WhereLt column value
  | .WhereGte column value, qb => qb.WhereGte column value
  | .WhereLte column value, qb => qb.WhereLte column value
  | .WhereLike column pattern, qb => qb.WhereLike column pattern
  | .WhereIn column values, qb => qb.WhereIn column values
  | .WhereRegex column pattern, qb => qb.WhereRegex column pattern
  | .WhereRegexNoCase column pattern, qb => qb.WhereRegexNoCase column pattern
  | .WhereNotRegex column pattern, qb => qb.WhereNotRegex column pattern
  | .WhereNotRegexNoCase column pattern, qb => qb.WhereNotRegexNoCase column pattern
  | .GroupBy columns, qb => qb.GroupBy columns
  | .Aggregate column fn, qb => qb.Aggregate column fn
  | .Having condition, qb => qb.Having condition
  | .OrderBy columns, qb => qb.OrderBy columns
  | .OrderByAsc columns, qb => qb.OrderByAsc columns
  | .OrderByDesc columns, qb => qb.OrderByDesc columns
  | .Limit limit, qb => qb.Limit limit
  | .Offset offset, qb => qb.Offset offset
  | .InnerJoin table onCondition, qb => qb.InnerJoin table onCondition
  | .LeftJoin table onCondition, qb => qb.LeftJoin table onCondition
  | .RightJoin table onCondition, qb => qb.RightJoin table onCondition
  | .FullJoin table onCondition, qb => qb.FullJoin table onCondition
  | .SelectUpper column, qb => qb.SelectUpper column
  | .SelectLower column, qb => qb.SelectLower column
  | .SelectTrim column, qb => qb.SelectTrim column
  | .SelectLTrim column, qb => qb.SelectLTrim column
  | .SelectRTrim column, qb => qb.SelectRTrim column
  | .SelectSubstring column start length, qb => qb.SelectSubstring column start length
  | .SelectLPad column length padChar, qb => qb.SelectLPad column length padChar
  | .SelectRPad column length padChar, qb => qb.SelectRPad column length padChar
  | .SelectConcat columns, qb => qb.SelectConcat columns
  | .Reset, qb => qb.Reset
  | .Rollup columns, qb => qb.Rollup columns
  | .Cube columns, qb => qb.Cube columns
  | .GroupingSets sets, qb => qb.GroupingSets sets
  | .SelectGrouping column alias_, qb => qb.SelectGrouping column alias_
  | .SelectGroupingID columns alias_, qb => qb.SelectGroupingID columns alias_
  | .SelectAggregateWithFilter aggFunc column filterCondition alias_, qb => qb.SelectAggregateWithFilter aggFunc column filterCondition alias_
  | .SelectCoalesceFixed columns alias_, qb => qb.SelectCoalesceFixed columns alias_
  | .SelectNullifFixed column1 column2 alias_, qb => qb.SelectNullifFixed column1 column2 alias_
  | .WhereCoalesceFixed columns operator value, qb => qb.WhereCoalesceFixed columns operator value
  | .SelectSimpleCase caseExpr ord alias_, qb => qb.SelectSimpleCase caseExpr ord alias_
  | .WhereIsNull column, qb => qb.WhereIsNull column
  | .WhereIsNotNull column, qb => qb.WhereIsNotNull column
  | .AggregateWithCoalesce column fn defaultValue, qb => qb.AggregateWithCoalesce column fn defaultValue
  | .SelectCharLength column alias_, qb => qb.SelectCharLength column alias_
  | .SelectStringPosition column substring alias_, qb => qb.SelectStringPosition column substring alias_
  | .SelectReplace column from_ to_ alias_, qb => qb.SelectReplace column from_ to_ alias_
  | .SelectCast column targetType alias_, qb => qb.SelectCast column targetType alias_
  | .SelectCurrentDate alias_, qb => qb.SelectCurrentDate alias_
  | .SelectCurrentTimestamp alias_, qb => qb.SelectCurrentTimestamp alias_
  | .SelectExtract column field alias_, qb => qb.SelectExtract column field alias_
  | .SelectIf condition trueVal falseVal alias_, qb => qb.SelectIf condition trueVal falseVal alias_
  | .WhereBetween column start end_, qb => qb.WhereBetween column start end_
  | .WhereNotBetween column start end_, qb => qb.WhereNotBetween column start end_
  | .WhereArrayContains column value, qb => qb.WhereArrayContains column value
  | .Distinct, qb => qb.Distinct
  | .SetSelectColumns columns, qb => qb.SetSelectColumns columns
  | .ClearConditions, qb => qb.ClearConditions
  | .ClearGroupBy, qb => qb.ClearGroupBy

/-- The clause kinds of the builder.  `aggregateTerms` is the aggregates map,
rendered in the SELECT list after the select terms. -/
inductive ClauseKind where
  | selectTerms
  | wherePredicates
  | groupByTerms
  | havingPredicates
  | orderByTerms
  | joins
  | limit
  | offset
  | aggregateTerms
deriving DecidableEq, Repr

/-- The clause kind a mutator call targets; `Reset` targets all of them. -/
def Mutator.kind : Mutator → Option ClauseKind
  | .Select _ => some .selectTerms
  | .Where _ => some .wherePredicates
  | .WhereEq _ _ => some .wherePredicates
  | .WhereGt _ _ => some .wherePredicates
  | .WhereLt _ _ => some .wherePredicates
  | .WhereGte _ _ => some .wherePredicates
  | .WhereLte _ _ => some .wherePredicates
  | .WhereLike _ _ => some .wherePredicates
  | .WhereIn _ _ => some .wherePredicates
  | .WhereRegex _ _ => some .wherePredicates
  | .WhereRegexNoCase _ _ => some .wherePredicates
  | .WhereNotRegex _ _ => some .wherePredicates
  | .WhereNotRegexNoCase _ _ => some .wherePredicates
  | .GroupBy _ => some .groupByTerms
  | .Aggregate _ _ => some .aggregateTerms
  | .Having _ => some .havingPredicates
  | .OrderBy _ => some .orderByTerms
  | .OrderByAsc _ => some .orderByTerms
  | .OrderByDesc _ => some .orderByTerms
  | .Limit _ => some .limit
  | .Offset _ => some .offset
  | .InnerJoin _ _ => some .joins
  | .LeftJoin _ _ => some .joins
  | .RightJoin _ _ => some .joins
  | .FullJoin _ _ => some .joins
  | .SelectUpper _ => some .selectTerms
  | .SelectLower _ => some .selectTerms
  | .SelectTrim _ => some .selectTerms
  | .SelectLTrim _ => some .selectTerms
  | .SelectRTrim _ => some .selectTerms
  | .SelectSubstring _ _ _ => some .selectTerms
  | .SelectLPad _ _ _ => some .selectTerms
  | .SelectRPad _ _ _ => some .selectTerms
  | .SelectConcat _ => some .selectTerms
  | .Reset => none
  | .Rollup _ => some .groupByTerms
  | .Cube _ => some .groupByTerms
  | .GroupingSets _ => some .groupByTerms
  | .SelectGrouping _ _ => some .selectTerms
  | .SelectGroupingID _ _ => some .selectTerms
  | .SelectAggregateWithFilter _ _ _ _ => some .selectTerms
  | .SelectCoalesceFixed _ _ => some .selectTerms
  | .SelectNullifFixed _ _ _ => some .selectTerms
  | .WhereCoalesceFixed _ _ _ => some .wherePredicates
  | .SelectSimpleCase _ _ _ => some .selectTerms
  | .WhereIsNull _ => some .wherePredicates
  | .WhereIsNotNull _ => some .wherePredicates
  | .AggregateWithCoalesce _ _ _ => some .selectTerms
  | .SelectCharLength _ _ => some .selectTerms
  | .SelectStringPosition _ _ _ => some .selectTerms
  | .SelectReplace _ _ _ _ => some .selectTerms
  | .SelectCast _ _ _ => some .selectTerms
  | .SelectCurrentDate _ => some .selectTerms
  | .SelectCurrentTimestamp _ => some .selectTerms
  | .SelectExtract _ _ _ => some .selectTerms
  | .SelectIf _ _ _ _ => some .selectTerms
  | .WhereBetween _ _ _ => some .wherePredicates
  | .WhereNotBetween _ _ _ => some .wherePredicates
  | .WhereArrayContains _ _ => some .wherePredicates
  | .Distinct => some .selectTerms
  | .SetSelectColumns _ => some .selectTerms
  | .ClearConditions => some .wherePredicates
  | .ClearGroupBy => some .groupByTerms

/-- The builder `dst` with its field of kind `k` taken from `src`. -/
def graft (k : ClauseKind) (src dst : QueryBuilder) : QueryBuilder :=
  match k with
  | .selectTerms => { dst with columns := src.columns }
  | .wherePredicates => { dst with conditions := src.conditions }
  | .groupByTerms => { dst with groupBy := src.groupBy }
  | .havingPredicates => { dst with having := src.having }
  | .orderByTerms => { dst with orderBy := src.orderBy }
  | .joins => { dst with joins := src.joins }
  | .limit => { dst with limit := src.limit }
  | .offset => { dst with offset := src.offset }
  | .aggregateTerms => { dst with aggregates := src.aggregates }

/-- An otherwise empty builder that holds only the field of kind `k` of `qb`. -/
def isolate (k : ClauseKind) (qb : QueryBuilder) : QueryBuilder :=
  graft k qb (NewQueryBuilder "")

/-! ## Go memory model: slices, maps and builders behind pointers

`Copy` promises a builder that shares no storage with the original.  The
state-passing definitions above cannot express sharing, so the builder is
embedded a second time over a heap: a `[]string` is a slice header that points
into a backing array, `append` writes in place while the capacity lasts and
moves to a new array otherwise, a map is a reference, and a `*QueryBuilder` is
the address of a struct. -/

/-- A Go slice header.  The builder never reslices, so the offset into the
backing array is 0 and the capacity is the length of the backing array. -/
structure Slice where
  arr : Nat
  len : Nat
deriving DecidableEq, Repr

/-- The five fields of type `[]string` of struct `QueryBuilder`. -/
inductive StrField where
  | columns
  | conditions
  | groupBy
  | having
  | orderBy
deriving DecidableEq, Repr

/-- Struct `QueryBuilder` in memory: the `[]string` fields are slice headers,
indexed by the name of the field, `joins` is a slice header of `[]JoinClause`
and `aggregates` is the address of a map. -/
structure QBObj where
  table : String
  strs : StrField → Slice
  aggregates : Nat
  limit : Int
  offset : Int
  joins : Slice

/-- The heap: backing arrays of `[]string` and of `[]JoinClause`, maps and
builder structs, each addressed by its index; `growth oldCap newLen` is the
number of spare slots the allocator adds when `append` moves a slice of capacity
`oldCap` to a new array for `newLen` elements (Go leaves it to the runtime). -/
structure Heap where
  strs : List (List String)
  joinArrs : List (List JoinClause)
  maps : List StrMap
  objs : List QBObj
  growth : Nat → Nat → Nat

/-- Go `append(s, xs...)` on a store of backing arrays: when the capacity
suffices the elements are written behind the slice in its own array, otherwise
a new array receives the elements of the slice, `xs` and `extra` spare slots. -/
def goAppend {α : Type} (zero : α) (growth : Nat → Nat → Nat) (store : List (List α))
    (s : Slice) (xs : List α) : List (List α) × Slice :=
  let a := (store[s.arr]?).getD []
  if s.len + xs.length ≤ a.length then
    (store.set s.arr (a.take s.len ++ xs ++ a.drop (s.len + xs.length)),
      { arr := s.arr, len := s.len + xs.length })
  else
    (store ++ [a.take s.len ++ xs ++ List.replicate (growth a.length (s.len + xs.length)) zero],
      { arr := store.length, len := s.len + xs.length })

/-- The zero value of `JoinClause`. -/
def JoinClause.zero : JoinClause := { Type_ := "", Table := "", OnCondition := "" }

namespace Heap

/-- The elements of a `[]string`. -/
def viewStrs (h : Heap) (s : Slice) : List String := ((h.strs[s.arr]?).getD []).take s.len

/-- The elements of a `[]JoinClause`. -/
def viewJoins (h : Heap) (s : Slice) : List JoinClause :=
  ((h.joinArrs[s.arr]?).getD []).take s.len

/-- The state of the builder at address `p`, read through its slices and its
map; `none` when `p` is no builder. -/
def view (h : Heap) (p : Nat) : Option QueryBuilder :=
  (h.objs[p]?).map fun o =>
    { table := o.table
      columns := h.viewStrs (o.strs .columns)
      conditions := h.viewStrs (o.strs .conditions)
      groupBy := h.viewStrs (o.strs .groupBy)
      having := h.viewStrs (o.strs .having)
      orderBy := h.viewStrs (o.strs .orderBy)
      aggregates := (h.maps[o.aggregates]?).getD ∅
      limit := o.limit
      offset := o.offset
      joins := h.viewJoins o.joins }

end Heap

/-- The statements the mutators are made of; the receiver is `qb`.
* `appendStr f xs`: `qb.f = append(qb.f, xs...)`
* `freshStr f`: `qb.f = []string{}`
* `appendJoins js`: `qb.joins = append(qb.joins, js...)`
* `freshJoins`: `qb.joins = []JoinClause{}`
* `mapSet k v`: `qb.aggregates[k] = v`
* `freshMap`: `qb.aggregates = make(map[string]string)`
* `setLimit n`: `qb.limit = n`, and `setOffset n`: `qb.offset = n`
* `distinctFirst`: `if len(qb.columns) > 0 { qb.columns[0] = "DISTINCT " + qb.columns[0] }` -/
inductive Stmt where
  | appendStr (f : StrField) (xs : List String)
  | freshStr (f : StrField)
  | appendJoins (js : List JoinClause)
  | freshJoins
  | mapSet (k v : String)
  | freshMap
  | setLimit (n : Int)
  | setOffset (n : Int)
  | distinctFirst

/-- A statement executed on the builder at address `p`. -/
def Stmt.exec (p : Nat) (s : Stmt) (h : Heap) : Heap :=
  match h.objs[p]? with
  | none => h
  | some o =>
    match s with
    | .appendStr f xs =>
      let r := goAppend "" h.growth h.strs (o.strs f) xs
      { h with strs := r.1, objs := h.objs.set p { o with strs := Function.update o.strs f r.2 } }
    | .freshStr f =>
      { h with
        strs := h.strs ++ [[]]
        objs := h.objs.set p
          { o with strs := Function.update o.strs f { arr := h.strs.length, len := 0 } } }
    | .appendJoins js =>
      let r := goAppend JoinClause.zero h.growth h.joinArrs o.joins js
      { h with joinArrs := r.1, objs := h.objs.set p { o with joins := r.2 } }
    | .freshJoins =>
      { h with
        joinArrs := h.joinArrs ++ [[]]
        objs := h.objs.set p { o with joins := { arr := h.joinArrs.length, len := 0 } } }
    | .mapSet k v =>
      { h with maps := h.maps.set o.aggregates (((h.maps[o.aggregates]?).getD ∅).insert k v) }
    | .freshMap =>
      { h with maps := h.maps ++ [∅], objs := h.objs.set p { o with aggregates := h.maps.length } }
    | .setLimit n => { h with objs := h.objs.set p { o with limit := n } }
    | .setOffset n => { h with objs := h.objs.set p { o with offset := n } }
    | .distinctFirst =>
      let s := o.strs .columns
      let a := (h.strs[s.arr]?).getD []
      if s.len > 0 then
        { h with strs := h.strs.set s.arr (a.set 0 ("DISTINCT " ++ (a[0]?).getD "")) }
      else h

/-- The statements of each mutator, in the order of the source. -/
def Mutator.body : Mutator → List Stmt
  | .Select columns => if columns.length > 0 then [.appendStr .columns columns] else []
  | .Where condition =>
    if stringsTrimSpace condition ≠ "" then [.appendStr .conditions [condition]] else []
  | .WhereEq column value => [.appendStr .conditions [column ++ " = '" ++ value ++ "'"]]
  | .WhereGt column value => [.appendStr .conditions [column ++ " > " ++ value]]
  | .WhereLt column value => [.appendStr .conditions [column ++ " < " ++ value]]
  | .WhereGte column value => [.appendStr .conditions [column ++ " >= " ++ value]]
  | .WhereLte column value => [.appendStr .conditions [column ++ " <= " ++ value]]
  | .WhereLike column pattern => [.appendStr .conditions [column ++ " LIKE '" ++ pattern ++ "'"]]
  | .WhereIn column values => [.appendStr .conditions [column ++ " IN (" ++ values ++ ")"]]
  | .WhereRegex column pattern => [.appendStr .conditions [column ++ " ~ '" ++ pattern ++ "'"]]
  | .WhereRegexNoCase column pattern =>
    [.appendStr .conditions [column ++ " ~* '" ++ pattern ++ "'"]]
  | .WhereNotRegex column pattern =>
    [.appendStr .conditions [column ++ " !~ '" ++ pattern ++ "'"]]
  | .WhereNotRegexNoCase column pattern =>
    [.appendStr .conditions [column ++ " !~* '" ++ pattern ++ "'"]]
  | .GroupBy columns => [.appendStr .groupBy columns]
  | .Aggregate column fn => [.mapSet column fn]
  | .Having condition =>
    if stringsTrimSpace condition ≠ "" then [.appendStr .having [condition]] else []
  | .OrderBy columns => [.appendStr .orderBy columns]
  | .OrderByAsc columns => columns.map (fun col => .appendStr .orderBy [col ++ " ASC"])
  | .OrderByDesc columns => columns.map (fun col => .appendStr .orderBy [col ++ " DESC"])
  | .Limit limit => [.setLimit limit]
  | .Offset offset => [.setOffset offset]
  | .InnerJoin table onCondition =>
    [.appendJoins [{ Type_ := "INNER", Table := table, OnCondition := onCondition }]]
  | .LeftJoin table onCondition =>
    [.appendJoins [{ Type_ := "LEFT", Table := table, OnCondition := onCondition }]]
  | .RightJoin table onCondition =>
    [.appendJoins [{ Type_ := "RIGHT", Table := table, OnCondition := onCondition }]]
  | .FullJoin table onCondition =>
    [.appendJoins [{ Type_ := "FULL", Table := table, OnCondition := onCondition }]]
  | .SelectUpper column => [.appendStr .columns ["UPPER(" ++ column ++ ")"]]
  | .SelectLower column => [.appendStr .columns ["LOWER(" ++ column ++ ")"]]
  | .SelectTrim column => [.appendStr .columns ["TRIM(" ++ column ++ ")"]]
  | .SelectLTrim column => [.appendStr .columns ["LTRIM(" ++ column ++ ")"]]
  | .SelectRTrim column => [.appendStr .columns ["RTRIM(" ++ column ++ ")"]]
  | .SelectSubstring column start length =>
    [.appendStr .columns
      ["SUBSTRING(" ++ column ++ ", " ++ fmtInt start ++ ", " ++ fmtInt length ++ ")"]]
  | .SelectLPad column length padChar =>
    [.appendStr .columns ["LPAD(" ++ column ++ ", " ++ fmtInt length ++ ", '" ++ padChar ++ "')"]]
  | .SelectRPad column length padChar =>
    [.appendStr .columns ["RPAD(" ++ column ++ ", " ++ fmtInt length ++ ", '" ++ padChar ++ "')"]]
  | .SelectConcat columns =>
    if columns.length = 0 then [] else [.appendStr .columns [stringsJoin columns " || ' ' || "]]
  | .Reset =>
    [.freshStr .columns, .freshStr .conditions, .freshStr .groupBy, .freshStr .having,
      .freshStr .orderBy, .freshMap, .freshJoins, .setLimit 0, .setOffset 0]
  | .Rollup columns =>
    if columns.length > 0 then [.appendStr .groupBy ["ROLLUP(" ++ stringsJoin columns ", " ++ ")"]]
    else []
  | .Cube columns =>
    if columns.length > 0 then [.appendStr .groupBy ["CUBE(" ++ stringsJoin columns ", " ++ ")"]]
    else []
  | .GroupingSets sets =>
    if sets.length > 0 then
      let setClauses : List String :=
        sets.foldl
          (fun acc set =>
            if set.length > 0 then acc ++ ["(" ++ stringsJoin set ", " ++ ")"] else acc)
          []
      if setClauses.length > 0 then
        [.appendStr .groupBy ["GROUPING SETS (" ++ stringsJoin setClauses ", " ++ ")"]]
      else []
    else []
  | .SelectGrouping column alias_ =>
    let alias_ := if alias_ ≠ "" then " AS " ++ alias_ else alias_
    [.appendStr .columns ["GROUPING(" ++ column ++ ")" ++ alias_]]
  | .SelectGroupingID columns alias_ =>
    if columns.length = 0 then []
    else
      let expr := "GROUPING_ID(" ++ stringsJoin columns ", " ++ ")"
      let expr := if alias_ ≠ "" then expr ++ " AS " ++ alias_ else expr
      [.appendStr .columns [expr]]
  | .SelectAggregateWithFilter aggFunc column filterCondition alias_ =>
    let expr := aggFunc ++ "(" ++ column ++ ") FILTER (WHERE " ++ filterCondition ++ ")"
    let expr := if alias_ ≠ "" then expr ++ " AS " ++ alias_ else expr
    [.appendStr .columns [expr]]
  | .SelectCoalesceFixed columns alias_ =>
    if columns.length = 0 then []
    else
      let coalesceSql := "COALESCE(" ++ stringsJoin columns ", " ++ ")"
      let coalesceSql := if alias_ ≠ "" then coalesceSql ++ " AS " ++ alias_ else coalesceSql
      [.appendStr .columns [coalesceSql]]
  | .SelectNullifFixed column1 column2 alias_ =>
    let nullifSql := "NULLIF(" ++ column1 ++ ", " ++ column2 ++ ")"
    let nullifSql := if alias_ ≠ "" then nullifSql ++ " AS " ++ alias_ else nullifSql
    [.appendStr .columns [nullifSql]]
  | .WhereCoalesceFixed columns operator value =>
    if columns.length = 0 then []
    else
      [.appendStr .conditions
        ["COALESCE(" ++ stringsJoin columns ", " ++ ") " ++ operator ++ " " ++ value]]
  | .SelectSimpleCase caseExpr ord alias_ =>
    let caseSQL := caseExpr.Build ord
    if caseSQL ≠ "" then
      let caseSQL := if alias_ ≠ "" then caseSQL ++ " AS " ++ alias_ else caseSQL
      [.appendStr .columns [caseSQL]]
    else []
  | .WhereIsNull column => [.appendStr .conditions [column ++ " IS NULL"]]
  | .WhereIsNotNull column => [.appendStr .conditions [column ++ " IS NOT NULL"]]
  | .AggregateWithCoalesce column fn defaultValue =>
    [.appendStr .columns ["COALESCE(" ++ fn ++ "(" ++ column ++ "), " ++ defaultValue ++ ")"]]
  | .SelectCharLength column alias_ =>
    let expr := "CHAR_LENGTH(" ++ column ++ ")"
    let expr := if alias_ ≠ "" then expr ++ " AS " ++ alias_ else expr
    [.appendStr .columns [expr]]
  | .SelectStringPosition column substring alias_ =>
    let expr := "POSITION(" ++ substring ++ " IN " ++ column ++ ")"
    let expr := if alias_ ≠ "" then expr ++ " AS " ++ alias_ else expr
    [.appendStr .columns [expr]]
  | .SelectReplace column from_ to_ alias_ =>
    let expr := "REPLACE(" ++ column ++ ", " ++ from_ ++ ", " ++ to_ ++ ")"
    let expr := if alias_ ≠ "" then expr ++ " AS " ++ alias_ else expr
    [.appendStr .columns [expr]]
  | .SelectCast column targetType alias_ =>
    let expr := "CAST(" ++ column ++ " AS " ++ targetType ++ ")"
    let expr := if alias_ ≠ "" then expr ++ " AS " ++ alias_ else expr
    [.appendStr .columns [expr]]
  | .SelectCurrentDate alias_ =>
    let expr := "CURRENT_DATE"
    let expr := if alias_ ≠ "" then expr ++ " AS " ++ alias_ else expr
    [.appendStr .columns [expr]]
  | .SelectCurrentTimestamp alias_ =>
    let expr := "CURRENT_TIMESTAMP"
    let expr := if alias_ ≠ "" then expr ++ " AS " ++ alias_ else expr
    [.appendStr .columns [expr]]
  | .SelectExtract column field alias_ =>
    let expr := "EXTRACT(" ++ field ++ " FROM " ++ column ++ ")"
    let expr := if alias_ ≠ "" then expr ++ " AS " ++ alias_ else expr
    [.appendStr .columns [expr]]
  | .SelectIf condition trueVal falseVal alias_ =>
    let expr := "CASE WHEN " ++ condition ++ " THEN " ++ trueVal ++ " ELSE " ++ falseVal ++ " END"
    let expr := if alias_ ≠ "" then expr ++ " AS " ++ alias_ else expr
    [.appendStr .columns [expr]]
  | .WhereBetween column start end_ =>
    [.appendStr .conditions [column ++ " BETWEEN " ++ start ++ " AND " ++ end_]]
  | .WhereNotBetween column start end_ =>
    [.appendStr .conditions [column ++ " NOT BETWEEN " ++ start ++ " AND " ++ end_]]
  | .WhereArrayContains column value =>
    [.appendStr .conditions [value ++ " = ANY(" ++ column ++ ")"]]
  | .Distinct => [.distinctFirst]
  | .SetSelectColumns columns =>
    .freshStr .columns :: (if columns.length > 0 then [.appendStr .columns columns] else [])
  | .ClearConditions => [.freshStr .conditions]
  | .ClearGroupBy => [.freshStr .groupBy]

namespace Heap

/-- A mutator call on the builder at address `p`. -/
def call (h : Heap) (p : Nat) (m : Mutator) : Heap := m.body.foldl (fun h s => s.exec p h) h

/-- A sequence of mutator calls on the builder at address `p`. -/
def calls (h : Heap) (p : Nat) (ms : List Mutator) : Heap := ms.foldl (fun h m => h.call p m) h

/-- Function `NewQueryBuilder`: five empty `[]string{}`, an empty
`[]JoinClause{}`, a new map and the struct itself are allocated; the result is
the new heap and the address of the builder. -/
def NewQueryBuilder (h : Heap) (table : String) : Heap × Nat :=
  let n := h.strs.length
  ({ h with
      strs := h.strs ++ [[], [], [], [], []]
      joinArrs := h.joinArrs ++ [[]]
      maps := h.maps ++ [∅]
      objs := h.objs ++
        [{ table := table
           strs := fun f =>
            match f with
            | .columns => { arr := n, len := 0 }
            | .conditions => { arr := n + 1, len := 0 }
            | .groupBy => { arr := n + 2, len := 0 }
            | .having => { arr := n + 3, len := 0 }
            | .orderBy => { arr := n + 4, len := 0 }
           aggregates := h.maps.length
           limit := 0
           offset := 0
           joins := { arr := h.joinArrs.length, len := 0 } }] },
    h.objs.length)

/-- The fields of the builder at address `p`, as the statements of a method
read them; the zero struct when `p` is no builder. -/
def load (h : Heap) (p : Nat) : QueryBuilder := (h.view p).getD (BDMirea.NewQueryBuilder "")

/-- Method `Copy` on the builder at address `qb`: each statement reads the
field of `qb` from the heap as it is then; `ord` is the order of the loop over
`qb.aggregates`.  The result is the new heap and the address of the copy. -/
def Copy (h : Heap) (qb : Nat) (ord : List Entry) : Heap × Nat :=
  let r := h.NewQueryBuilder (h.load qb).table
  let newQB := r.2
  let h := r.1
  let h := (Stmt.appendStr .columns (h.load qb).columns).exec newQB h
  let h := (Stmt.appendStr .conditions (h.load qb).conditions).exec newQB h
  let h := (Stmt.appendStr .groupBy (h.load qb).groupBy).exec newQB h
  let h := (Stmt.appendStr .having (h.load qb).having).exec newQB h
  let h := (Stmt.appendStr .orderBy (h.load qb).orderBy).exec newQB h
  let h := (Stmt.appendJoins (h.load qb).joins).exec newQB h
  let h := (Stmt.setLimit (h.load qb).limit).exec newQB h
  let h := (Stmt.setOffset (h.load qb).offset).exec newQB h
  let h := ord.foldl (fun h e => (Stmt.mapSet e.1 e.2).exec newQB h) h
  (h, newQB)

end Heap

/-! ## Statements on builder states -/

/-- The field `f` of a builder state. -/
def getStrs (f : StrField) (qb : QueryBuilder) : List String :=
  match f with
  | .columns => qb.columns
  | .conditions => qb.conditions
  | .groupBy => qb.groupBy
  | .having => qb.having
  | .orderBy => qb.orderBy

/-- The builder state with the field `f` replaced. -/
def setStrs (f : StrField) (v : List String) (qb : QueryBuilder) : QueryBuilder :=
  match f with
  | .columns => { qb with columns := v }
  | .conditions => { qb with conditions := v }
  | .groupBy => { qb with groupBy := v }
  | .having => { qb with having := v }
  | .orderBy => { qb with orderBy := v }

/-- The effect of a statement on the state of the receiver. -/
def Stmt.run : Stmt → QueryBuilder → QueryBuilder
  | .appendStr f xs, qb => setStrs f (getStrs f qb ++ xs) qb
  | .freshStr f, qb => setStrs f [] qb
  | .appendJoins js, qb => { qb with joins := qb.joins ++ js }
  | .freshJoins, qb => { qb with joins := [] }
  | .mapSet k v, qb => { qb with aggregates := qb.aggregates.insert k v }
  | .freshMap, qb => { qb with aggregates := ∅ }
  | .setLimit n, qb => { qb with limit := n }
  | .setOffset n, qb => { qb with offset := n }
  | .distinctFirst, qb =>
    match qb.columns with
    | [] => qb
    | c :: rest => { qb with columns := ("DISTINCT " ++ c) :: rest }

/-! ## Separation of builders in the heap -/

/-- The builder at `q` exists with all its storage and the builder at `p` shares none of it. -/
def Heap.Apart (h : Heap) (p q : Nat) : Prop :=
  p ≠ q ∧ ∃ oq, h.objs[q]? = some oq ∧ (∀ g, (oq.strs g).arr < h.strs.length) ∧
    oq.joins.arr < h.joinArrs.length ∧ oq.aggregates < h.maps.length ∧
    ∀ op, h.objs[p]? = some op →
      (∀ f g, (op.strs f).arr ≠ (oq.strs g).arr) ∧ op.joins.arr ≠ oq.joins.arr ∧
        op.aggregates ≠ oq.aggregates

/-- The builder at `p` exists and its slices and its map lie in the heap. -/
def Heap.Valid (h : Heap) (p : Nat) : Prop :=
  ∃ op, h.objs[p]? = some op ∧ (∀ f, (op.strs f).arr < h.strs.length) ∧
    op.joins.arr < h.joinArrs.length ∧ op.aggregates < h.maps.length

/-- The builders at `p` and `q` share no storage, both exist, and the state of
the builder at `q` is `v`. -/
def Heap.Good (v : Option QueryBuilder) (h : Heap) (p q : Nat) : Prop :=
  h.Apart p q ∧ h.Valid p ∧ h.view q = v

/-- The builder at `p` exists, every slice of it lies within its backing array,
its `[]string` fields have backing arrays of their own, and its map exists. -/
def Heap.Own (h : Heap) (p : Nat) : Prop :=
  ∃ op, h.objs[p]? = some op ∧
    (∀ f, ∃ a, h.strs[(op.strs f).arr]? = some a ∧ (op.strs f).len ≤ a.length) ∧
    (∀ f g, f ≠ g → (op.strs f).arr ≠ (op.strs g).arr) ∧
    (∃ a, h.joinArrs[op.joins.arr]? = some a ∧ op.joins.len ≤ a.length) ∧
    op.aggregates < h.maps.length

/-- A stage of `Copy`: the original at `b` has the state `qb` and shares no
storage with the copy at `c`, which owns its storage and has the state `x`. -/
def Heap.Stage (qb : QueryBuilder) (h : Heap) (c b : Nat) (x : QueryBuilder) : Prop :=
  h.Good (some qb) c b ∧ h.Own c ∧ h.view c = some x

/-- A heap with no object; `append` doubles the capacity when it moves a slice. -/
def emptyHeap : Heap :=
  { strs := [], joinArrs := [], maps := [], objs := [], growth := fun oldCap _ => oldCap }

/-- The heap after `B := NewQueryBuilder("t"); B.Where("x")`; `B` is at address 0. -/
def heapWhereX : Heap := (emptyHeap.NewQueryBuilder "t").1.call 0 (.Where "x")

/-- The heap after `B := NewQueryBuilder("t"); B.Where("a=1"); B.Where("b=2")`;
`B` is at address 0 and its conditions have a spare slot of capacity. -/
def heapWhereAB : Heap :=
  ((emptyHeap.NewQueryBuilder "t").1.call 0 (.Where "a=1")).call 0 (.Where "b=2")

/-! ## The rendering contract in the words of the specification -/

/-- The elements of a list joined by a separator. -/
def joined (sep : String) : List String → String
  | [] => ""
  | [a] => a
  | a :: b :: rest => a ++ sep ++ joined sep (b :: rest)

/-- Section S: `*` when there are neither columns nor aggregates, otherwise the
columns joined by `, `, followed, when there is an aggregate, by `FN(col)`,
which `, ` precedes iff there are columns.  `aggs` lists the (at most one)
entries of the aggregates map. -/
def specSelect (columns : List String) (aggs : List Entry) : String :=
  if columns = [] ∧ aggs = [] then "*"
  else
    joined ", " columns ++
      (match aggs with
      | [] => ""
      | e :: _ => (if columns = [] then "" else ", ") ++ (e.2 ++ "(" ++ e.1 ++ ")"))

/-- The text of one join: ` <Type> JOIN <Table> ON <OnCondition>`. -/
def joinText (j : JoinClause) : String :=
  " " ++ j.Type_ ++ " JOIN " ++ j.Table ++ " ON " ++ j.OnCondition

/-- Section J: the texts of the joins, concatenated in list order. -/
def specJoins : List JoinClause → String
  | [] => ""
  | j :: js => joinText j ++ specJoins js

/-- Sections W, G, H and O: the keyword and the joined entries iff there is an
entry, else the empty string. -/
def specList (keyword sep : String) (xs : List String) : String :=
  if xs = [] then "" else keyword ++ joined sep xs

/-- Sections L and F: the keyword and the decimal number iff the number is
positive, else the empty string. -/
def specNum (keyword : String) (n : Int) : String :=
  if n > 0 then keyword ++ fmtInt n else ""

/-- The sections after the joins: W, G, H, O, L and F. -/
def specTail (qb : QueryBuilder) : String :=
  specList " WHERE " " AND " qb.conditions ++ specList " GROUP BY " ", " qb.groupBy ++
    specList " HAVING " " AND " qb.having ++ specList " ORDER BY " ", " qb.orderBy ++
    specNum " LIMIT " qb.limit ++ specNum " OFFSET " qb.offset

/-- The whole statement: `SELECT S FROM table J W G H O L F`. -/
def specBuild (qb : QueryBuilder) (aggs : List Entry) : String :=
  "SELECT " ++ specSelect qb.columns aggs ++ " FROM " ++ qb.table ++ specJoins qb.joins ++
    specTail qb

/-- A string is whitespace-only when it holds no character other than white
space; the empty string is whitespace-only. -/
def whitespaceOnly (s : String) : Bool := s.data.all unicodeIsSpace

/-- The text of one common table expression: `name AS (query)` without column
aliases, `name (c1, c2, ...) AS (query)` with them. -/
def cteText (d : CTEDefinition) : String :=
  if d.Columns = [] then d.Name ++ " AS (" ++ d.Query ++ ")"
  else d.Name ++ " (" ++ joined ", " d.Columns ++ ") AS (" ++ d.Query ++ ")"

/-- A builder with two aggregates, on columns `a` and `b`. -/
def twoAggregates : QueryBuilder :=
  ((NewQueryBuilder "t").Aggregate "a" Sum).Aggregate "b" Count

/-- A builder with the column `category` and the aggregate `SUM(price)`. -/
def categorySum : QueryBuilder :=
  ((NewQueryBuilder "t").Select ["category"]).Aggregate "price" Sum

/-- Section S for any number of aggregates: `aggs` lists the entries of the
aggregates map in the order the rendering loop met them. -/
def specSelectAll (columns : List String) (aggs : List Entry) : String :=
  if columns = [] ∧ aggs = [] then "*"
  else
    joined ", " columns ++
      (if aggs = [] then ""
       else (if columns = [] then "" else ", ") ++
        joined ", " (aggs.map (fun e => e.2 ++ "(" ++ e.1 ++ ")")))

/-- A builder with an inner join followed by a left join. -/
def twoJoins : QueryBuilder :=
  ((NewQueryBuilder "products").InnerJoin "categories" "products.category_id = categories.id").LeftJoin
    "brands" "products.brand_id = brands.id"

/-- A wrapper with the one common table expression `recent`. -/
def recentCTE : QueryBuilderWithCTE := (NewQueryBuilderWithCTE "recent").AddCTE "recent" "q" []

/-- The decimal digits of a positive integer. -/
def decimal (n : Int) : String := Nat.repr n.toNat

/-- The text `needle` occurs in the text `hay`. -/
def occursIn (needle hay : String) : Prop := needle.data <:+: hay.data

/-- The alias rule of the expression renderers: the template alone for the
empty alias, the template followed by ` AS ` and the alias otherwise. -/
def withAlias (template alias_ : String) : String :=
  if alias_ = "" then template else template ++ " AS " ++ alias_

/-- The scenario of the specification: relation `products`, empty `Select()`,
`WhereGt("price", "100")`, `Limit(5)`. -/
def productsScenario : QueryBuilder :=
  (((NewQueryBuilder "products").Select []).WhereGt "price" "100").Limit 5

/-- The grouping scenario of the specification on relation `t`. -/
def groupScenario (t : String) : QueryBuilder :=
  (((NewQueryBuilder t).GroupBy ["category"]).Aggregate "id" Count).Having "COUNT(*) > 1"

/-- A builder on the relation `MIN(a)` after `Aggregate("a", Min)` and then
`Aggregate("a", Max)`. -/
def minThenMax : QueryBuilder :=
  ((NewQueryBuilder "MIN(a)").Aggregate "a" Min).Aggregate "a" Max

/-- A builder on `t` after `Aggregate("a", "UM")` and then `Aggregate("a", Sum)`. -/
def umThenSum : QueryBuilder := ((NewQueryBuilder "t").Aggregate "a" "UM").Aggregate "a" Sum

/-! ## Identifier validation (`operation.go`) -/

/-- Regular expressions over characters, as far as the pattern of
`validateSQLIdent` needs them: a character class is a list of inclusive
ranges. -/
inductive Re where
  | none
  | eps
  | cls (ranges : List (Char × Char))
  | cat (a b : Re)
  | alt (a b : Re)
  | star (a : Re)

namespace Re

/-- The character lies in one of the ranges of a class. -/
def inClass (ranges : List (Char × Char)) (c : Char) : Bool :=
  ranges.any (fun r => decide (r.1.toNat ≤ c.toNat ∧ c.toNat ≤ r.2.toNat))

/-- The expression matches the empty text. -/
def nullable : Re → Bool
  | none => false
  | eps => true
  | cls _ => false
  | cat a b => a.nullable && b.nullable
  | alt a b => a.nullable || b.nullable
  | star _ => true

/-- The expression for what may follow the character `c`. -/
def deriv (c : Char) : Re → Re
  | none => none
  | eps => none
  | cls ranges => if inClass ranges c then eps else none
  | cat a b => if a.nullable then alt (cat (deriv c a) b) (deriv c b) else cat (deriv c a) b
  | alt a b => alt (deriv c a) (deriv c b)
  | star a => cat (deriv c a) (star a)

/-- The expression matches the whole text. -/
def matchesAll (r : Re) (text : List Char) : Bool := (text.foldl (fun r c => deriv c r) r).nullable

end Re

/-- The pattern `^[A-Za-z_][A-Za-z0-9_]*$`.  Without the flag `m`, `^` and `$`
of Go's `regexp` match only at the beginning and at the end of the text, so
`regexp.MatchString` with this pattern asks whether the expression between
them matches the whole text. -/
def identPattern : Re :=
  .cat (.cls [('A', 'Z'), ('a', 'z'), ('_', '_')])
    (.star (.cls [('A', 'Z'), ('a', 'z'), ('0', '9'), ('_', '_')]))

/-- Function `validateSQLIdent`; the result is the message of the error, `none`
for `nil`.  The pattern compiles, so `regexp.MatchString` returns no error of
its own. -/
def validateSQLIdent (name : String) : Option String :=
  if name = "" then some "Индификатор не может быть пустым"
  else
    let matched := identPattern.matchesAll name.data
    if !matched then some ("недопустимый SQL индификатор: " ++ name) else none

/-- The claim's reading of the pattern: the first character is an ASCII letter
or an underscore and every following character is an ASCII letter, an ASCII
digit or an underscore. -/
def isIdentifier (name : String) : Prop :=
  ∃ c rest, name.data = c :: rest ∧ (c.isAlpha = true ∨ c = '_') ∧
    ∀ d ∈ rest, d.isAlpha = true ∨ d.isDigit = true ∨ d = '_'

/-! ## The database collaborator and DDL operations (`operation.go`) -/

/-- The connection pool as the DDL operations see it: the statements issued so
far and the answer of the driver, `none` for success or the message of its
error. -/
structure Pool where
  issued : List String
  answer : String → Option String

/-- Go `pool.Exec(ctx, sql)`: the statement is issued and the driver answers. -/
def Pool.Exec (pool : Pool) (sql : String) : Option String × Pool :=
  (pool.answer sql, { pool with issued := pool.issued ++ [sql] })

/-- Struct `ColumnDefinition`; the field `Type` of the source is `Type_` here. -/
structure ColumnDefinition where
  Name : String
  Type_ : String
  Constraints : String
deriving DecidableEq, Repr

/-- The loop of `CreateTablesWithTypes` over the columns. -/
def columnDefinitions (columns : List ColumnDefinition) : List String :=
  columns.foldl
    (fun defs col =>
      let colDef := col.Name ++ " " ++ col.Type_
      let colDef := if col.Constraints ≠ "" then colDef ++ (" " ++ col.Constraints) else colDef
      defs ++ [colDef])
    []

/-- Function `CreateTablesWithTypes`: the error it returns (`none` for `nil`)
and the pool afterwards. -/
def CreateTablesWithTypes (pool : Pool) (tableName : String) (columns : List ColumnDefinition) :
    Option String × Pool :=
  if columns.length = 0 then (some "список столбцов не может быть пустым", pool)
  else
    let sql :=
      "CREATE TABLE IF NOT EXISTS " ++ tableName ++ " (\n\t" ++
        stringsJoin (columnDefinitions columns) ",\n\t" ++ "\n)"
    let r := pool.Exec sql
    match r.1 with
    | some err => (some ("ошибка создания таблицы " ++ tableName ++ ": " ++ err), r.2)
    | none => (none, r.2)

/-- Function `CreateTablesWithTypesAdvanced`. -/
def CreateTablesWithTypesAdvanced (pool : Pool) (tableName : String)
    (columns : List ColumnDefinition) (tableConstraints : List String) : Option String × Pool :=
  if columns.length = 0 then (some "список столбцов не может быть пустым", pool)
  else
    let allDefinitions := columnDefinitions columns
    let allDefinitions :=
      if tableConstraints.length > 0 then allDefinitions ++ tableConstraints else allDefinitions
    let sql :=
      "CREATE TABLE IF NOT EXISTS " ++ tableName ++ " (\n\t" ++
        stringsJoin allDefinitions ",\n\t" ++ "\n)"
    let r := pool.Exec sql
    match r.1 with
    | some err => (some ("ошибка создания таблицы " ++ tableName ++ ": " ++ err), r.2)
    | none => (none, r.2)

/-- Function `AddColumn`, a sibling of the two functions above. -/
def AddColumn (pool : Pool) (table col typ constraints : String) : Option String × Pool :=
  match validateSQLIdent table with
  | some err => (some err, pool)
  | none =>
    match validateSQLIdent col with
    | some err => (some err, pool)
    | none =>
      if typ = "" then (some "типо столбца не может быть пустым", pool)
      else
        let query := "ALTER TABLE " ++ table ++ " ADD COLUMN " ++ col ++ " " ++ typ ++ " " ++ constraints
        let r := pool.Exec query
        match r.1 with
        | some err => (some ("Не удалось добавить столбец: " ++ err), r.2)
        | none => (none, r.2)

/-- A pool on which nothing was issued yet and every statement succeeds. -/
def freshPool : Pool := { issued := [], answer := fun _ => none }

/-! ## Execution of a query (`querybuilder.go`, `operation_extended.go`) -/

/-- A value the driver returns for a column; `null` is Go's `nil`.  The other
constructors are a sample of the scalar types of the driver. -/
inductive DriverValue where
  | null
  | int (n : Int)
  | text (s : String)
  | bool (b : Bool)
deriving DecidableEq, Repr

/-- Go `fmt.Sprintf("%v", v)`: `<nil>` for `nil`, the default text otherwise. -/
def fmtV : DriverValue → String
  | .null => "<nil>"
  | .int n => fmtInt n
  | .text s => s
  | .bool b => if b then "true" else "false"

/-- What the driver hands back for a query: the names of the columns, for each
row the values or the error of `rows.Values()`, and the error of `rows.Err()`. -/
structure Rows where
  fields : List String
  values : List (Except String (List DriverValue))
  err : Option String

/-- The loop `for rows.Next()` of `Execute`. -/
def executeLoop :
    List (Except String (List DriverValue)) → List (List String) → Except String (List (List String))
  | [], result => .ok result
  | .error err :: _, _ => .error ("ошибка чтения строки: " ++ err)
  | .ok values :: rest, result =>
    let row := values.foldl (fun row v => row ++ [fmtV v]) []
    executeLoop rest (result ++ [row])

/-- Method `Execute`; `query` is `pool.Query` of the collaborator and `ord` the
range order inside `Build`. -/
def QueryBuilder.Execute (qb : QueryBuilder) (ord : List Entry)
    (query : String → Except String Rows) : Except String (List (List String)) :=
  let sql := qb.Build ord
  match query sql with
  | .error err => .error ("ошибка выполнения запроса: " ++ err)
  | .ok rows =>
    let result : List (List String) := []
    let header := rows.fields.foldl (fun header fd => header ++ [fd]) []
    let result := result ++ [header]
    match executeLoop rows.values result with
    | .error e => .error e
    | .ok result =>
      match rows.err with
      | some err => .error ("ошибка при итерации по строкам: " ++ err)
      | none => .ok result

/-- The loop `for rows.Next()` of `ExecuteCTEQuery`, with its test `v == nil`. -/
def executeCTELoop :
    List (Except String (List DriverValue)) → List (List String) → Except String (List (List String))
  | [], result => .ok result
  | .error err :: _, _ => .error ("error reading row: " ++ err)
  | .ok values :: rest, result =>
    let rowData :=
      values.foldl
        (fun rowData v => if v = DriverValue.null then rowData ++ ["NULL"] else rowData ++ [fmtV v])
        []
    executeCTELoop rest (result ++ [rowData])

/-- Function `ExecuteCTEQuery`; `mainQuery` is `none` for a nil pointer. -/
def ExecuteCTEQuery (query : String → Except String Rows) (cteDefinitions : List CTEDefinition)
    (mainQuery : Option QueryBuilder) (ord : List Entry) : Except String (List (List String)) :=
  if cteDefinitions.length = 0 then .error "at least one CTE definition required"
  else
    match mainQuery with
    | none => .error "main query cannot be nil"
    | some mainQuery =>
      let qbc : QueryBuilderWithCTE := { CTEs := cteDefinitions, QB := mainQuery }
      let sql := qbc.Build ord
      match query sql with
      | .error err => .error ("failed to execute CTE query: " ++ err)
      | .ok rows =>
        let result : List (List String) := []
        let header := rows.fields.foldl (fun header fd => header ++ [fd]) []
        let result := result ++ [header]
        executeCTELoop rows.values result

/-- A driver that answers every query with the columns `id`, `name` and the one
row `1, NULL`. -/
def oneNullRow : String → Except String Rows :=
  fun _ => .ok { fields := ["id", "name"], values := [.ok [.int 1, .null]], err := none }

/-! ## Subquery predicates -/

/-- Modelled from the spec: the method `WhereExists` of `QueryBuilder` is
called by the user interface but its definition is not among the sources.  The
specification says it renders `EXISTS (<subBuilder.Build()>)` at call time and
appends the text to the predicates.  `ord` is the range order of the
`Build` of the subquery. -/
def QueryBuilder.WhereExists (qb sub : QueryBuilder) (ord : List Entry) : QueryBuilder :=
  { qb with conditions := qb.conditions ++ ["EXISTS (" ++ sub.Build ord ++ ")"] }

/-- The subquery of the specification's example: `SELECT 1 FROM t WHERE t.x = 1`. -/
def subqueryOne : QueryBuilder := ((NewQueryBuilder "t").Select ["1"]).Where "t.x = 1"

/-! ## Grouping sets and CASE in the words of the specification -/

/-- The text of one grouping set: its columns joined by `, ` between brackets. -/
def setClause (set : List String) : String := "(" ++ joined ", " set ++ ")"

/-- One segment ` WHEN v THEN r` of a simple CASE. -/
def whenSegment (e : Entry) : String := " WHEN " ++ e.1 ++ " THEN " ++ e.2

/-- The concatenation of texts. -/
def concatAll : List String → String
  | [] => ""
  | a :: rest => a ++ concatAll rest

/-! # Theorems -/

/-! ## Library functions -/

theorem stringsJoin_foldl (sep : String) (rest : List String) :
    ∀ (p a : String), rest.foldl (fun b s => b ++ sep ++ s) (p ++ a) = p ++ joined sep (a :: rest) := by
  induction rest with
  | nil => intro p a; rfl
  | cons b r ih =>
    intro p a
    have h := ih (p ++ a ++ sep) b
    simp only [List.foldl_cons, joined]
    rw [h]
    simp only [String.append_assoc]

theorem stringsJoin_eq_joined (xs : List String) (sep : String) :
    stringsJoin xs sep = joined sep xs := by
  cases xs with
  | nil => rfl
  | cons a rest =>
    have h := stringsJoin_foldl sep rest "" a
    simp only [String.empty_append] at h
    exact h

theorem rangeOrder_length {m : StrMap} {ord : List Entry} (h : RangeOrder m ord) :
    mapLen m = ord.length := by
  unfold RangeOrder at h
  unfold mapLen
  rw [← h]
  rfl

theorem joins_foldl (js : List JoinClause) :
    ∀ q : String,
      js.foldl
        (fun query join =>
          query ++ " " ++ join.Type_ ++ " JOIN " ++ join.Table ++ " ON " ++ join.OnCondition) q
        = q ++ specJoins js := by
  induction js with
  | nil => intro q; simp [specJoins, String.append_empty]
  | cons j js ih =>
    intro q
    rw [List.foldl_cons, ih]
    simp only [specJoins, joinText, String.append_assoc]

theorem append_ite (c : Prop) [Decidable c] (q a : String) :
    (if c then q ++ a else q) = q ++ (if c then a else "") := by
  split_ifs <;> simp [String.append_empty]

theorem build_eq_head_tail (qb : QueryBuilder) (ord : List Entry) :
    qb.Build ord =
      "SELECT " ++
        ((if qb.columns.length = 0 ∧ mapLen qb.aggregates = 0 then "*"
         else
          (if qb.columns.length > 0 then stringsJoin qb.columns ", " else "") ++
            (if mapLen qb.aggregates > 0 then
              (if qb.columns.length > 0 then ", " else "") ++
                stringsJoin (ord.foldl (fun acc e => acc ++ [e.2 ++ "(" ++ e.1 ++ ")"]) []) ", "
             else "")) ++
        (" FROM " ++ (qb.table ++ (specJoins qb.joins ++ specTail qb)))) := by
  have hsel : ∀ q : String,
      (if qb.columns.length = 0 ∧ mapLen qb.aggregates = 0 then q ++ "*"
       else
        if mapLen qb.aggregates > 0 then
          (if qb.columns.length > 0 then
              (if qb.columns.length > 0 then q ++ stringsJoin qb.columns ", " else q) ++ ", "
            else (if qb.columns.length > 0 then q ++ stringsJoin qb.columns ", " else q)) ++
            stringsJoin (ord.foldl (fun acc e => acc ++ [e.2 ++ "(" ++ e.1 ++ ")"]) []) ", "
        else (if qb.columns.length > 0 then q ++ stringsJoin qb.columns ", " else q)) =
      q ++ (if qb.columns.length = 0 ∧ mapLen qb.aggregates = 0 then "*"
         else
          (if qb.columns.length > 0 then stringsJoin qb.columns ", " else "") ++
            (if mapLen qb.aggregates > 0 then
              (if qb.columns.length > 0 then ", " else "") ++
                stringsJoin (ord.foldl (fun acc e => acc ++ [e.2 ++ "(" ++ e.1 ++ ")"]) []) ", "
             else "")) := by
    intro q
    split_ifs <;> simp [String.append_assoc, String.append_empty, String.empty_append]
  have hlist : ∀ (q kw sep : String) (xs : List String),
      (if xs.length > 0 then q ++ kw ++ stringsJoin xs sep else q) = q ++ specList kw sep xs := by
    intro q kw sep xs
    cases xs <;> simp [specList, stringsJoin_eq_joined, String.append_assoc, String.append_empty]
  have hnum : ∀ (q kw : String) (n : Int),
      (if n > 0 then q ++ kw ++ fmtInt n else q) = q ++ specNum kw n := by
    intro q kw n
    unfold specNum
    split_ifs <;> simp [String.append_assoc, String.append_empty]
  unfold QueryBuilder.Build
  simp only [hsel, joins_foldl, hlist, hnum]
  simp only [specTail, String.append_assoc, String.empty_append]

/-! ## The contract of `Build` -/

theorem build_le_one (qb : QueryBuilder) (ord : List Entry)
    (hord : RangeOrder qb.aggregates ord) (h1 : mapLen qb.aggregates ≤ 1) :
    qb.Build ord = specBuild qb ord := by
  rw [build_eq_head_tail]
  rw [rangeOrder_length hord] at h1 ⊢
  unfold specBuild specSelect
  simp only [stringsJoin_eq_joined]
  match ord, h1 with
  | [], _ =>
    cases hc : qb.columns <;>
      simp [-String.reduceAppend, joined, String.append_assoc, String.append_empty,
        String.empty_append]
  | [e], _ =>
    cases hc : qb.columns <;>
      simp [-String.reduceAppend, joined, String.append_assoc, String.append_empty,
        String.empty_append]

/-- C1: for every builder state whose aggregates map has at most one entry,
`Build` returns `SELECT S FROM table J W G H O L F` with the sections of the
specification (`specBuild`): S is `*` or the columns and the aggregate, J the
joins in list order, W, G, H, O the non-empty lists behind their keywords, L and
F the positive limit and offset; an absent section is the empty string. -/
theorem build_contract (qb : QueryBuilder) (ord : List Entry)
    (hord : RangeOrder qb.aggregates ord) (h1 : mapLen qb.aggregates ≤ 1) :
    qb.Build ord =
      "SELECT " ++ specSelect qb.columns ord ++ " FROM " ++ qb.table ++ specJoins qb.joins ++
        (specList " WHERE " " AND " qb.conditions ++ specList " GROUP BY " ", " qb.groupBy ++
          specList " HAVING " " AND " qb.having ++ specList " ORDER BY " ", " qb.orderBy ++
          specNum " LIMIT " qb.limit ++ specNum " OFFSET " qb.offset) :=
  build_le_one qb ord hord h1

theorem build_contract_witness :
    RangeOrder categorySum.aggregates [⟨"price", "SUM"⟩] ∧ mapLen categorySum.aggregates ≤ 1 ∧
      categorySum.Build [⟨"price", "SUM"⟩] =
        "SELECT " ++ specSelect categorySum.columns [⟨"price", "SUM"⟩] ++ " FROM " ++
          categorySum.table ++ specJoins categorySum.joins ++
          (specList " WHERE " " AND " categorySum.conditions ++
            specList " GROUP BY " ", " categorySum.groupBy ++
            specList " HAVING " " AND " categorySum.having ++
            specList " ORDER BY " ", " categorySum.orderBy ++
            specNum " LIMIT " categorySum.limit ++ specNum " OFFSET " categorySum.offset) :=
  ⟨by decide, by decide, build_contract categorySum [⟨"price", "SUM"⟩] (by decide) (by decide)⟩

/-! ## Repeated rendering -/

/-- C2, counterexample: with the two aggregates `SUM(a)` and `COUNT(b)` one
call of `Build` may meet the entries as `a, b` and the next as `b, a`; the two
results differ. -/
theorem build_twice_differs :
    RangeOrder twoAggregates.aggregates [⟨"a", "SUM"⟩, ⟨"b", "COUNT"⟩] ∧
      RangeOrder twoAggregates.aggregates [⟨"b", "COUNT"⟩, ⟨"a", "SUM"⟩] ∧
      twoAggregates.Build [⟨"a", "SUM"⟩, ⟨"b", "COUNT"⟩] = "SELECT SUM(a), COUNT(b) FROM t" ∧
      twoAggregates.Build [⟨"b", "COUNT"⟩, ⟨"a", "SUM"⟩] = "SELECT COUNT(b), SUM(a) FROM t" ∧
      twoAggregates.Build [⟨"a", "SUM"⟩, ⟨"b", "COUNT"⟩] ≠
        twoAggregates.Build [⟨"b", "COUNT"⟩, ⟨"a", "SUM"⟩] := by
  refine ⟨by decide, by decide, by decide, by decide, by decide⟩

/-- C2, amended: for every builder state whose aggregates map has at most one
entry, two calls of `Build` with no mutator call in between return identical
strings, whatever order each call ranges over the map in. -/
theorem build_twice_le_one (qb : QueryBuilder) (ord1 ord2 : List Entry)
    (h1 : RangeOrder qb.aggregates ord1) (h2 : RangeOrder qb.aggregates ord2)
    (hle : mapLen qb.aggregates ≤ 1) : qb.Build ord1 = qb.Build ord2 := by
  have hperm : ord1.Perm ord2 := by
    unfold RangeOrder at h1 h2
    exact Multiset.coe_eq_coe.mp (h1.trans h2.symm)
  have hlen : ord1.length ≤ 1 := by rw [← rangeOrder_length h1]; exact hle
  have heq : ord1 = ord2 := by
    match ord1, hlen, hperm with
    | [], _, hp => exact (List.nil_perm.mp hp).symm
    | [e], _, hp => exact (List.perm_singleton.mp hp.symm).symm
  rw [heq]

theorem build_twice_le_one_witness :
    RangeOrder categorySum.aggregates [⟨"price", "SUM"⟩] ∧ mapLen categorySum.aggregates ≤ 1 ∧
      categorySum.Build [⟨"price", "SUM"⟩] = categorySum.Build [⟨"price", "SUM"⟩] :=
  ⟨by decide, by decide,
    build_twice_le_one categorySum [⟨"price", "SUM"⟩] [⟨"price", "SUM"⟩] (by decide) (by decide)
      (by decide)⟩

/-! ## The empty builder -/

/-- C4: for every relation name `t`, `NewQueryBuilder t` renders exactly
`SELECT * FROM t`, and so does every builder on `t` that has no select terms,
no aggregates, no joins, no WHERE, GROUP BY, HAVING or ORDER BY entries and no
(positive) limit or offset. -/
theorem build_fresh (t : String) (ord : List Entry) :
    (NewQueryBuilder t).Build ord = "SELECT * FROM " ++ t ∧
      ∀ qb : QueryBuilder, qb.table = t → qb.columns = [] → qb.aggregates = ∅ → qb.joins = [] →
        qb.conditions = [] → qb.groupBy = [] → qb.having = [] → qb.orderBy = [] →
        qb.limit ≤ 0 → qb.offset ≤ 0 → qb.Build ord = "SELECT * FROM " ++ t := by
  have key : ∀ qb : QueryBuilder, qb.table = t → qb.columns = [] → qb.aggregates = ∅ →
      qb.joins = [] → qb.conditions = [] → qb.groupBy = [] → qb.having = [] → qb.orderBy = [] →
      qb.limit ≤ 0 → qb.offset ≤ 0 → qb.Build ord = "SELECT * FROM " ++ t := by
    intro qb ht hc ha hj hw hg hh ho hl hf
    rw [build_eq_head_tail]
    have hm : mapLen qb.aggregates = 0 := by rw [ha]; rfl
    have hl' : ¬ qb.limit > 0 := not_lt.mpr hl
    have hf' : ¬ qb.offset > 0 := not_lt.mpr hf
    simp [-String.reduceAppend, hc, hm, hj, hw, hg, hh, ho, ht, hl', hf', specJoins, specTail,
      specList, specNum, String.append_empty]
    rfl
  exact ⟨key _ rfl rfl rfl rfl rfl rfl rfl rfl (le_refl _) (le_refl _), key⟩

theorem build_fresh_witness :
    (NewQueryBuilder "products").Build [] = "SELECT * FROM " ++ "products" ∧
      ((NewQueryBuilder "products").Limit (-1)).Build [] = "SELECT * FROM " ++ "products" :=
  ⟨(build_fresh "products" []).1,
    (build_fresh "products" []).2 ((NewQueryBuilder "products").Limit (-1)) rfl rfl rfl rfl rfl
      rfl rfl rfl (by decide) (by decide)⟩

/-! ## WHERE predicates -/

theorem trimSpace_ne_empty (c : String) :
    stringsTrimSpace c ≠ "" ↔ whitespaceOnly c = false := by
  unfold stringsTrimSpace whitespaceOnly
  have hmk : ∀ l : List Char, String.mk l = "" ↔ l = [] := by
    intro l
    constructor
    · intro h; exact congrArg String.data h
    · intro h; subst h; rfl
  rw [Ne, hmk, List.reverse_eq_nil_iff, List.dropWhile_eq_nil_iff]
  constructor
  · intro h
    by_contra hall
    apply h
    have hall' : c.data.all unicodeIsSpace = true := by simpa using hall
    have hnil : c.data.dropWhile unicodeIsSpace = [] :=
      List.dropWhile_eq_nil_iff.mpr (List.all_eq_true.mp hall')
    simp [hnil]
  · intro h hall
    have hd : List.dropWhile unicodeIsSpace (c.data.dropWhile unicodeIsSpace) = [] :=
      List.dropWhile_eq_nil_iff.mpr (fun x hx => hall x (List.mem_reverse.mpr hx))
    rw [List.dropWhile_idempotent] at hd
    have hall' : c.data.all unicodeIsSpace = true :=
      List.all_eq_true.mpr (List.dropWhile_eq_nil_iff.mp hd)
    rw [hall'] at h
    exact Bool.noConfusion h

theorem where_foldl (cs : List String) (hcs : ∀ c ∈ cs, whitespaceOnly c = false) :
    ∀ qb : QueryBuilder,
      cs.foldl QueryBuilder.Where qb = { qb with conditions := qb.conditions ++ cs } := by
  induction cs with
  | nil => intro qb; simp
  | cons c cs ih =>
    intro qb
    have hc : stringsTrimSpace c ≠ "" :=
      (trimSpace_ne_empty c).mpr (hcs c (List.mem_cons_self c cs))
    rw [List.foldl_cons, ih (fun d hd => hcs d (List.mem_cons_of_mem c hd))]
    simp [QueryBuilder.Where, hc]

/-- C7: WHERE predicates are combined with AND in the order added.  For every
relation `t` and every non-empty list `cs` of conditions none of which is
whitespace-only, `Where c1`, ..., `Where cn` on `NewQueryBuilder t` makes
`Build` return `SELECT * FROM t WHERE c1 AND ... AND cn`. -/
theorem where_and (t : String) (cs : List String) (ord : List Entry) (hne : cs ≠ [])
    (hcs : ∀ c ∈ cs, whitespaceOnly c = false) :
    (cs.foldl QueryBuilder.Where (NewQueryBuilder t)).Build ord =
      "SELECT * FROM " ++ t ++ " WHERE " ++ joined " AND " cs := by
  rw [where_foldl cs hcs, build_eq_head_tail]
  have hm : mapLen (NewQueryBuilder t).aggregates = 0 := rfl
  simp [-String.reduceAppend, NewQueryBuilder, specJoins, specTail, specList, specNum, hne,
    String.append_empty, String.append_assoc] at hm ⊢
  simp [-String.reduceAppend, hm]
  rfl

theorem where_and_witness :
    ["a=1", "b=2"] ≠ [] ∧ (∀ c ∈ ["a=1", "b=2"], whitespaceOnly c = false) ∧
      ((["a=1", "b=2"].foldl QueryBuilder.Where (NewQueryBuilder "t")).Build [] =
        "SELECT * FROM " ++ "t" ++ " WHERE " ++ joined " AND " ["a=1", "b=2"]) ∧
      joined " AND " ["a=1", "b=2"] = "a=1 AND b=2" :=
  ⟨by decide, by decide, where_and "t" ["a=1", "b=2"] [] (by decide) (by decide), by decide⟩

/-! ## Columns and aggregates -/

theorem entries_insert_empty (a fn : String) :
    ((∅ : StrMap).insert a fn).entries = {(⟨a, fn⟩ : Entry)} := by
  rw [Finmap.insert_entries_of_neg Finmap.not_mem_empty]
  rfl

theorem aggTerms_foldl (ord : List Entry) :
    ∀ acc : List String,
      ord.foldl (fun acc e => acc ++ [e.2 ++ "(" ++ e.1 ++ ")"]) acc =
        acc ++ ord.map (fun e => e.2 ++ "(" ++ e.1 ++ ")") := by
  induction ord with
  | nil => intro acc; simp
  | cons e r ih => intro acc; simp [ih]

theorem build_general (qb : QueryBuilder) (ord : List Entry)
    (hord : RangeOrder qb.aggregates ord) :
    qb.Build ord =
      "SELECT " ++ specSelectAll qb.columns ord ++ " FROM " ++ qb.table ++ specJoins qb.joins ++
        specTail qb := by
  rw [build_eq_head_tail, rangeOrder_length hord, aggTerms_foldl]
  unfold specSelectAll
  simp only [stringsJoin_eq_joined, List.nil_append]
  cases hc : qb.columns <;> cases ho : ord <;>
    simp [-String.reduceAppend, joined, String.append_assoc, String.append_empty,
      String.empty_append]

/-- C8: columns and aggregates coexist, columns first.  For every relation `t`,
non-empty list of columns `cs`, column `a` and aggregate function `fn`, a fresh
builder after `Select(cs...)` and `Aggregate(a, fn)` renders
`SELECT cs joined by ", ", fn(a) FROM t`. -/
theorem columns_then_aggregate (t a fn : String) (cs : List String) (ord : List Entry)
    (hcs : cs ≠ [])
    (hord : RangeOrder (((NewQueryBuilder t).Select cs).Aggregate a fn).aggregates ord) :
    (((NewQueryBuilder t).Select cs).Aggregate a fn).Build ord =
      "SELECT " ++ joined ", " cs ++ ", " ++ fn ++ "(" ++ a ++ ") FROM " ++ t := by
  have hlen : cs.length > 0 := List.length_pos.mpr hcs
  have hagg : (((NewQueryBuilder t).Select cs).Aggregate a fn).aggregates =
      (∅ : StrMap).insert a fn := by
    simp [QueryBuilder.Aggregate, QueryBuilder.Select, NewQueryBuilder, hlen]
  have hordEq : ord = [⟨a, fn⟩] := by
    unfold RangeOrder at hord
    rw [hagg, entries_insert_empty] at hord
    exact Multiset.coe_eq_singleton.mp hord
  have hcols : (((NewQueryBuilder t).Select cs).Aggregate a fn).columns = cs := by
    simp [QueryBuilder.Aggregate, QueryBuilder.Select, NewQueryBuilder, hlen]
  have hrest : specJoins (((NewQueryBuilder t).Select cs).Aggregate a fn).joins ++
      specTail (((NewQueryBuilder t).Select cs).Aggregate a fn) = "" := by
    simp [QueryBuilder.Aggregate, QueryBuilder.Select, NewQueryBuilder, hlen, specJoins, specTail,
      specList, specNum]
  have htable : (((NewQueryBuilder t).Select cs).Aggregate a fn).table = t := by
    simp [QueryBuilder.Aggregate, QueryBuilder.Select, NewQueryBuilder, hlen]
  rw [build_general _ _ hord, String.append_assoc _ (specJoins _), hrest, hcols, htable, hordEq]
  simp [-String.reduceAppend, specSelectAll, hcs, joined, String.append_assoc,
    String.append_empty]
  rfl

theorem columns_then_aggregate_witness :
    ["category"] ≠ [] ∧
      RangeOrder (((NewQueryBuilder "t").Select ["category"]).Aggregate "price" Sum).aggregates
        [⟨"price", "SUM"⟩] ∧
      (((NewQueryBuilder "t").Select ["category"]).Aggregate "price" Sum).Build
          [⟨"price", "SUM"⟩] =
        "SELECT " ++ joined ", " ["category"] ++ ", " ++ Sum ++ "(" ++ "price" ++ ") FROM " ++ "t" ∧
      "SELECT " ++ joined ", " ["category"] ++ ", " ++ Sum ++ "(" ++ "price" ++ ") FROM " ++ "t" =
        "SELECT category, SUM(price) FROM t" :=
  ⟨by decide, by decide,
    columns_then_aggregate "t" "price" Sum ["category"] [⟨"price", "SUM"⟩] (by decide) (by decide),
    by decide⟩

/-! ## Joins -/

theorem specJoins_append (xs ys : List JoinClause) :
    specJoins (xs ++ ys) = specJoins xs ++ specJoins ys := by
  induction xs with
  | nil => simp [specJoins, String.empty_append]
  | cons j js ih => simp [specJoins, ih, String.append_assoc]

/-- C9: joins render in insertion order with the kind keyword of the mutator
used.  `InnerJoin`, `LeftJoin`, `RightJoin` and `FullJoin` append a join of kind
INNER, LEFT, RIGHT and FULL to the end of the join list and change nothing
else; `Build` emits, directly after ` FROM table`, the text
` KIND JOIN relation ON onCondition` of each join in list order, so the text of
an earlier join ends before the text of a later join begins. -/
theorem joins_in_order (qb : QueryBuilder) (ord : List Entry)
    (hord : RangeOrder qb.aggregates ord) :
    (∀ tb cond : String,
      qb.InnerJoin tb cond = { qb with joins := qb.joins ++ [⟨"INNER", tb, cond⟩] } ∧
      qb.LeftJoin tb cond = { qb with joins := qb.joins ++ [⟨"LEFT", tb, cond⟩] } ∧
      qb.RightJoin tb cond = { qb with joins := qb.joins ++ [⟨"RIGHT", tb, cond⟩] } ∧
      qb.FullJoin tb cond = { qb with joins := qb.joins ++ [⟨"FULL", tb, cond⟩] }) ∧
    qb.Build ord =
      "SELECT " ++ specSelectAll qb.columns ord ++ " FROM " ++ qb.table ++ specJoins qb.joins ++
        specTail qb ∧
    ∀ (pre mid post : List JoinClause) (j1 j2 : JoinClause),
      qb.joins = pre ++ [j1] ++ mid ++ [j2] ++ post →
      qb.Build ord =
        "SELECT " ++ specSelectAll qb.columns ord ++ " FROM " ++ qb.table ++ specJoins pre ++
          (" " ++ j1.Type_ ++ " JOIN " ++ j1.Table ++ " ON " ++ j1.OnCondition) ++
          specJoins mid ++
          (" " ++ j2.Type_ ++ " JOIN " ++ j2.Table ++ " ON " ++ j2.OnCondition) ++
          specJoins post ++ specTail qb := by
  refine ⟨fun tb cond => ⟨rfl, rfl, rfl, rfl⟩, build_general qb ord hord, ?_⟩
  intro pre mid post j1 j2 hj
  rw [build_general qb ord hord, hj]
  simp only [specJoins_append, specJoins, joinText, String.append_assoc, String.append_empty]

theorem joins_in_order_witness :
    RangeOrder twoJoins.aggregates [] ∧
      twoJoins.joins =
        [] ++ [⟨"INNER", "categories", "products.category_id = categories.id"⟩] ++ [] ++
          [⟨"LEFT", "brands", "products.brand_id = brands.id"⟩] ++ [] ∧
      twoJoins.Build [] =
        "SELECT * FROM products INNER JOIN categories ON products.category_id = categories.id" ++
          " LEFT JOIN brands ON products.brand_id = brands.id" :=
  ⟨by decide, by decide,
    ((joins_in_order twoJoins [] (by decide)).2.2 [] [] []
      ⟨"INNER", "categories", "products.category_id = categories.id"⟩
      ⟨"LEFT", "brands", "products.brand_id = brands.id"⟩ (by decide)).trans (by decide)⟩

/-! ## Common table expressions -/

theorem joined_cons (sep a : String) (rest : List String) :
    joined sep (a :: rest) = a ++ (if rest = [] then "" else sep ++ joined sep rest) := by
  cases rest with
  | nil => simp [joined, String.append_empty]
  | cons b r => simp [joined, String.append_assoc]

theorem cte_loop (ds : List CTEDefinition) :
    ∀ (i : Nat) (r : String),
      (ds.foldl
        (fun (st : Nat × String) cte =>
          let i := st.1
          let result := st.2
          let result := if i > 0 then result ++ ", " else result
          let result := result ++ cte.Name
          let result :=
            if cte.Columns.length > 0 then
              result ++ (" (" ++ stringsJoin cte.Columns ", " ++ ")")
            else result
          let result := result ++ (" AS (" ++ cte.Query ++ ")")
          (i + 1, result))
        (i, r)).2 =
      r ++ (if ds = [] then ""
            else (if i > 0 then ", " else "") ++ joined ", " (ds.map cteText)) := by
  induction ds with
  | nil => intro i r; simp [String.append_empty]
  | cons d ds ih =>
    intro i r
    rw [List.foldl_cons]
    simp only []
    rw [ih]
    rw [List.map_cons, joined_cons]
    have hd : (if d.Columns.length > 0 then
          (if i > 0 then r ++ ", " else r) ++ d.Name ++
            (" (" ++ stringsJoin d.Columns ", " ++ ")")
        else (if i > 0 then r ++ ", " else r) ++ d.Name) ++ (" AS (" ++ d.Query ++ ")") =
        r ++ ((if i > 0 then ", " else "") ++ cteText d) := by
      unfold cteText
      rw [stringsJoin_eq_joined]
      cases hc : d.Columns <;> by_cases hi : i > 0 <;>
        simp [-String.reduceAppend, hi, String.append_assoc, String.append_empty,
          String.empty_append] <;> rfl
    rw [hd]
    cases ds with
    | nil => simp [-String.reduceAppend, String.append_assoc, String.append_empty]
    | cons d2 ds2 =>
      simp [-String.reduceAppend, String.append_assoc, String.append_empty]

/-- C10: for every wrapper with a non-empty list of common table expressions
`d1..dn`, `Build` returns `WITH e1, ..., en ` followed by the text of the
wrapped builder, where `ei` is `name AS (query)` when `di` has no column
aliases and `name (c1, ...) AS (query)` otherwise; with an empty list `Build`
returns the text of the wrapped builder unchanged. -/
theorem cte_build (qbc : QueryBuilderWithCTE) (ord : List Entry) :
    (qbc.CTEs ≠ [] →
      qbc.Build ord = "WITH " ++ joined ", " (qbc.CTEs.map cteText) ++ " " ++ qbc.QB.Build ord) ∧
    (qbc.CTEs = [] → qbc.Build ord = qbc.QB.Build ord) := by
  constructor
  · intro hne
    have hlen : ¬ qbc.CTEs.length = 0 := fun h => hne (List.length_eq_zero.mp h)
    unfold QueryBuilderWithCTE.Build
    rw [if_neg hlen]
    simp only []
    rw [cte_loop]
    simp [-String.reduceAppend, hne, String.append_assoc, String.empty_append]
  · intro he
    unfold QueryBuilderWithCTE.Build
    simp [he]

theorem cte_build_witness :
    recentCTE.CTEs ≠ [] ∧
      recentCTE.Build [] = "WITH " ++ joined ", " (recentCTE.CTEs.map cteText) ++ " " ++
        recentCTE.QB.Build [] ∧
      joined ", " (recentCTE.CTEs.map cteText) = "recent AS (q)" ∧
      (NewQueryBuilderWithCTE "t").Build [] = (NewQueryBuilderWithCTE "t").QB.Build [] :=
  ⟨by decide, (cte_build recentCTE []).1 (by decide), by decide,
    (cte_build (NewQueryBuilderWithCTE "t") []).2 (by decide)⟩

/-! ## Copy -/

theorem copy_fold_fields (ord : List Entry) :
    ∀ n : QueryBuilder,
      ord.foldl (fun n e => { n with aggregates := n.aggregates.insert e.1 e.2 }) n =
        { n with aggregates := ord.foldl (fun m e => m.insert e.1 e.2) n.aggregates } := by
  induction ord with
  | nil => intro n; rfl
  | cons e r ih => intro n; rw [List.foldl_cons, ih]; rfl

theorem insert_fold_entries (ord : List Entry) :
    ∀ m : StrMap, ord.NodupKeys → (∀ k ∈ ord.keys, k ∉ m) →
      (ord.foldl (fun m e => m.insert e.1 e.2) m).entries = m.entries + ↑ord := by
  induction ord with
  | nil => intro m _ _; simp
  | cons e r ih =>
    intro m hnd hdis
    rw [List.nodupKeys_cons] at hnd
    have he : e.1 ∉ m := hdis e.1 (by simp [List.keys])
    rw [List.foldl_cons, ih _ hnd.2]
    · rw [Finmap.insert_entries_of_neg he]
      rw [← Multiset.cons_coe, Multiset.cons_add, Multiset.add_cons]
    · intro k hk hmem
      rcases Finmap.mem_insert.mp hmem with h | h
      · exact hnd.1 (h ▸ hk)
      · exact hdis k (by simp [List.keys] at hk ⊢; exact Or.inr hk) h

theorem copy_aggregates (m : StrMap) (ord : List Entry) (hord : RangeOrder m ord) :
    ord.foldl (fun m e => m.insert e.1 e.2) (∅ : StrMap) = m := by
  apply Finmap.ext
  have hnd : ord.NodupKeys := by
    have h := m.nodupKeys
    unfold RangeOrder at hord
    rw [← hord] at h
    exact Multiset.coe_nodupKeys.mp h
  rw [insert_fold_entries ord ∅ hnd (fun k _ => Finmap.not_mem_empty)]
  unfold RangeOrder at hord
  rw [← hord]
  show (0 : Multiset Entry) + ↑ord = ↑ord
  simp

theorem copy_eq (qb : QueryBuilder) (ord : List Entry) (hord : RangeOrder qb.aggregates ord) :
    qb.Copy ord = qb := by
  unfold QueryBuilder.Copy
  simp only [copy_fold_fields, NewQueryBuilder, List.nil_append]
  rw [copy_aggregates qb.aggregates ord hord]

/-! ## Mutators of different clause kinds commute -/

open QueryBuilder in
theorem orderByAsc_eq (cols : List String) :
    ∀ qb : QueryBuilder,
      qb.OrderByAsc cols = { qb with orderBy := qb.orderBy ++ cols.map (fun c => c ++ " ASC") } := by
  induction cols with
  | nil => intro qb; simp [OrderByAsc]
  | cons c r ih =>
    intro qb
    have h := ih { qb with orderBy := qb.orderBy ++ [c ++ " ASC"] }
    simp only [OrderByAsc, List.foldl_cons] at h ⊢
    rw [h]
    simp

open QueryBuilder in
theorem orderByDesc_eq (cols : List String) :
    ∀ qb : QueryBuilder,
      qb.OrderByDesc cols =
        { qb with orderBy := qb.orderBy ++ cols.map (fun c => c ++ " DESC") } := by
  induction cols with
  | nil => intro qb; simp [OrderByDesc]
  | cons c r ih =>
    intro qb
    have h := ih { qb with orderBy := qb.orderBy ++ [c ++ " DESC"] }
    simp only [OrderByDesc, List.foldl_cons] at h ⊢
    rw [h]
    simp

open QueryBuilder in
theorem apply_graft (m : Mutator) (k : ClauseKind) (h : m.kind = some k) (qb : QueryBuilder) :
    m.apply qb = graft k (m.apply (isolate k qb)) qb := by
  cases m <;> simp only [Mutator.kind, Option.some.injEq, reduceCtorEq] at h <;> subst h <;>
    simp only [Mutator.apply, graft, isolate, NewQueryBuilder, orderByAsc_eq, orderByDesc_eq,
      Select, Where, WhereEq, WhereGt, WhereLt, WhereGte, WhereLte, WhereLike, WhereIn, WhereRegex,
      WhereRegexNoCase, WhereNotRegex, WhereNotRegexNoCase, GroupBy, Aggregate, Having, OrderBy,
      Limit, Offset, InnerJoin, LeftJoin, RightJoin, FullJoin, SelectUpper, SelectLower,
      SelectTrim, SelectLTrim, SelectRTrim, SelectSubstring, SelectLPad, SelectRPad, SelectConcat,
      Rollup, Cube, GroupingSets, SelectGrouping, SelectGroupingID, SelectAggregateWithFilter,
      SelectCoalesceFixed, SelectNullifFixed, WhereCoalesceFixed, SelectSimpleCase, WhereIsNull,
      WhereIsNotNull, AggregateWithCoalesce, SelectCharLength, SelectStringPosition,
      SelectReplace, SelectCast, SelectCurrentDate, SelectCurrentTimestamp, SelectExtract,
      SelectIf, WhereBetween, WhereNotBetween, WhereArrayContains, Distinct, SetSelectColumns,
      ClearConditions, ClearGroupBy] <;>
    first
    | rfl
    | (split_ifs <;> rfl)
    | (rcases qb with ⟨_, _ | _, _, _, _, _, _, _, _, _⟩ <;> rfl)


theorem isolate_graft (k1 k2 : ClauseKind) (hne : k1 ≠ k2) (x qb : QueryBuilder) :
    isolate k2 (graft k1 x qb) = isolate k2 qb := by
  cases k1 <;> cases k2 <;> first | rfl | exact absurd rfl hne

theorem graft_comm (k1 k2 : ClauseKind) (hne : k1 ≠ k2) (a b qb : QueryBuilder) :
    graft k2 a (graft k1 b qb) = graft k1 b (graft k2 a qb) := by
  cases k1 <;> cases k2 <;> first | rfl | exact absurd rfl hne

theorem apply_comm (m1 m2 : Mutator) (k1 k2 : ClauseKind) (h1 : m1.kind = some k1)
    (h2 : m2.kind = some k2) (hne : k1 ≠ k2) (qb : QueryBuilder) :
    m2.apply (m1.apply qb) = m1.apply (m2.apply qb) := by
  have e1 := apply_graft m1 k1 h1 qb
  have e2 := apply_graft m2 k2 h2 qb
  have l := apply_graft m2 k2 h2 (m1.apply qb)
  have r := apply_graft m1 k1 h1 (m2.apply qb)
  rw [e1, isolate_graft k1 k2 hne] at l
  rw [e2, isolate_graft k2 k1 (Ne.symm hne)] at r
  rw [← e1] at l
  rw [← e2] at r
  rw [l, r]
  conv_lhs => rw [e1]
  conv_rhs => rw [e2]
  exact graft_comm k1 k2 hne _ _ qb

/-- C3: for every builder state and every two mutator calls that target
different clause kinds, applying the two calls in either order yields the same
builder state and therefore the same `Build` output, and that output has the
fixed clause order SELECT, FROM, JOIN, WHERE, GROUP BY, HAVING, ORDER BY, LIMIT,
OFFSET whatever the order of the calls. -/
theorem mutators_commute (qb : QueryBuilder) (m1 m2 : Mutator) (k1 k2 : ClauseKind)
    (h1 : m1.kind = some k1) (h2 : m2.kind = some k2) (hne : k1 ≠ k2) :
    m2.apply (m1.apply qb) = m1.apply (m2.apply qb) ∧
    (∀ ord : List Entry,
      (m2.apply (m1.apply qb)).Build ord = (m1.apply (m2.apply qb)).Build ord) ∧
    (∀ ord : List Entry, RangeOrder (m2.apply (m1.apply qb)).aggregates ord →
      (m1.apply (m2.apply qb)).Build ord =
        "SELECT " ++ specSelectAll (m2.apply (m1.apply qb)).columns ord ++ " FROM " ++
          (m2.apply (m1.apply qb)).table ++ specJoins (m2.apply (m1.apply qb)).joins ++
          (specList " WHERE " " AND " (m2.apply (m1.apply qb)).conditions ++
            specList " GROUP BY " ", " (m2.apply (m1.apply qb)).groupBy ++
            specList " HAVING " " AND " (m2.apply (m1.apply qb)).having ++
            specList " ORDER BY " ", " (m2.apply (m1.apply qb)).orderBy ++
            specNum " LIMIT " (m2.apply (m1.apply qb)).limit ++
            specNum " OFFSET " (m2.apply (m1.apply qb)).offset)) := by
  have hc := apply_comm m1 m2 k1 k2 h1 h2 hne qb
  refine ⟨hc, fun ord => by rw [hc], ?_⟩
  intro ord hord
  rw [← hc]
  exact build_general _ ord hord

theorem mutators_commute_witness :
    (Mutator.Limit 5).kind = some ClauseKind.limit ∧
      (Mutator.Where "a=1").kind = some ClauseKind.wherePredicates ∧
      ClauseKind.limit ≠ ClauseKind.wherePredicates ∧
      (Mutator.Where "a=1").apply ((Mutator.Limit 5).apply (NewQueryBuilder "t")) =
        (Mutator.Limit 5).apply ((Mutator.Where "a=1").apply (NewQueryBuilder "t")) ∧
      ((Mutator.Limit 5).apply ((Mutator.Where "a=1").apply (NewQueryBuilder "t"))).Build [] =
        "SELECT * FROM t WHERE a=1 LIMIT 5" :=
  ⟨rfl, rfl, by decide,
    (mutators_commute (NewQueryBuilder "t") (Mutator.Limit 5) (Mutator.Where "a=1") _ _ rfl rfl
      (by decide)).1,
    by decide⟩

/-! ## Copy independence over the heap -/

theorem goAppend_other {α : Type} (zero : α) (growth : Nat → Nat → Nat) (store : List (List α))
    (s : Slice) (xs : List α) (i : Nat) (hi : i < store.length) (hne : s.arr ≠ i) :
    (goAppend zero growth store s xs).1[i]? = store[i]? ∧
      (goAppend zero growth store s xs).2.arr ≠ i ∧
      i < (goAppend zero growth store s xs).1.length := by
  unfold goAppend
  simp only []
  split_ifs
  · refine ⟨List.getElem?_set_ne hne, hne, ?_⟩
    rw [List.length_set]; exact hi
  · refine ⟨List.getElem?_append_left hi, fun h => ?_, ?_⟩
    · simp only at h; omega
    · rw [List.length_append]; omega

theorem view_eq_of_agree (h h' : Heap) (q : Nat) (oq : QBObj) (ho : h.objs[q]? = some oq)
    (ho' : h'.objs[q]? = some oq)
    (hs : ∀ g, h'.strs[(oq.strs g).arr]? = h.strs[(oq.strs g).arr]?)
    (hj : h'.joinArrs[oq.joins.arr]? = h.joinArrs[oq.joins.arr]?)
    (hm : h'.maps[oq.aggregates]? = h.maps[oq.aggregates]?) :
    h'.view q = h.view q := by
  unfold Heap.view Heap.viewStrs Heap.viewJoins
  rw [ho, ho']
  simp only [Option.map_some', hs, hj, hm]

theorem exec_apart (s : Stmt) (p q : Nat) (h : Heap) (ha : h.Apart p q) :
    (s.exec p h).Apart p q ∧ (s.exec p h).view q = h.view q := by
  obtain ⟨hpq, oq, hoq, hvs, hvj, hvm, hsep⟩ := ha
  unfold Stmt.exec
  cases hop : h.objs[p]? with
  | none => exact ⟨⟨hpq, oq, hoq, hvs, hvj, hvm, hsep⟩, rfl⟩
  | some op =>
    obtain ⟨hss, hsj, hsm⟩ := hsep op hop
    have hset : ∀ x : QBObj, (h.objs.set p x)[q]? = some oq := by
      intro x; rw [List.getElem?_set_ne hpq]; exact hoq
    have hsetp : ∀ x y : QBObj, (h.objs.set p x)[p]? = some y → y = x := by
      intro x y hy
      have hlt : p < h.objs.length := (List.getElem?_eq_some.mp hop).1
      rw [List.getElem?_set_self hlt] at hy
      exact (Option.some.inj hy).symm
    cases s with
    | appendStr f xs =>
      simp only []
      have hg := fun g => goAppend_other "" h.growth h.strs (op.strs f) xs (oq.strs g).arr
        (hvs g) (hss f g)
      refine ⟨⟨hpq, oq, hset _, fun g => (hg g).2.2, hvj, hvm, ?_⟩, ?_⟩
      · intro op' hop'
        have := hsetp _ _ hop'
        subst this
        refine ⟨fun f' g => ?_, hsj, hsm⟩
        simp only [Function.update_apply]
        split_ifs
        · exact (hg g).2.1
        · exact hss f' g
      · exact view_eq_of_agree h _ q oq hoq (hset _) (fun g => (hg g).1) rfl rfl
    | freshStr f =>
      simp only []
      refine ⟨⟨hpq, oq, hset _, fun g => ?_, hvj, hvm, ?_⟩, ?_⟩
      · rw [List.length_append]; have := hvs g; omega
      · intro op' hop'
        have := hsetp _ _ hop'
        subst this
        refine ⟨fun f' g => ?_, hsj, hsm⟩
        simp only [Function.update_apply]
        split_ifs
        · have := hvs g; simp only; omega
        · exact hss f' g
      · exact view_eq_of_agree h _ q oq hoq (hset _)
          (fun g => List.getElem?_append_left (hvs g)) rfl rfl
    | appendJoins js =>
      simp only []
      have hg := goAppend_other JoinClause.zero h.growth h.joinArrs op.joins js oq.joins.arr
        hvj hsj
      refine ⟨⟨hpq, oq, hset _, hvs, hg.2.2, hvm, ?_⟩, ?_⟩
      · intro op' hop'
        have := hsetp _ _ hop'
        subst this
        exact ⟨hss, hg.2.1, hsm⟩
      · exact view_eq_of_agree h _ q oq hoq (hset _) (fun g => rfl) hg.1 rfl
    | freshJoins =>
      simp only []
      refine ⟨⟨hpq, oq, hset _, hvs, ?_, hvm, ?_⟩, ?_⟩
      · rw [List.length_append]; omega
      · intro op' hop'
        have := hsetp _ _ hop'
        subst this
        refine ⟨hss, ?_, hsm⟩
        simp only; omega
      · exact view_eq_of_agree h _ q oq hoq (hset _) (fun g => rfl)
          (List.getElem?_append_left hvj) rfl
    | mapSet k v =>
      simp only []
      refine ⟨⟨hpq, oq, hoq, hvs, hvj, ?_, ?_⟩, ?_⟩
      · rw [List.length_set]; exact hvm
      · intro op' hop'
        rw [hop] at hop'
        have := Option.some.inj hop'
        subst this
        exact ⟨hss, hsj, hsm⟩
      · exact view_eq_of_agree h _ q oq hoq hoq (fun g => rfl) rfl (List.getElem?_set_ne hsm)
    | freshMap =>
      simp only []
      refine ⟨⟨hpq, oq, hset _, hvs, hvj, ?_, ?_⟩, ?_⟩
      · rw [List.length_append]; omega
      · intro op' hop'
        have := hsetp _ _ hop'
        subst this
        refine ⟨hss, hsj, ?_⟩
        simp only; omega
      · exact view_eq_of_agree h _ q oq hoq (hset _) (fun g => rfl) rfl
          (List.getElem?_append_left hvm)
    | setLimit n =>
      simp only []
      refine ⟨⟨hpq, oq, hset _, hvs, hvj, hvm, ?_⟩, ?_⟩
      · intro op' hop'
        have := hsetp _ _ hop'
        subst this
        exact ⟨hss, hsj, hsm⟩
      · exact view_eq_of_agree h _ q oq hoq (hset _) (fun g => rfl) rfl rfl
    | setOffset n =>
      simp only []
      refine ⟨⟨hpq, oq, hset _, hvs, hvj, hvm, ?_⟩, ?_⟩
      · intro op' hop'
        have := hsetp _ _ hop'
        subst this
        exact ⟨hss, hsj, hsm⟩
      · exact view_eq_of_agree h _ q oq hoq (hset _) (fun g => rfl) rfl rfl
    | distinctFirst =>
      simp only []
      split_ifs
      · refine ⟨⟨hpq, oq, hoq, fun g => ?_, hvj, hvm, ?_⟩, ?_⟩
        · rw [List.length_set]; exact hvs g
        · intro op' hop'
          rw [hop] at hop'
          have := Option.some.inj hop'
          subst this
          exact ⟨hss, hsj, hsm⟩
        · exact view_eq_of_agree h _ q oq hoq hoq
            (fun g => List.getElem?_set_ne (hss .columns g)) rfl rfl
      · exact ⟨⟨hpq, oq, hoq, hvs, hvj, hvm, hsep⟩, rfl⟩


theorem goAppend_valid {α : Type} (zero : α) (growth : Nat → Nat → Nat) (store : List (List α))
    (s : Slice) (xs : List α) (hs : s.arr < store.length) :
    (goAppend zero growth store s xs).2.arr < (goAppend zero growth store s xs).1.length ∧
      store.length ≤ (goAppend zero growth store s xs).1.length := by
  unfold goAppend
  simp only []
  split_ifs
  · simp only [List.length_set]; exact ⟨hs, le_refl _⟩
  · simp only [List.length_append, List.length_singleton]; omega

theorem exec_valid (s : Stmt) (p : Nat) (h : Heap) (hv : h.Valid p) : (s.exec p h).Valid p := by
  obtain ⟨op, hop, hvs, hvj, hvm⟩ := hv
  have hlt : p < h.objs.length := (List.getElem?_eq_some.mp hop).1
  unfold Stmt.exec
  rw [hop]
  cases s with
  | appendStr f xs =>
    have hg := goAppend_valid "" h.growth h.strs (op.strs f) xs (hvs f)
    refine ⟨_, List.getElem?_set_self hlt, fun f' => ?_, hvj, hvm⟩
    simp only [Function.update_apply]
    split_ifs
    · exact hg.1
    · exact lt_of_lt_of_le (hvs f') hg.2
  | freshStr f =>
    refine ⟨_, List.getElem?_set_self hlt, fun f' => ?_, hvj, hvm⟩
    simp only [Function.update_apply, List.length_append, List.length_singleton]
    split_ifs
    · exact Nat.lt_succ_self _
    · have := hvs f'; omega
  | appendJoins js =>
    have hg := goAppend_valid JoinClause.zero h.growth h.joinArrs op.joins js hvj
    exact ⟨_, List.getElem?_set_self hlt, hvs, hg.1, hvm⟩
  | freshJoins =>
    refine ⟨_, List.getElem?_set_self hlt, hvs, ?_, hvm⟩
    simp only [List.length_append, List.length_singleton]; omega
  | mapSet k v =>
    refine ⟨op, hop, hvs, hvj, ?_⟩
    simp only [List.length_set]; exact hvm
  | freshMap =>
    refine ⟨_, List.getElem?_set_self hlt, hvs, hvj, ?_⟩
    simp only [List.length_append, List.length_singleton]; omega
  | setLimit n => exact ⟨_, List.getElem?_set_self hlt, hvs, hvj, hvm⟩
  | setOffset n => exact ⟨_, List.getElem?_set_self hlt, hvs, hvj, hvm⟩
  | distinctFirst =>
    simp only []
    split_ifs
    · refine ⟨op, hop, fun f' => ?_, hvj, hvm⟩
      simp only [List.length_set]; exact hvs f'
    · exact ⟨op, hop, hvs, hvj, hvm⟩

theorem apart_valid {h : Heap} {p q : Nat} (ha : h.Apart p q) : h.Valid q := by
  obtain ⟨_, oq, hoq, hvs, hvj, hvm, _⟩ := ha
  exact ⟨oq, hoq, hvs, hvj, hvm⟩

theorem apart_symm {h : Heap} {p q : Nat} (ha : h.Apart p q) (hv : h.Valid p) : h.Apart q p := by
  obtain ⟨hpq, oq, hoq, _, _, _, hsep⟩ := ha
  obtain ⟨op, hop, hvs, hvj, hvm⟩ := hv
  refine ⟨Ne.symm hpq, op, hop, hvs, hvj, hvm, ?_⟩
  intro oq' hoq'
  rw [hoq] at hoq'
  have := Option.some.inj hoq'
  subst this
  obtain ⟨h1, h2, h3⟩ := hsep op hop
  exact ⟨fun f g => Ne.symm (h1 g f), Ne.symm h2, Ne.symm h3⟩

theorem good_exec (v : Option QueryBuilder) (s : Stmt) (h : Heap) (p q : Nat)
    (hg : h.Good v p q) : (s.exec p h).Good v p q := by
  obtain ⟨ha, hv, hview⟩ := hg
  have := exec_apart s p q h ha
  exact ⟨this.1, exec_valid s p h hv, this.2.trans hview⟩

theorem good_stmts (v : Option QueryBuilder) (p q : Nat) (ss : List Stmt) :
    ∀ h : Heap, h.Good v p q → (ss.foldl (fun h s => s.exec p h) h).Good v p q := by
  induction ss with
  | nil => intro h hg; exact hg
  | cons s ss ih => intro h hg; exact ih _ (good_exec v s h p q hg)

theorem good_mapSets (v : Option QueryBuilder) (p q : Nat) (ord : List Entry) :
    ∀ h : Heap, h.Good v p q →
      (ord.foldl (fun h e => (Stmt.mapSet e.1 e.2).exec p h) h).Good v p q := by
  induction ord with
  | nil => intro h hg; exact hg
  | cons e r ih => intro h hg; exact ih _ (good_exec v _ h p q hg)

theorem good_calls (v : Option QueryBuilder) (p q : Nat) (ms : List Mutator) :
    ∀ h : Heap, h.Good v p q → (h.calls p ms).Good v p q := by
  induction ms with
  | nil => intro h hg; exact hg
  | cons m ms ih =>
    intro h hg
    exact ih _ (good_stmts v p q m.body h hg)

theorem good_swap {v : Option QueryBuilder} {h : Heap} {p q : Nat} (hg : h.Good v p q) :
    h.Good (h.view p) q p :=
  ⟨apart_symm hg.1 hg.2.1, apart_valid hg.1, rfl⟩

theorem good_new (h : Heap) (b : Nat) (t : String) (hv : h.Valid b) :
    (h.NewQueryBuilder t).1.Good (h.view b) (h.NewQueryBuilder t).2 b := by
  obtain ⟨ob, hob, hvs, hvj, hvm⟩ := hv
  have hlt : b < h.objs.length := (List.getElem?_eq_some.mp hob).1
  have hob' : (h.NewQueryBuilder t).1.objs[b]? = some ob := by
    simp only [Heap.NewQueryBuilder]
    rw [List.getElem?_append_left hlt]; exact hob
  have hnew : ∃ oc, (h.NewQueryBuilder t).1.objs[(h.NewQueryBuilder t).2]? = some oc ∧
      (∀ f, h.strs.length ≤ (oc.strs f).arr ∧ (oc.strs f).arr < h.strs.length + 5) ∧
      oc.joins.arr = h.joinArrs.length ∧ oc.aggregates = h.maps.length := by
    refine ⟨_, List.getElem?_concat_length _ _, fun f => ?_, rfl, rfl⟩
    cases f <;> simp only <;> omega
  obtain ⟨oc, hoc, hcs, hcj, hcm⟩ := hnew
  have hl1 : (h.NewQueryBuilder t).1.strs.length = h.strs.length + 5 := by
    simp [Heap.NewQueryBuilder]
  have hl2 : (h.NewQueryBuilder t).1.joinArrs.length = h.joinArrs.length + 1 := by
    simp [Heap.NewQueryBuilder]
  have hl3 : (h.NewQueryBuilder t).1.maps.length = h.maps.length + 1 := by
    simp [Heap.NewQueryBuilder]
  have hne : (h.NewQueryBuilder t).2 ≠ b := by
    simp only [Heap.NewQueryBuilder]; omega
  refine ⟨⟨hne, ob, hob', ?_, ?_, ?_, ?_⟩, ⟨oc, hoc, ?_, ?_, ?_⟩, ?_⟩
  · intro g; rw [hl1]; have := hvs g; omega
  · rw [hl2]; omega
  · rw [hl3]; omega
  · intro op hop
    rw [hoc] at hop
    have := Option.some.inj hop
    subst this
    refine ⟨fun f g => ?_, ?_, ?_⟩
    · have := hvs g; have := (hcs f).1; omega
    · omega
    · omega
  · intro f; rw [hl1]; exact (hcs f).2
  · rw [hl2]; omega
  · rw [hl3]; omega
  · refine view_eq_of_agree h _ b ob hob hob' (fun g => ?_) ?_ ?_
    · simp only [Heap.NewQueryBuilder]; exact List.getElem?_append_left (hvs g)
    · simp only [Heap.NewQueryBuilder]; exact List.getElem?_append_left hvj
    · simp only [Heap.NewQueryBuilder]; exact List.getElem?_append_left hvm

theorem good_copy (h : Heap) (b : Nat) (ord : List Entry) (hv : h.Valid b) :
    (h.Copy b ord).1.Good (h.view b) (h.Copy b ord).2 b := by
  unfold Heap.Copy
  simp only []
  apply good_mapSets
  iterate 8 apply good_exec
  exact good_new h b _ hv

/-- C5, counterexample: `B` has the WHERE list `["x"]`; after `C := B.Copy()`
and `C.Where("x")` the conditions of `B` are still `["x"]`, so they contain
`"x"`, while `C` holds `["x", "x"]`. -/
theorem copy_where_already_present :
    (heapWhereX.view 0).map (fun q => q.conditions) = some ["x"] ∧
      (heapWhereX.Copy 0 []).2 = 1 ∧
      (((heapWhereX.Copy 0 []).1.call 1 (.Where "x")).view 1).map (fun q => q.conditions) =
        some ["x", "x"] ∧
      (((heapWhereX.Copy 0 []).1.call 1 (.Where "x")).view 0).map (fun q => q.conditions) =
        some ["x"] ∧
      "x" ∈ ["x"] := by
  refine ⟨by decide, by decide, by decide, by decide, by decide⟩

/-- C5, amended: copy independence.  For every builder `B` of the heap, every
order `ord` of the copy loop and every sequence `ms` of mutator calls: after
`C := B.Copy()` the calls `ms` applied to `C` leave every field of `B`, and so
the text `B.Build()` renders for a given range order, as they were before the
copy; the calls `ms` applied to `B` leave every field of `C` and its rendered
text as they were right after the copy; and when the conditions of `B` do not
already contain `"x"`, they do not contain it after `C.Where("x")`. -/
theorem copy_independence (h : Heap) (b : Nat) (ord : List Entry) (ms : List Mutator)
    (hv : h.Valid b) :
    ((h.Copy b ord).1.calls (h.Copy b ord).2 ms).view b = h.view b ∧
    ((h.Copy b ord).1.calls b ms).view (h.Copy b ord).2 =
      (h.Copy b ord).1.view (h.Copy b ord).2 ∧
    (∀ o : List Entry,
      (((h.Copy b ord).1.calls (h.Copy b ord).2 ms).view b).map (fun q => q.Build o) =
        (h.view b).map (fun q => q.Build o)) ∧
    (∀ o : List Entry,
      (((h.Copy b ord).1.calls b ms).view (h.Copy b ord).2).map (fun q => q.Build o) =
        ((h.Copy b ord).1.view (h.Copy b ord).2).map (fun q => q.Build o)) ∧
    (∀ qb : QueryBuilder, h.view b = some qb → "x" ∉ qb.conditions →
      ∃ qb' : QueryBuilder,
        ((h.Copy b ord).1.call (h.Copy b ord).2 (.Where "x")).view b = some qb' ∧
          "x" ∉ qb'.conditions) := by
  have hg := good_copy h b ord hv
  have h1 := (good_calls _ _ _ ms _ hg).2.2
  have h2 := (good_calls _ _ _ ms _ (good_swap hg)).2.2
  refine ⟨h1, h2, fun o => by rw [h1], fun o => by rw [h2], ?_⟩
  intro qb hqb hx
  have h3 := (good_stmts _ _ _ (Mutator.Where "x").body _ hg).2.2
  exact ⟨qb, h3.trans hqb, hx⟩

theorem copy_independence_witness :
    heapWhereAB.Valid 0 ∧
      (heapWhereAB.Copy 0 []).2 = 1 ∧
      (heapWhereAB.Copy 0 []).1.view 1 = heapWhereAB.view 0 ∧
      ((heapWhereAB.Copy 0 []).1.calls 1 [.Where "x", .Distinct, .Limit 3]).view 0 =
        heapWhereAB.view 0 ∧
      (((heapWhereAB.Copy 0 []).1.calls 1 [.Where "x", .Distinct, .Limit 3]).view 1).map
          (fun q => q.Build []) = some "SELECT * FROM t WHERE a=1 AND b=2 AND x LIMIT 3" ∧
      ((heapWhereAB.Copy 0 []).1.calls 0 [.Where "x", .Distinct, .Limit 3]).view 1 =
        (heapWhereAB.Copy 0 []).1.view 1 :=
  ⟨⟨_, rfl, fun f => by cases f <;> decide, by decide, by decide⟩, by decide, by decide,
    (copy_independence heapWhereAB 0 [] [.Where "x", .Distinct, .Limit 3]
      ⟨_, rfl, fun f => by cases f <;> decide, by decide, by decide⟩).1,
    by decide,
    (copy_independence heapWhereAB 0 [] [.Where "x", .Distinct, .Limit 3]
      ⟨_, rfl, fun f => by cases f <;> decide, by decide, by decide⟩).2.1⟩

/-! ## The heap semantics refines the state-passing semantics -/

open QueryBuilder in
theorem body_run (m : Mutator) (qb : QueryBuilder) :
    m.body.foldl (fun q s => s.run q) qb = m.apply qb := by
  cases m <;>
    simp only [Mutator.apply, Mutator.body, OrderByAsc, OrderByDesc, List.foldl_map,
      Select, Where, WhereEq, WhereGt, WhereLt, WhereGte, WhereLte, WhereLike, WhereIn, WhereRegex,
      WhereRegexNoCase, WhereNotRegex, WhereNotRegexNoCase, GroupBy, Aggregate, Having, OrderBy,
      Limit, Offset, InnerJoin, LeftJoin, RightJoin, FullJoin, SelectUpper, SelectLower,
      SelectTrim, SelectLTrim, SelectRTrim, SelectSubstring, SelectLPad, SelectRPad, SelectConcat,
      Rollup, Cube, GroupingSets, SelectGrouping, SelectGroupingID, SelectAggregateWithFilter,
      SelectCoalesceFixed, SelectNullifFixed, WhereCoalesceFixed, SelectSimpleCase, WhereIsNull,
      WhereIsNotNull, AggregateWithCoalesce, SelectCharLength, SelectStringPosition,
      SelectReplace, SelectCast, SelectCurrentDate, SelectCurrentTimestamp, SelectExtract,
      SelectIf, WhereBetween, WhereNotBetween, WhereArrayContains, Distinct, SetSelectColumns,
      ClearConditions, ClearGroupBy, Reset] <;>
    first
    | rfl
    | (split_ifs <;> rfl)


theorem goAppend_self {α : Type} (zero : α) (growth : Nat → Nat → Nat) (store : List (List α))
    (s : Slice) (xs a : List α) (ha : store[s.arr]? = some a) (hl : s.len ≤ a.length) :
    ∃ a', (goAppend zero growth store s xs).1[(goAppend zero growth store s xs).2.arr]? = some a' ∧
      (goAppend zero growth store s xs).2.len ≤ a'.length ∧
      a'.take (goAppend zero growth store s xs).2.len = a.take s.len ++ xs := by
  have hlt : s.arr < store.length := (List.getElem?_eq_some.mp ha).1
  have htake : (a.take s.len ++ xs).length = s.len + xs.length := by
    rw [List.length_append, List.length_take, Nat.min_eq_left hl]
  unfold goAppend
  simp only [ha, Option.getD_some]
  split_ifs with hc
  · refine ⟨_, List.getElem?_set_self hlt, ?_, ?_⟩
    · simp only [List.length_append, List.length_take, List.length_drop]; omega
    · exact List.take_left' htake
  · refine ⟨_, List.getElem?_concat_length _ _, ?_, ?_⟩
    · simp only [List.length_append, List.length_take, List.length_replicate]; omega
    · exact List.take_left' htake

theorem getStrs_setStrs (f g : StrField) (v : List String) (qb : QueryBuilder) :
    getStrs g (setStrs f v qb) = if g = f then v else getStrs g qb := by
  cases f <;> cases g <;> rfl

theorem setStrs_rest (f : StrField) (v : List String) (qb : QueryBuilder) :
    (setStrs f v qb).table = qb.table ∧ (setStrs f v qb).joins = qb.joins ∧
      (setStrs f v qb).aggregates = qb.aggregates ∧ (setStrs f v qb).limit = qb.limit ∧
      (setStrs f v qb).offset = qb.offset := by
  cases f <;> exact ⟨rfl, rfl, rfl, rfl, rfl⟩

theorem distinctFirst_rest (qb : QueryBuilder) :
    (Stmt.distinctFirst.run qb).table = qb.table ∧ (Stmt.distinctFirst.run qb).joins = qb.joins ∧
      (Stmt.distinctFirst.run qb).aggregates = qb.aggregates ∧
      (Stmt.distinctFirst.run qb).limit = qb.limit ∧
      (Stmt.distinctFirst.run qb).offset = qb.offset := by
  rcases qb with ⟨_, _ | _, _, _, _, _, _, _, _, _⟩ <;> exact ⟨rfl, rfl, rfl, rfl, rfl⟩

theorem view_of_fields (h : Heap) (p : Nat) (o : QBObj) (qb : QueryBuilder)
    (ho : h.objs[p]? = some o) (ht : o.table = qb.table)
    (hs : ∀ g, h.viewStrs (o.strs g) = getStrs g qb) (hj : h.viewJoins o.joins = qb.joins)
    (hm : (h.maps[o.aggregates]?).getD ∅ = qb.aggregates) (hl : o.limit = qb.limit)
    (hf : o.offset = qb.offset) : h.view p = some qb := by
  unfold Heap.view
  rw [ho]
  simp only [Option.map_some', Option.some.injEq]
  have h1 := hs .columns
  have h2 := hs .conditions
  have h3 := hs .groupBy
  have h4 := hs .having
  have h5 := hs .orderBy
  simp only [getStrs] at h1 h2 h3 h4 h5
  rw [h1, h2, h3, h4, h5, ht, hj, hm, hl, hf]

theorem fields_of_view (h : Heap) (p : Nat) (o : QBObj) (ho : h.objs[p]? = some o) :
    ∃ qb, h.view p = some qb ∧ o.table = qb.table ∧
      (∀ g, h.viewStrs (o.strs g) = getStrs g qb) ∧ h.viewJoins o.joins = qb.joins ∧
      (h.maps[o.aggregates]?).getD ∅ = qb.aggregates ∧ o.limit = qb.limit ∧
      o.offset = qb.offset := by
  refine ⟨{ table := o.table
            columns := h.viewStrs (o.strs .columns)
            conditions := h.viewStrs (o.strs .conditions)
            groupBy := h.viewStrs (o.strs .groupBy)
            having := h.viewStrs (o.strs .having)
            orderBy := h.viewStrs (o.strs .orderBy)
            aggregates := (h.maps[o.aggregates]?).getD ∅
            limit := o.limit
            offset := o.offset
            joins := h.viewJoins o.joins }, ?_, rfl, fun g => ?_, rfl, rfl, rfl, rfl⟩
  · unfold Heap.view; rw [ho]; rfl
  · cases g <;> rfl

theorem exec_refines (s : Stmt) (p : Nat) (h : Heap) (hown : h.Own p) :
    (s.exec p h).Own p ∧ (s.exec p h).view p = (h.view p).map s.run := by
  obtain ⟨op, hop, hstr, hdis, ⟨aj, haj, hlj⟩, hvm⟩ := hown
  have hlt : p < h.objs.length := (List.getElem?_eq_some.mp hop).1
  obtain ⟨qb, hview, ht, hs, hj, hm, hl, hf⟩ := fields_of_view h p op hop
  have hvs : ∀ f, (op.strs f).arr < h.strs.length := by
    intro f
    obtain ⟨a, ha, _⟩ := hstr f
    exact (List.getElem?_eq_some.mp ha).1
  have hvj : op.joins.arr < h.joinArrs.length := (List.getElem?_eq_some.mp haj).1
  rw [hview, Option.map_some']
  unfold Stmt.exec
  rw [hop]
  cases s with
  | appendStr f xs =>
    obtain ⟨af, haf, hlf⟩ := hstr f
    obtain ⟨a', ha', hl', htk⟩ := goAppend_self "" h.growth h.strs (op.strs f) xs af haf hlf
    have hoth := fun g (hg : g ≠ f) =>
      goAppend_other "" h.growth h.strs (op.strs f) xs (op.strs g).arr (hvs g) (hdis f g (Ne.symm hg))
    obtain ⟨r1, r2, r3, r4, r5⟩ := setStrs_rest f (getStrs f qb ++ xs) qb
    refine ⟨⟨_, List.getElem?_set_self hlt, fun g => ?_, fun g g' hgg => ?_, ⟨aj, haj, hlj⟩, hvm⟩,
      view_of_fields _ p _ _ (List.getElem?_set_self hlt) (ht.trans r1.symm) (fun g => ?_)
        (hj.trans r2.symm) (hm.trans r3.symm) (hl.trans r4.symm) (hf.trans r5.symm)⟩
    · simp only [Function.update_apply]
      split_ifs with hg
      · exact ⟨a', ha', hl'⟩
      · obtain ⟨ag, hag, hlg⟩ := hstr g
        exact ⟨ag, ((hoth g hg).1).trans hag, hlg⟩
    · simp only [Function.update_apply]
      split_ifs with hg hg' hg'
      · exact absurd (hg.trans hg'.symm) hgg
      · exact (hoth g' hg').2.1
      · exact Ne.symm (hoth g hg).2.1
      · exact hdis g g' hgg
    · rw [Stmt.run, getStrs_setStrs]
      simp only [Function.update_apply, Heap.viewStrs]
      split_ifs with hg
      · rw [ha', Option.getD_some, htk, ← hs f]
        simp only [Heap.viewStrs, haf, Option.getD_some]
      · rw [(hoth g hg).1]; exact hs g
  | freshStr f =>
    obtain ⟨r1, r2, r3, r4, r5⟩ := setStrs_rest f [] qb
    refine ⟨⟨_, List.getElem?_set_self hlt, fun g => ?_, fun g g' hgg => ?_, ⟨aj, haj, hlj⟩, hvm⟩,
      view_of_fields _ p _ _ (List.getElem?_set_self hlt) (ht.trans r1.symm) (fun g => ?_)
        (hj.trans r2.symm) (hm.trans r3.symm) (hl.trans r4.symm) (hf.trans r5.symm)⟩
    · simp only [Function.update_apply]
      split_ifs with hg
      · exact ⟨[], List.getElem?_concat_length _ _, Nat.zero_le _⟩
      · obtain ⟨ag, hag, hlg⟩ := hstr g
        exact ⟨ag, (List.getElem?_append_left (hvs g)).trans hag, hlg⟩
    · simp only [Function.update_apply]
      split_ifs with hg hg' hg'
      · exact absurd (hg.trans hg'.symm) hgg
      · have := hvs g'; simp only; omega
      · have := hvs g; simp only; omega
      · exact hdis g g' hgg
    · rw [Stmt.run, getStrs_setStrs]
      simp only [Function.update_apply, Heap.viewStrs]
      split_ifs with hg
      · simp
      · rw [List.getElem?_append_left (hvs g)]; exact hs g
  | appendJoins js =>
    obtain ⟨a', ha', hl', htk⟩ := goAppend_self JoinClause.zero h.growth h.joinArrs op.joins js aj
      haj hlj
    refine ⟨⟨_, List.getElem?_set_self hlt, hstr, hdis, ⟨a', ha', hl'⟩, hvm⟩,
      view_of_fields _ p _ _ (List.getElem?_set_self hlt) ht (fun g => ?_) ?_ hm hl hf⟩
    · rw [Stmt.run]; cases g <;> exact hs _
    · rw [Stmt.run]
      simp only [Heap.viewJoins]
      rw [ha', Option.getD_some, htk, ← hj]
      simp only [Heap.viewJoins, haj, Option.getD_some]
  | freshJoins =>
    refine ⟨⟨_, List.getElem?_set_self hlt, hstr, hdis,
        ⟨[], List.getElem?_concat_length _ _, Nat.zero_le _⟩, hvm⟩,
      view_of_fields _ p _ _ (List.getElem?_set_self hlt) ht (fun g => ?_) ?_ hm hl hf⟩
    · rw [Stmt.run]; cases g <;> exact hs _
    · rw [Stmt.run]; simp [Heap.viewJoins]
  | mapSet k v =>
    refine ⟨⟨op, hop, hstr, hdis, ⟨aj, haj, hlj⟩, ?_⟩,
      view_of_fields _ p _ _ hop ht (fun g => ?_) hj ?_ hl hf⟩
    · simp only [List.length_set]; exact hvm
    · rw [Stmt.run]; cases g <;> exact hs _
    · rw [Stmt.run]
      simp only [List.getElem?_set_self hvm, Option.getD_some, hm]
  | freshMap =>
    refine ⟨⟨_, List.getElem?_set_self hlt, hstr, hdis, ⟨aj, haj, hlj⟩, ?_⟩,
      view_of_fields _ p _ _ (List.getElem?_set_self hlt) ht (fun g => ?_) hj ?_ hl hf⟩
    · simp only [List.length_append, List.length_singleton]; omega
    · rw [Stmt.run]; cases g <;> exact hs _
    · rw [Stmt.run]; simp
  | setLimit n =>
    refine ⟨⟨_, List.getElem?_set_self hlt, hstr, hdis, ⟨aj, haj, hlj⟩, hvm⟩,
      view_of_fields _ p _ _ (List.getElem?_set_self hlt) ht (fun g => ?_) hj hm rfl hf⟩
    rw [Stmt.run]; cases g <;> exact hs _
  | setOffset n =>
    refine ⟨⟨_, List.getElem?_set_self hlt, hstr, hdis, ⟨aj, haj, hlj⟩, hvm⟩,
      view_of_fields _ p _ _ (List.getElem?_set_self hlt) ht (fun g => ?_) hj hm hl rfl⟩
    rw [Stmt.run]; cases g <;> exact hs _
  | distinctFirst =>
    obtain ⟨ac, hac, hlc⟩ := hstr .columns
    have hcols : qb.columns = ac.take (op.strs .columns).len := by
      have := hs .columns
      simp only [Heap.viewStrs, hac, Option.getD_some, getStrs] at this
      exact this.symm
    simp only [hac, Option.getD_some]
    split_ifs with hpos
    · have hlen : (op.strs .columns).arr < h.strs.length := hvs .columns
      obtain ⟨n, hn⟩ : ∃ n, (op.strs .columns).len = n + 1 := ⟨(op.strs .columns).len - 1, by omega⟩
      obtain ⟨c, ac', hcons⟩ : ∃ c ac', ac = c :: ac' := by
        cases ac with
        | nil => simp at hlc; omega
        | cons c ac' => exact ⟨c, ac', rfl⟩
      subst hcons
      obtain ⟨r1, r2, r3, r4, r5⟩ := distinctFirst_rest qb
      refine ⟨⟨op, hop, fun g => ?_, hdis, ⟨aj, haj, hlj⟩, hvm⟩,
        view_of_fields _ p _ _ hop (ht.trans r1.symm) (fun g => ?_) (hj.trans r2.symm)
          (hm.trans r3.symm) (hl.trans r4.symm) (hf.trans r5.symm)⟩
      · by_cases hg : g = .columns
        · subst hg
          refine ⟨_, List.getElem?_set_self hlen, ?_⟩
          simpa using hlc
        · obtain ⟨ag, hag, hlg⟩ := hstr g
          exact ⟨ag, (List.getElem?_set_ne (hdis _ _ (Ne.symm hg))).trans hag, hlg⟩
      · by_cases hg : g = .columns
        · subst hg
          rw [hn] at hcols
          simp only [List.take_succ_cons] at hcols
          simp only [Heap.viewStrs, List.getElem?_set_self hlen, Option.getD_some, hn, Stmt.run,
            hcols, getStrs, List.set_cons_zero, List.take_succ_cons, List.getElem?_cons_zero]
        · have hrun : getStrs g (Stmt.distinctFirst.run qb) = getStrs g qb := by
            rw [hn] at hcols
            simp only [List.take_succ_cons] at hcols
            simp only [Stmt.run, hcols]
            cases g <;> first | rfl | exact absurd rfl hg
          rw [hrun, ← hs g]
          simp only [Heap.viewStrs, List.getElem?_set_ne (hdis _ _ (Ne.symm hg))]
    · have hz : (op.strs .columns).len = 0 := by omega
      have hnil : qb.columns = [] := by rw [hcols, hz]; rfl
      refine ⟨⟨op, hop, hstr, hdis, ⟨aj, haj, hlj⟩, hvm⟩, ?_⟩
      rw [hview, Stmt.run, hnil]


theorem stmts_refine (p : Nat) (ss : List Stmt) :
    ∀ h : Heap, h.Own p →
      (ss.foldl (fun h s => s.exec p h) h).Own p ∧
        (ss.foldl (fun h s => s.exec p h) h).view p =
          (h.view p).map (fun qb => ss.foldl (fun q s => s.run q) qb) := by
  induction ss with
  | nil => intro h ho; exact ⟨ho, by simp⟩
  | cons s ss ih =>
    intro h ho
    obtain ⟨ho', hv'⟩ := exec_refines s p h ho
    obtain ⟨ho'', hv''⟩ := ih _ ho'
    refine ⟨ho'', ?_⟩
    rw [List.foldl_cons, hv'', hv', Option.map_map]
    rfl

theorem call_refines (m : Mutator) (p : Nat) (h : Heap) (ho : h.Own p) :
    (h.call p m).Own p ∧ (h.call p m).view p = (h.view p).map m.apply := by
  obtain ⟨ho', hv'⟩ := stmts_refine p m.body h ho
  refine ⟨ho', ?_⟩
  unfold Heap.call
  rw [hv']
  congr 1
  funext qb
  exact body_run m qb

theorem calls_refine (p : Nat) (ms : List Mutator) :
    ∀ h : Heap, h.Own p →
      (h.calls p ms).Own p ∧
        (h.calls p ms).view p = (h.view p).map (fun qb => ms.foldl (fun q m => m.apply q) qb) := by
  induction ms with
  | nil => intro h ho; exact ⟨ho, by simp [Heap.calls]⟩
  | cons m ms ih =>
    intro h ho
    obtain ⟨ho', hv'⟩ := call_refines m p h ho
    obtain ⟨ho'', hv''⟩ := ih _ ho'
    refine ⟨ho'', ?_⟩
    unfold Heap.calls at hv'' ⊢
    rw [List.foldl_cons, hv'', hv', Option.map_map]
    rfl

theorem own_new (h : Heap) (t : String) :
    (h.NewQueryBuilder t).1.Own (h.NewQueryBuilder t).2 ∧
      (h.NewQueryBuilder t).1.view (h.NewQueryBuilder t).2 = some (NewQueryBuilder t) := by
  have hobj : (h.NewQueryBuilder t).1.objs[(h.NewQueryBuilder t).2]? =
      some { table := t
             strs := fun f =>
              match f with
              | .columns => { arr := h.strs.length, len := 0 }
              | .conditions => { arr := h.strs.length + 1, len := 0 }
              | .groupBy => { arr := h.strs.length + 2, len := 0 }
              | .having => { arr := h.strs.length + 3, len := 0 }
              | .orderBy => { arr := h.strs.length + 4, len := 0 }
             aggregates := h.maps.length
             limit := 0
             offset := 0
             joins := { arr := h.joinArrs.length, len := 0 } } :=
    List.getElem?_concat_length _ _
  have hstrs : ∀ k, k < 5 →
      (h.NewQueryBuilder t).1.strs[h.strs.length + k]? = some [] := by
    intro k hk
    simp only [Heap.NewQueryBuilder]
    rw [List.getElem?_append_right (Nat.le_add_right _ _), Nat.add_sub_cancel_left]
    interval_cases k <;> rfl
  have hjoin : (h.NewQueryBuilder t).1.joinArrs[h.joinArrs.length]? = some [] := by
    simp only [Heap.NewQueryBuilder]
    exact List.getElem?_concat_length _ _
  have hmap : (h.NewQueryBuilder t).1.maps[h.maps.length]? = some ∅ := by
    simp only [Heap.NewQueryBuilder]
    exact List.getElem?_concat_length _ _
  constructor
  · refine ⟨_, hobj, fun f => ?_, fun f g hfg => ?_, ⟨[], hjoin, Nat.zero_le _⟩, ?_⟩
    · cases f
      · exact ⟨[], hstrs 0 (by omega), Nat.zero_le _⟩
      · exact ⟨[], hstrs 1 (by omega), Nat.zero_le _⟩
      · exact ⟨[], hstrs 2 (by omega), Nat.zero_le _⟩
      · exact ⟨[], hstrs 3 (by omega), Nat.zero_le _⟩
      · exact ⟨[], hstrs 4 (by omega), Nat.zero_le _⟩
    · cases f <;> cases g <;> first | exact absurd rfl hfg | (simp only; omega)
    · simp [Heap.NewQueryBuilder]
  · refine view_of_fields _ _ _ _ hobj rfl (fun g => ?_) ?_ ?_ rfl rfl
    · cases g <;> simp [Heap.viewStrs, getStrs, NewQueryBuilder]
    · simp [Heap.viewJoins, NewQueryBuilder]
    · simp only [hmap, Option.getD_some]; rfl

theorem stage_load {qb x : QueryBuilder} {h : Heap} {c b : Nat} (hs : h.Stage qb c b x) :
    h.load b = qb := by
  unfold Heap.load
  rw [hs.1.2.2]
  rfl

theorem stage_exec {qb x : QueryBuilder} {h : Heap} {c b : Nat} (f : QueryBuilder → Stmt)
    (hs : h.Stage qb c b x) : ((f (h.load b)).exec c h).Stage qb c b ((f qb).run x) := by
  rw [stage_load hs]
  obtain ⟨hg, ho, hv⟩ := hs
  obtain ⟨ho', hv'⟩ := exec_refines (f qb) c h ho
  refine ⟨good_exec _ _ _ _ _ hg, ho', ?_⟩
  rw [hv', hv]
  rfl

theorem stage_mapSets {qb : QueryBuilder} {c b : Nat} (ord : List Entry) :
    ∀ (h : Heap) (x : QueryBuilder), h.Stage qb c b x →
      (ord.foldl (fun h e => (Stmt.mapSet e.1 e.2).exec c h) h).Stage qb c b
        (ord.foldl (fun n e => { n with aggregates := n.aggregates.insert e.1 e.2 }) x) := by
  induction ord with
  | nil => intro h x hs; exact hs
  | cons e r ih =>
    intro h x hs
    exact ih _ _ (stage_exec (fun _ => Stmt.mapSet e.1 e.2) hs)

theorem copy_as_stmts (qb : QueryBuilder) (ord : List Entry) :
    qb.Copy ord =
      ord.foldl (fun n e => { n with aggregates := n.aggregates.insert e.1 e.2 })
        ((Stmt.setOffset qb.offset).run
          ((Stmt.setLimit qb.limit).run
            ((Stmt.appendJoins qb.joins).run
              ((Stmt.appendStr .orderBy qb.orderBy).run
                ((Stmt.appendStr .having qb.having).run
                  ((Stmt.appendStr .groupBy qb.groupBy).run
                    ((Stmt.appendStr .conditions qb.conditions).run
                      ((Stmt.appendStr .columns qb.columns).run
                        (NewQueryBuilder qb.table))))))))) := rfl

/-- The heap semantics of `Copy` refines its state-passing semantics: the
builder at the returned address has the state `QueryBuilder.Copy` gives, the
original keeps its state, and the two share no storage. -/
theorem copy_refines (h : Heap) (b : Nat) (ord : List Entry) (qb : QueryBuilder)
    (hv : h.Valid b) (hqb : h.view b = some qb) :
    (h.Copy b ord).1.Stage qb (h.Copy b ord).2 b (qb.Copy ord) := by
  have h0 : (h.NewQueryBuilder (h.load b).table).1.Stage qb (h.NewQueryBuilder (h.load b).table).2
      b (NewQueryBuilder qb.table) := by
    have hl : h.load b = qb := by unfold Heap.load; rw [hqb]; rfl
    have hg := good_new h b (h.load b).table hv
    have ho := own_new h (h.load b).table
    rw [hl] at hg ho ⊢
    rw [hqb] at hg
    exact ⟨hg, ho.1, ho.2⟩
  have e1 := stage_exec (fun q => Stmt.appendStr .columns q.columns) h0
  have e2 := stage_exec (fun q => Stmt.appendStr .conditions q.conditions) e1
  have e3 := stage_exec (fun q => Stmt.appendStr .groupBy q.groupBy) e2
  have e4 := stage_exec (fun q => Stmt.appendStr .having q.having) e3
  have e5 := stage_exec (fun q => Stmt.appendStr .orderBy q.orderBy) e4
  have e6 := stage_exec (fun q => Stmt.appendJoins q.joins) e5
  have e7 := stage_exec (fun q => Stmt.setLimit q.limit) e6
  have e8 := stage_exec (fun q => Stmt.setOffset q.offset) e7
  have e9 := stage_mapSets ord _ _ e8
  rw [copy_as_stmts]
  exact e9

/-! ## Copy yields an equal builder -/

/-- C6: for every builder `B`, `B.Copy()` has the same table, columns,
conditions, groupBy, having, orderBy and joins (equal as sequences), the same
aggregates mapping and the same limit and offset as `B`; hence for `B` with at
most one aggregate entry the copy renders the same text as `B`.  The same holds
in the memory model: the builder `Copy` allocates has the state of `B`. -/
theorem copy_same_fields (qb : QueryBuilder) (ord : List Entry)
    (hord : RangeOrder qb.aggregates ord) :
    (qb.Copy ord).table = qb.table ∧ (qb.Copy ord).columns = qb.columns ∧
    (qb.Copy ord).conditions = qb.conditions ∧ (qb.Copy ord).groupBy = qb.groupBy ∧
    (qb.Copy ord).having = qb.having ∧ (qb.Copy ord).orderBy = qb.orderBy ∧
    (qb.Copy ord).joins = qb.joins ∧ (qb.Copy ord).aggregates = qb.aggregates ∧
    (qb.Copy ord).limit = qb.limit ∧ (qb.Copy ord).offset = qb.offset ∧
    (mapLen qb.aggregates ≤ 1 → ∀ o1 o2 : List Entry, RangeOrder qb.aggregates o1 →
      RangeOrder (qb.Copy ord).aggregates o2 → (qb.Copy ord).Build o2 = qb.Build o1) ∧
    (∀ (h : Heap) (b : Nat), h.Valid b → h.view b = some qb →
      (h.Copy b ord).1.view (h.Copy b ord).2 = some qb) := by
  have h := copy_eq qb ord hord
  refine ⟨by rw [h], by rw [h], by rw [h], by rw [h], by rw [h], by rw [h], by rw [h], by rw [h],
    by rw [h], by rw [h], ?_, ?_⟩
  · intro hle o1 o2 h1 h2
    rw [h] at h2 ⊢
    rw [build_le_one qb o1 h1 hle, build_le_one qb o2 h2 hle]
    have hperm : o1.Perm o2 := by
      unfold RangeOrder at h1 h2
      exact Multiset.coe_eq_coe.mp (h1.trans h2.symm)
    have hlen : o1.length ≤ 1 := by rw [← rangeOrder_length h1]; exact hle
    match o1, hlen, hperm with
    | [], _, hp => rw [List.nil_perm.mp hp]
    | [e], _, hp => rw [List.perm_singleton.mp hp.symm]
  · intro hp b hv hqb
    have hs := (copy_refines hp b ord qb hv hqb).2.2
    rw [h] at hs
    exact hs

theorem copy_same_fields_witness :
    RangeOrder categorySum.aggregates [⟨"price", "SUM"⟩] ∧
      (categorySum.Copy [⟨"price", "SUM"⟩]).columns = categorySum.columns ∧
      (categorySum.Copy [⟨"price", "SUM"⟩]).aggregates = categorySum.aggregates ∧
      (categorySum.Copy [⟨"price", "SUM"⟩]).Build [⟨"price", "SUM"⟩] =
        categorySum.Build [⟨"price", "SUM"⟩] :=
  ⟨by decide, (copy_same_fields categorySum [⟨"price", "SUM"⟩] (by decide)).2.1,
    (copy_same_fields categorySum [⟨"price", "SUM"⟩] (by decide)).2.2.2.2.2.2.2.1,
    (copy_same_fields categorySum [⟨"price", "SUM"⟩] (by decide)).2.2.2.2.2.2.2.2.2.2.1
      (by decide) [⟨"price", "SUM"⟩] [⟨"price", "SUM"⟩] (by decide) (by decide)⟩

/-! ## Scenarios of the specification -/

theorem fmtInt_pos (n : Int) (hn : n > 0) : fmtInt n = decimal n := by
  obtain ⟨k, rfl⟩ := Int.eq_ofNat_of_zero_le (le_of_lt hn)
  rfl

/-- C11: for every relation `t`, column `c`, value `v` and integer `n > 0`,
`NewQueryBuilder(t).Select().WhereGt(c, v).Limit(n).Build()` is
`SELECT * FROM t WHERE c > v LIMIT n` with `n` in decimal. -/
theorem scenario_where_gt_limit (t c v : String) (n : Int) (ord : List Entry) (hn : n > 0) :
    ((((NewQueryBuilder t).Select []).WhereGt c v).Limit n).Build ord =
      "SELECT * FROM " ++ t ++ " WHERE " ++ c ++ " > " ++ v ++ " LIMIT " ++ decimal n := by
  rw [build_eq_head_tail, ← fmtInt_pos n hn]
  have hm : mapLen (NewQueryBuilder t).aggregates = 0 := rfl
  simp [-String.reduceAppend, QueryBuilder.Select, QueryBuilder.WhereGt, QueryBuilder.Limit,
    NewQueryBuilder, specJoins, specTail, specList, specNum, joined, hn, String.append_empty,
    String.append_assoc] at hm ⊢
  simp [-String.reduceAppend, hm]
  rfl

theorem scenario_where_gt_limit_witness :
    (5 : Int) > 0 ∧
      productsScenario.Build [] =
        "SELECT * FROM " ++ "products" ++ " WHERE " ++ "price" ++ " > " ++ "100" ++ " LIMIT " ++
          decimal 5 ∧
      "SELECT * FROM " ++ "products" ++ " WHERE " ++ "price" ++ " > " ++ "100" ++ " LIMIT " ++
          decimal 5 = "SELECT * FROM products WHERE price > 100 LIMIT 5" :=
  ⟨by decide, scenario_where_gt_limit "products" "price" "100" 5 [] (by decide), by decide⟩

/-- C12: for every relation `t`, a fresh builder after `GroupBy("category")`,
`Aggregate("id", Count)` and `Having("COUNT(*) > 1")` renders exactly
`SELECT COUNT(id) FROM t GROUP BY category HAVING COUNT(*) > 1`: GROUP BY
precedes HAVING and the projection is the aggregate alone, without a comma. -/
theorem scenario_group_having (t : String) (ord : List Entry)
    (hord : RangeOrder (groupScenario t).aggregates ord) :
    (groupScenario t).Build ord =
      "SELECT COUNT(id) FROM " ++ t ++ " GROUP BY category HAVING COUNT(*) > 1" := by
  have hh : stringsTrimSpace "COUNT(*) > 1" ≠ "" := by decide
  have hstate : groupScenario t =
      { NewQueryBuilder t with
        groupBy := ["category"]
        aggregates := (∅ : StrMap).insert "id" "COUNT"
        having := ["COUNT(*) > 1"] } := by
    simp [groupScenario, QueryBuilder.GroupBy, QueryBuilder.Aggregate, QueryBuilder.Having, hh,
      NewQueryBuilder, Count]
  have hordEq : ord = [⟨"id", "COUNT"⟩] := by
    unfold RangeOrder at hord
    rw [hstate] at hord
    simp only [] at hord
    rw [entries_insert_empty] at hord
    exact Multiset.coe_eq_singleton.mp hord
  rw [build_general _ _ hord, hstate, hordEq]
  simp [-String.reduceAppend, NewQueryBuilder, specSelectAll, specJoins, specTail, specList,
    specNum, joined, String.append_empty, String.append_assoc]
  rfl

theorem scenario_group_having_witness :
    RangeOrder (groupScenario "products").aggregates [⟨"id", "COUNT"⟩] ∧
      (groupScenario "products").Build [⟨"id", "COUNT"⟩] =
        "SELECT COUNT(id) FROM " ++ "products" ++ " GROUP BY category HAVING COUNT(*) > 1" :=
  ⟨by decide, scenario_group_having "products" [⟨"id", "COUNT"⟩] (by decide)⟩

/-! ## Reset -/

/-- C13: for every builder state, `Reset()` leaves the table unchanged, empties
columns, conditions, groupBy, having, orderBy, joins and aggregates and sets
limit and offset to 0, so that `Build()` after `Reset()` returns exactly
`SELECT * FROM` and the original table. -/
theorem reset_clears (qb : QueryBuilder) (ord : List Entry) :
    qb.Reset.table = qb.table ∧ qb.Reset.columns = [] ∧ qb.Reset.conditions = [] ∧
    qb.Reset.groupBy = [] ∧ qb.Reset.having = [] ∧ qb.Reset.orderBy = [] ∧
    qb.Reset.joins = [] ∧ qb.Reset.aggregates = ∅ ∧ qb.Reset.limit = 0 ∧ qb.Reset.offset = 0 ∧
    qb.Reset.Build ord = "SELECT * FROM " ++ qb.table := by
  refine ⟨rfl, rfl, rfl, rfl, rfl, rfl, rfl, rfl, rfl, rfl, ?_⟩
  rw [build_eq_head_tail]
  have hm : mapLen qb.Reset.aggregates = 0 := rfl
  simp [-String.reduceAppend, hm, QueryBuilder.Reset, specJoins, specTail, specList, specNum,
    String.append_empty]
  rfl

/-! ## Validation of WHERE and HAVING -/

/-- C14: `Where(c)` and `Having(c)` leave the builder unchanged when `c` is
empty or consists only of white space, and otherwise append `c` itself,
untrimmed, as the last element of conditions / having and change no other
field. -/
theorem where_having_validation (qb : QueryBuilder) (c : String) :
    (c = "" ∨ whitespaceOnly c = true → qb.Where c = qb ∧ qb.Having c = qb) ∧
    (whitespaceOnly c = false →
      qb.Where c = { qb with conditions := qb.conditions ++ [c] } ∧
      qb.Having c = { qb with having := qb.having ++ [c] }) := by
  constructor
  · intro h
    have hw : whitespaceOnly c = true := by
      rcases h with h | h
      · subst h; rfl
      · exact h
    have ht : ¬ stringsTrimSpace c ≠ "" := by
      rw [trimSpace_ne_empty, hw]; exact Bool.noConfusion
    exact ⟨by simp only [QueryBuilder.Where, if_neg ht],
      by simp only [QueryBuilder.Having, if_neg ht]⟩
  · intro h
    have ht : stringsTrimSpace c ≠ "" := (trimSpace_ne_empty c).mpr h
    exact ⟨by simp only [QueryBuilder.Where, if_pos ht],
      by simp only [QueryBuilder.Having, if_pos ht]⟩

theorem where_having_validation_witness :
    (whitespaceOnly " \t\n" = true ∧
      (NewQueryBuilder "t").Where " \t\n" = NewQueryBuilder "t" ∧
      (NewQueryBuilder "t").Having "" = NewQueryBuilder "t") ∧
    (whitespaceOnly "  a = 1 " = false ∧
      ((NewQueryBuilder "t").Where "  a = 1 ").conditions = ["  a = 1 "]) :=
  ⟨⟨by decide,
      ((where_having_validation (NewQueryBuilder "t") " \t\n").1 (Or.inr (by decide))).1,
      ((where_having_validation (NewQueryBuilder "t") "").1 (Or.inl rfl)).2⟩,
    ⟨by decide,
      by rw [((where_having_validation (NewQueryBuilder "t") "  a = 1 ").2 (by decide)).1]; rfl⟩⟩

/-! ## LIMIT and OFFSET -/

theorem specNum_eq_empty (keyword : String) (n : Int) (hk : keyword ≠ "") :
    specNum keyword n = "" ↔ n ≤ 0 := by
  unfold specNum
  constructor
  · intro h
    by_contra hn
    rw [if_pos (not_le.mp hn)] at h
    apply hk
    have hd := congrArg String.data h
    simp only [String.data_append] at hd
    have := (List.append_eq_nil.mp hd).1
    exact String.ext this
  · intro h
    rw [if_neg (not_lt.mpr h)]

/-- C15: `Limit` and `Offset` overwrite: `Limit(n)` then `Limit(m)` is
`Limit(m)` alone, likewise `Offset`.  The text of `Build` is the text without
limit and offset followed by the section ` LIMIT n`, present iff the stored
limit is positive, and the section ` OFFSET n`, present iff the stored offset
is positive; so a limit `m <= 0` after `Limit(5)` leaves no LIMIT section. -/
theorem limit_offset_sections (qb : QueryBuilder) (ord : List Entry) (n m : Int) :
    (qb.Limit n).Limit m = qb.Limit m ∧ (qb.Offset n).Offset m = qb.Offset m ∧
    qb.Build ord =
      ({ qb with limit := 0, offset := 0 } : QueryBuilder).Build ord ++
        specNum " LIMIT " qb.limit ++ specNum " OFFSET " qb.offset ∧
    (specNum " LIMIT " qb.limit = "" ↔ qb.limit ≤ 0) ∧
    (specNum " OFFSET " qb.offset = "" ↔ qb.offset ≤ 0) ∧
    (m ≤ 0 →
      ((qb.Limit 5).Limit m).Build ord =
        ({ qb with limit := 0, offset := 0 } : QueryBuilder).Build ord ++
          specNum " OFFSET " qb.offset) := by
  have hsplit : ∀ q : QueryBuilder, q.Build ord =
      ({ q with limit := 0, offset := 0 } : QueryBuilder).Build ord ++
        specNum " LIMIT " q.limit ++ specNum " OFFSET " q.offset := by
    intro q
    rw [build_eq_head_tail, build_eq_head_tail]
    simp only [specTail, specNum, lt_self_iff_false, gt_iff_lt, if_false, String.append_empty,
      String.append_assoc]
  refine ⟨rfl, rfl, hsplit qb, specNum_eq_empty _ _ (by decide), specNum_eq_empty _ _ (by decide),
    ?_⟩
  intro hm
  rw [hsplit ((qb.Limit 5).Limit m)]
  have h0 : specNum " LIMIT " ((qb.Limit 5).Limit m).limit = "" :=
    (specNum_eq_empty _ _ (by decide)).mpr hm
  rw [h0, String.append_empty]
  rfl

theorem limit_offset_sections_witness :
    (0 : Int) ≤ 0 ∧
      (((NewQueryBuilder "t").Limit 5).Limit 0).Build [] = "SELECT * FROM t" ∧
      ((NewQueryBuilder "t").Limit 5).Build [] = "SELECT * FROM t LIMIT 5" ∧
      (((NewQueryBuilder "t").Limit 5).Limit (-3)).Build [] =
        ({ NewQueryBuilder "t" with limit := 0, offset := 0 } : QueryBuilder).Build [] ++
          specNum " OFFSET " (NewQueryBuilder "t").offset :=
  ⟨by decide, by decide, by decide,
    (limit_offset_sections (NewQueryBuilder "t") [] 5 (-3)).2.2.2.2.2 (by decide)⟩

/-! ## Aggregate: the last write wins -/

/-- C16, counterexample: on the relation `MIN(a)`, after `Aggregate("a", Min)`
and `Aggregate("a", Max)` the text is `SELECT MAX(a) FROM MIN(a)`, in which
`MIN(a)` occurs; and after `Aggregate("a", "UM")` and `Aggregate("a", Sum)` the
text `SELECT SUM(a) FROM t` holds `UM(a)`. -/
theorem aggregate_old_text_occurs :
    Min ≠ Max ∧ RangeOrder minThenMax.aggregates [⟨"a", "MAX"⟩] ∧
      minThenMax.Build [⟨"a", "MAX"⟩] = "SELECT MAX(a) FROM MIN(a)" ∧
      occursIn (Min ++ "(" ++ "a" ++ ")") (minThenMax.Build [⟨"a", "MAX"⟩]) ∧
      "UM" ≠ Sum ∧ RangeOrder umThenSum.aggregates [⟨"a", "SUM"⟩] ∧
      umThenSum.Build [⟨"a", "SUM"⟩] = "SELECT SUM(a) FROM t" ∧
      occursIn ("UM" ++ "(" ++ "a" ++ ")") (umThenSum.Build [⟨"a", "SUM"⟩]) := by
  refine ⟨by decide, by decide, by decide, ?_, by decide, by decide, by decide, ?_⟩
  · unfold occursIn; decide
  · unfold occursIn; decide

/-- C16, amended: `Aggregate` is last-write-wins per column.  The state after
`Aggregate(c, f1)` then `Aggregate(c, f2)` is the state after `Aggregate(c, f2)`
alone, the aggregates mapping holds exactly one entry for `c`, its value `f2`,
and on a fresh builder `Build()` renders exactly `SELECT f2(c) FROM table`: the
projection is the single term `f2(c)`. -/
theorem aggregate_last_write_wins (qb : QueryBuilder) (c f1 f2 : String) :
    (qb.Aggregate c f1).Aggregate c f2 = qb.Aggregate c f2 ∧
    ((qb.Aggregate c f1).Aggregate c f2).aggregates.lookup c = some f2 ∧
    (∀ f : String,
      (⟨c, f⟩ : Entry) ∈ ((qb.Aggregate c f1).Aggregate c f2).aggregates.entries ↔ f = f2) ∧
    (∀ (t : String) (ord : List Entry),
      RangeOrder (((NewQueryBuilder t).Aggregate c f1).Aggregate c f2).aggregates ord →
        ord = [⟨c, f2⟩] ∧
        (((NewQueryBuilder t).Aggregate c f1).Aggregate c f2).Build ord =
          "SELECT " ++ f2 ++ "(" ++ c ++ ") FROM " ++ t) := by
  have hstate : ∀ q : QueryBuilder, (q.Aggregate c f1).Aggregate c f2 = q.Aggregate c f2 := by
    intro q
    simp only [QueryBuilder.Aggregate, Finmap.insert_insert]
  have hlook : ((qb.Aggregate c f1).Aggregate c f2).aggregates.lookup c = some f2 := by
    simp only [QueryBuilder.Aggregate, Finmap.lookup_insert]
  refine ⟨hstate qb, hlook, fun f => ?_, ?_⟩
  · rw [← Finmap.lookup_eq_some_iff, hlook]
    constructor
    · intro h; exact (Option.some.inj h).symm
    · intro h; rw [h]
  · intro t ord hord
    have hagg : (((NewQueryBuilder t).Aggregate c f1).Aggregate c f2).aggregates =
        (∅ : StrMap).insert c f2 := by
      rw [hstate]; rfl
    have hordEq : ord = [⟨c, f2⟩] := by
      unfold RangeOrder at hord
      rw [hagg, entries_insert_empty] at hord
      exact Multiset.coe_eq_singleton.mp hord
    refine ⟨hordEq, ?_⟩
    rw [build_general _ _ hord, hordEq, hstate]
    simp [-String.reduceAppend, QueryBuilder.Aggregate, NewQueryBuilder, specSelectAll, specJoins,
      specTail, specList, specNum, joined, String.append_empty, String.append_assoc]
    rfl

theorem aggregate_last_write_wins_witness :
    RangeOrder (((NewQueryBuilder "t").Aggregate "price" Sum).Aggregate "price" Avg).aggregates
        [⟨"price", "AVG"⟩] ∧
      (((NewQueryBuilder "t").Aggregate "price" Sum).Aggregate "price" Avg).Build
          [⟨"price", "AVG"⟩] = "SELECT " ++ Avg ++ "(" ++ "price" ++ ") FROM " ++ "t" ∧
      "SELECT " ++ Avg ++ "(" ++ "price" ++ ") FROM " ++ "t" = "SELECT AVG(price) FROM t" :=
  ⟨by decide,
    ((aggregate_last_write_wins (NewQueryBuilder "t") "price" Sum Avg).2.2.2 "t"
      [⟨"price", "AVG"⟩] (by decide)).2,
    by decide⟩

/-! ## Comparison predicates -/

/-- C17, counterexample: `WhereEq("status", "active")` appends
`status = 'active'` and `WhereLike("name", "%a%")` appends `name LIKE '%a%'`:
the builder puts single quotes around the value, so the predicate is not
`col + " " + op + " " + val`. -/
theorem whereEq_like_add_quotes :
    ((NewQueryBuilder "t").WhereEq "status" "active").conditions = ["status = 'active'"] ∧
      "status = 'active'" ≠ "status" ++ " " ++ "=" ++ " " ++ "active" ∧
      ((NewQueryBuilder "t").WhereLike "name" "%a%").conditions = ["name LIKE '%a%'"] ∧
      "name LIKE '%a%'" ≠ "name" ++ " " ++ "LIKE" ++ " " ++ "%a%" := by
  refine ⟨by decide, by decide, by decide, by decide⟩

/-- C17, amended: for every column `col` and value `val`, each of `WhereGt`,
`WhereLt`, `WhereGte` and `WhereLte` appends exactly one predicate
`col + " " + op + " " + val` with `op` being `>`, `<`, `>=`, `<=`, the value as
the caller supplied it; `WhereEq` and `WhereLike` append exactly one predicate
`col + " " + op + " '" + val + "'"` with `op` being `=` and `LIKE`: they put the
value between single quotes.  No other field changes. -/
theorem comparison_predicates (qb : QueryBuilder) (col val : String) :
    qb.WhereGt col val = { qb with conditions := qb.conditions ++ [col ++ " " ++ ">" ++ " " ++ val] } ∧
    qb.WhereLt col val = { qb with conditions := qb.conditions ++ [col ++ " " ++ "<" ++ " " ++ val] } ∧
    qb.WhereGte col val =
      { qb with conditions := qb.conditions ++ [col ++ " " ++ ">=" ++ " " ++ val] } ∧
    qb.WhereLte col val =
      { qb with conditions := qb.conditions ++ [col ++ " " ++ "<=" ++ " " ++ val] } ∧
    qb.WhereEq col val =
      { qb with conditions := qb.conditions ++ [col ++ " " ++ "=" ++ " '" ++ val ++ "'"] } ∧
    qb.WhereLike col val =
      { qb with conditions := qb.conditions ++ [col ++ " " ++ "LIKE" ++ " '" ++ val ++ "'"] } := by
  have e : ∀ a b : String, col ++ " " ++ a ++ b ++ val = col ++ (" " ++ a ++ b) ++ val := by
    intro a b; simp only [String.append_assoc]
  refine ⟨?_, ?_, ?_, ?_, ?_, ?_⟩
  · simp only [QueryBuilder.WhereGt, e]; rfl
  · simp only [QueryBuilder.WhereLt, e]; rfl
  · simp only [QueryBuilder.WhereGte, e]; rfl
  · simp only [QueryBuilder.WhereLte, e]; rfl
  · simp only [QueryBuilder.WhereEq, e]; rfl
  · simp only [QueryBuilder.WhereLike, e]; rfl

/-! ## Regular expression predicates -/

/-- C18: for every column `col` and pattern `p`, `WhereRegex`,
`WhereRegexNoCase`, `WhereNotRegex` and `WhereNotRegexNoCase` each append,
without any condition, as the last WHERE predicate the text
`col + " " + op + " '" + p + "'"` with `op` being `~`, `~*`, `!~` and `!~*`, and
change no other field. -/
theorem regex_predicates (qb : QueryBuilder) (col p : String) :
    qb.WhereRegex col p =
      { qb with conditions := qb.conditions ++ [col ++ " " ++ "~" ++ " '" ++ p ++ "'"] } ∧
    qb.WhereRegexNoCase col p =
      { qb with conditions := qb.conditions ++ [col ++ " " ++ "~*" ++ " '" ++ p ++ "'"] } ∧
    qb.WhereNotRegex col p =
      { qb with conditions := qb.conditions ++ [col ++ " " ++ "!~" ++ " '" ++ p ++ "'"] } ∧
    qb.WhereNotRegexNoCase col p =
      { qb with conditions := qb.conditions ++ [col ++ " " ++ "!~*" ++ " '" ++ p ++ "'"] } := by
  have e : ∀ a b : String, col ++ " " ++ a ++ b ++ p = col ++ (" " ++ a ++ b) ++ p := by
    intro a b; simp only [String.append_assoc]
  refine ⟨?_, ?_, ?_, ?_⟩
  · simp only [QueryBuilder.WhereRegex, e]; rfl
  · simp only [QueryBuilder.WhereRegexNoCase, e]; rfl
  · simp only [QueryBuilder.WhereNotRegex, e]; rfl
  · simp only [QueryBuilder.WhereNotRegexNoCase, e]; rfl

/-! ## Predicates with a fixed template -/

/-- C19: the fixed-template predicates each append exactly one WHERE predicate
and change nothing else: `WhereIn` appends `col IN (vs)`, `WhereBetween`
`col BETWEEN lo AND hi`, `WhereNotBetween` `col NOT BETWEEN lo AND hi`,
`WhereIsNull` `col IS NULL`, `WhereIsNotNull` `col IS NOT NULL` and
`WhereArrayContains` `val = ANY(col)`, the value first. -/
theorem fixed_template_predicates (qb : QueryBuilder) (col vs lo hi val : String) :
    qb.WhereIn col vs = { qb with conditions := qb.conditions ++ [col ++ " IN (" ++ vs ++ ")"] } ∧
    qb.WhereBetween col lo hi =
      { qb with conditions := qb.conditions ++ [col ++ " BETWEEN " ++ lo ++ " AND " ++ hi] } ∧
    qb.WhereNotBetween col lo hi =
      { qb with conditions := qb.conditions ++ [col ++ " NOT BETWEEN " ++ lo ++ " AND " ++ hi] } ∧
    qb.WhereIsNull col = { qb with conditions := qb.conditions ++ [col ++ " IS NULL"] } ∧
    qb.WhereIsNotNull col = { qb with conditions := qb.conditions ++ [col ++ " IS NOT NULL"] } ∧
    qb.WhereArrayContains col val =
      { qb with conditions := qb.conditions ++ [val ++ " = ANY(" ++ col ++ ")"] } ∧
    ((NewQueryBuilder "t").WhereArrayContains "tags" "'python'").conditions =
      ["'python' = ANY(tags)"] :=
  ⟨rfl, rfl, rfl, rfl, rfl, rfl, by decide⟩

/-! ## The alias rule of the expression renderers -/

theorem ne_empty_alias (template alias_ : String) :
    (if alias_ ≠ "" then template ++ " AS " ++ alias_ else template) = withAlias template alias_ := by
  unfold withAlias
  by_cases h : alias_ = ""
  · simp [h]
  · simp [h]

/-- C20: the alias rule.  Each of `SelectCharLength`, `SelectStringPosition`,
`SelectReplace`, `SelectCast`, `SelectCurrentDate`, `SelectCurrentTimestamp`,
`SelectExtract`, `SelectIf`, `SelectNullifFixed`, `SelectGrouping` and
`SelectAggregateWithFilter` appends exactly one select term at the end of
columns: the template of the operation when the alias is empty, the template
followed by ` AS ` and the alias otherwise (`withAlias`). -/
theorem alias_rule (qb : QueryBuilder) (a b c alias_ : String) :
    qb.SelectCharLength a alias_ =
      { qb with columns := qb.columns ++ [withAlias ("CHAR_LENGTH(" ++ a ++ ")") alias_] } ∧
    qb.SelectStringPosition a b alias_ =
      { qb with columns := qb.columns ++
          [withAlias ("POSITION(" ++ b ++ " IN " ++ a ++ ")") alias_] } ∧
    qb.SelectReplace a b c alias_ =
      { qb with columns := qb.columns ++
          [withAlias ("REPLACE(" ++ a ++ ", " ++ b ++ ", " ++ c ++ ")") alias_] } ∧
    qb.SelectCast a b alias_ =
      { qb with columns := qb.columns ++ [withAlias ("CAST(" ++ a ++ " AS " ++ b ++ ")") alias_] } ∧
    qb.SelectCurrentDate alias_ =
      { qb with columns := qb.columns ++ [withAlias "CURRENT_DATE" alias_] } ∧
    qb.SelectCurrentTimestamp alias_ =
      { qb with columns := qb.columns ++ [withAlias "CURRENT_TIMESTAMP" alias_] } ∧
    qb.SelectExtract a b alias_ =
      { qb with columns := qb.columns ++
          [withAlias ("EXTRACT(" ++ b ++ " FROM " ++ a ++ ")") alias_] } ∧
    qb.SelectIf a b c alias_ =
      { qb with columns := qb.columns ++
          [withAlias ("CASE WHEN " ++ a ++ " THEN " ++ b ++ " ELSE " ++ c ++ " END") alias_] } ∧
    qb.SelectNullifFixed a b alias_ =
      { qb with columns := qb.columns ++ [withAlias ("NULLIF(" ++ a ++ ", " ++ b ++ ")") alias_] } ∧
    qb.SelectGrouping a alias_ =
      { qb with columns := qb.columns ++ [withAlias ("GROUPING(" ++ a ++ ")") alias_] } ∧
    qb.SelectAggregateWithFilter a b c alias_ =
      { qb with columns := qb.columns ++
          [withAlias (a ++ "(" ++ b ++ ") FILTER (WHERE " ++ c ++ ")") alias_] } := by
  refine ⟨?_, ?_, ?_, ?_, ?_, ?_, ?_, ?_, ?_, ?_, ?_⟩
  · simp only [QueryBuilder.SelectCharLength, ne_empty_alias]
  · simp only [QueryBuilder.SelectStringPosition, ne_empty_alias]
  · simp only [QueryBuilder.SelectReplace, ne_empty_alias]
  · simp only [QueryBuilder.SelectCast, ne_empty_alias]
  · simp only [QueryBuilder.SelectCurrentDate, ne_empty_alias]
  · simp only [QueryBuilder.SelectCurrentTimestamp, ne_empty_alias]
  · simp only [QueryBuilder.SelectExtract, ne_empty_alias]
  · simp only [QueryBuilder.SelectIf, ne_empty_alias]
  · simp only [QueryBuilder.SelectNullifFixed, ne_empty_alias]
  · unfold QueryBuilder.SelectGrouping withAlias
    by_cases h : alias_ = ""
    · simp [-String.reduceAppend, h, String.append_empty]
    · simp [-String.reduceAppend, h, String.append_assoc]
  · simp only [QueryBuilder.SelectAggregateWithFilter, ne_empty_alias]


/-! ## Identifier validation -/

theorem matches_none (s : List Char) : Re.none.matchesAll s = false := by
  unfold Re.matchesAll
  induction s with
  | nil => rfl
  | cons c s ih => simpa [Re.deriv] using ih

theorem matches_alt (s : List Char) :
    ∀ a b : Re, (Re.alt a b).matchesAll s = (a.matchesAll s || b.matchesAll s) := by
  unfold Re.matchesAll
  induction s with
  | nil => intro a b; rfl
  | cons c s ih => intro a b; simp only [List.foldl_cons, Re.deriv]; exact ih _ _

theorem matches_cons (r : Re) (c : Char) (s : List Char) :
    r.matchesAll (c :: s) = (Re.deriv c r).matchesAll s := rfl

theorem matches_cat_none (s : List Char) : ∀ b : Re, (Re.cat .none b).matchesAll s = false := by
  induction s with
  | nil => intro b; rfl
  | cons c s ih =>
    intro b
    rw [matches_cons]
    simp only [Re.deriv, Re.nullable, Bool.false_eq_true, if_false]
    exact ih b

theorem matches_cat_eps (b : Re) (s : List Char) :
    (Re.cat .eps b).matchesAll s = b.matchesAll s := by
  cases s with
  | nil => simp [Re.matchesAll, Re.nullable]
  | cons c s =>
    rw [matches_cons, matches_cons]
    simp only [Re.deriv, Re.nullable, if_true]
    rw [matches_alt, matches_cat_none, Bool.false_or]

theorem matches_star_cls (ranges : List (Char × Char)) (s : List Char) :
    (Re.star (.cls ranges)).matchesAll s = s.all (Re.inClass ranges) := by
  induction s with
  | nil => rfl
  | cons c s ih =>
    rw [matches_cons, List.all_cons]
    simp only [Re.deriv]
    by_cases h : Re.inClass ranges c = true
    · rw [if_pos h, matches_cat_eps, ih, h, Bool.true_and]
    · rw [if_neg h, matches_cat_none]
      simp only [Bool.not_eq_true] at h
      rw [h, Bool.false_and]

theorem matches_ident (s : List Char) :
    identPattern.matchesAll s =
      match s with
      | [] => false
      | c :: rest =>
        Re.inClass [('A', 'Z'), ('a', 'z'), ('_', '_')] c &&
          rest.all (Re.inClass [('A', 'Z'), ('a', 'z'), ('0', '9'), ('_', '_')]) := by
  cases s with
  | nil => rfl
  | cons c rest =>
    rw [matches_cons]
    simp only [identPattern, Re.deriv, Re.nullable, Bool.false_eq_true, if_false]
    by_cases h : Re.inClass [('A', 'Z'), ('a', 'z'), ('_', '_')] c = true
    · rw [if_pos h, matches_cat_eps, matches_star_cls, h, Bool.true_and]
    · rw [if_neg h, matches_cat_none]
      simp only [Bool.not_eq_true] at h
      rw [h, Bool.false_and]

theorem char_eq_underscore (c : Char) : c = '_' ↔ c.toNat = 95 := by
  constructor
  · intro h; subst h; rfl
  · intro h
    apply Char.ext
    apply UInt32.ext
    exact h

theorem isAlpha_iff (c : Char) :
    c.isAlpha = true ↔ (65 ≤ c.toNat ∧ c.toNat ≤ 90) ∨ (97 ≤ c.toNat ∧ c.toNat ≤ 122) := by
  simp only [Char.isAlpha, Char.isUpper, Char.isLower, Bool.or_eq_true, Bool.and_eq_true,
    decide_eq_true_eq, ge_iff_le]
  exact Iff.rfl

theorem isDigit_iff (c : Char) : c.isDigit = true ↔ 48 ≤ c.toNat ∧ c.toNat ≤ 57 := by
  simp only [Char.isDigit, Bool.and_eq_true, decide_eq_true_eq, ge_iff_le]
  exact Iff.rfl

theorem class_start (c : Char) :
    Re.inClass [('A', 'Z'), ('a', 'z'), ('_', '_')] c = true ↔ (c.isAlpha = true ∨ c = '_') := by
  rw [char_eq_underscore, isAlpha_iff]
  simp only [Re.inClass, List.any_cons, List.any_nil, Bool.or_false, Bool.or_eq_true,
    decide_eq_true_eq]
  have hA : ('A' : Char).toNat = 65 := rfl
  have hZ : ('Z' : Char).toNat = 90 := rfl
  have ha : ('a' : Char).toNat = 97 := rfl
  have hz : ('z' : Char).toNat = 122 := rfl
  have hu : ('_' : Char).toNat = 95 := rfl
  rw [hA, hZ, ha, hz, hu]
  omega

theorem class_part (c : Char) :
    Re.inClass [('A', 'Z'), ('a', 'z'), ('0', '9'), ('_', '_')] c = true ↔
      (c.isAlpha = true ∨ c.isDigit = true ∨ c = '_') := by
  rw [char_eq_underscore, isAlpha_iff, isDigit_iff]
  simp only [Re.inClass, List.any_cons, List.any_nil, Bool.or_false, Bool.or_eq_true,
    decide_eq_true_eq]
  have hA : ('A' : Char).toNat = 65 := rfl
  have hZ : ('Z' : Char).toNat = 90 := rfl
  have ha : ('a' : Char).toNat = 97 := rfl
  have hz : ('z' : Char).toNat = 122 := rfl
  have h0 : ('0' : Char).toNat = 48 := rfl
  have h9 : ('9' : Char).toNat = 57 := rfl
  have hu : ('_' : Char).toNat = 95 := rfl
  rw [hA, hZ, ha, hz, h0, h9, hu]
  omega

/-- C24: `validateSQLIdent(name)` returns no error if and only if `name` is
non-empty, its first character is an ASCII letter or an underscore and every
following character is an ASCII letter, an ASCII digit or an underscore; the
empty string, a trailing newline, a space, a quote, a dot, a semicolon, a
leading digit and non-ASCII letters are rejected with an error. -/
theorem validateSQLIdent_accepts (name : String) :
    (validateSQLIdent name = none ↔ isIdentifier name) ∧
    validateSQLIdent "" ≠ none ∧ validateSQLIdent "users\n" ≠ none ∧
    validateSQLIdent "my table" ≠ none ∧ validateSQLIdent "a'b" ≠ none ∧
    validateSQLIdent "public.users" ≠ none ∧ validateSQLIdent "users;" ≠ none ∧
    validateSQLIdent "1st" ≠ none ∧ validateSQLIdent "таблица" ≠ none ∧
    validateSQLIdent "order_items_2" = none := by
  refine ⟨?_, by decide, by decide, by decide, by decide, by decide, by decide, by decide,
    by decide, by decide⟩
  unfold validateSQLIdent isIdentifier
  by_cases he : name = ""
  · subst he
    simp
  · rw [if_neg he]
    simp only [matches_ident]
    rcases hd : name.data with _ | ⟨c, rest⟩
    · exact absurd (String.ext hd) he
    · by_cases hm : (Re.inClass [('A', 'Z'), ('a', 'z'), ('_', '_')] c &&
          rest.all (Re.inClass [('A', 'Z'), ('a', 'z'), ('0', '9'), ('_', '_')])) = true
      · simp only [hm, Bool.not_true, Bool.false_eq_true, if_false, true_iff]
        rw [Bool.and_eq_true, List.all_eq_true] at hm
        exact ⟨c, rest, rfl, (class_start c).mp hm.1, fun d hd => (class_part d).mp (hm.2 d hd)⟩
      · have hf : (Re.inClass [('A', 'Z'), ('a', 'z'), ('_', '_')] c &&
            rest.all (Re.inClass [('A', 'Z'), ('a', 'z'), ('0', '9'), ('_', '_')])) = false := by
          simpa using hm
        simp only [hf, Bool.not_false, if_true, reduceCtorEq, false_iff]
        rintro ⟨c', rest', hcons, hstart, hpart⟩
        obtain ⟨hc', hr'⟩ := List.cons.inj hcons
        subst hc' hr'
        apply hm
        rw [Bool.and_eq_true, List.all_eq_true]
        exact ⟨(class_start c).mpr hstart, fun d hd => (class_part d).mpr (hpart d hd)⟩

/-! ## AggregateWithCoalesce -/

/-- C21, the code at the failing input: `AggregateWithCoalesce(column, fn,
defaultValue)` appends `COALESCE(fn(column), defaultValue)`, the COALESCE around
the aggregate; for `("price", Sum, "'0'")` the term is
`COALESCE(SUM(price), '0')` and not `SUM(COALESCE(price, '0'))`. -/
theorem aggregateWithCoalesce_term (qb : QueryBuilder) (column fn defaultValue : String) :
    (qb.AggregateWithCoalesce column fn defaultValue).columns =
      qb.columns ++ ["COALESCE(" ++ fn ++ "(" ++ column ++ "), " ++ defaultValue ++ ")"] ∧
    ((NewQueryBuilder "t").AggregateWithCoalesce "price" Sum "'0'").columns =
      ["COALESCE(SUM(price), '0')"] ∧
    Sum ++ "(COALESCE(" ++ "price" ++ ", " ++ "'0'" ++ "))" = "SUM(COALESCE(price, '0'))" ∧
    "COALESCE(SUM(price), '0')" ≠ "SUM(COALESCE(price, '0'))" :=
  ⟨rfl, by decide, by decide, by decide⟩

/-! ## Grouping constructs -/

theorem setClauses_foldl (sets : List (List String)) :
    ∀ acc : List String,
      sets.foldl
          (fun acc set =>
            if set.length > 0 then acc ++ ["(" ++ stringsJoin set ", " ++ ")"] else acc)
          acc =
        acc ++ (sets.filter (fun set => decide (set ≠ []))).map setClause := by
  induction sets with
  | nil => intro acc; simp
  | cons set rest ih =>
    intro acc
    rw [List.foldl_cons, ih]
    cases set with
    | nil => simp
    | cons a r => simp [setClause, stringsJoin_eq_joined]

theorem groupingSets_eq (qb : QueryBuilder) (sets : List (List String)) :
    qb.GroupingSets sets =
      if sets.filter (fun set => decide (set ≠ [])) = [] then qb
      else
        { qb with
          groupBy := qb.groupBy ++
            ["GROUPING SETS (" ++
              joined ", " ((sets.filter (fun set => decide (set ≠ []))).map setClause) ++ ")"] } := by
  unfold QueryBuilder.GroupingSets
  simp only [setClauses_foldl, List.nil_append]
  simp only [stringsJoin_eq_joined]
  cases hs : sets with
  | nil => simp
  | cons a r =>
    rw [← hs]
    have hlen : sets.length > 0 := by rw [hs]; simp
    rw [if_pos hlen]
    by_cases hf : sets.filter (fun set => decide (set ≠ [])) = []
    · rw [hf, if_pos rfl]
      rfl
    · have hpos : ((sets.filter (fun set => decide (set ≠ []))).map setClause).length > 0 := by
        rw [List.length_map]; exact List.length_pos.mpr hf
      rw [if_pos hpos, if_neg hf]

/-- C22: grouping constructs compose with plain GROUP BY columns.  For a
non-empty column list `cs`, `Rollup` appends the single group term
`ROLLUP(cs joined by ", ")` and `Cube` appends `CUBE(...)` after the group terms
already present; for a non-empty list of sets all of which are non-empty,
`GroupingSets` appends `GROUPING SETS ((s1 joined), ..., (sn joined))`; and a
fresh builder on `t` after `GroupBy("a")` and `Rollup("b", "c")` renders
`SELECT * FROM t GROUP BY a, ROLLUP(b, c)`. -/
theorem grouping_constructs (qb : QueryBuilder) (cs : List String) (sets : List (List String))
    (t : String) (ord : List Entry) :
    (cs ≠ [] →
      qb.Rollup cs = { qb with groupBy := qb.groupBy ++ ["ROLLUP(" ++ joined ", " cs ++ ")"] } ∧
      qb.Cube cs = { qb with groupBy := qb.groupBy ++ ["CUBE(" ++ joined ", " cs ++ ")"] }) ∧
    (sets ≠ [] → (∀ set ∈ sets, set ≠ []) →
      qb.GroupingSets sets =
        { qb with
          groupBy := qb.groupBy ++
            ["GROUPING SETS (" ++
              joined ", " (sets.map (fun set => "(" ++ joined ", " set ++ ")")) ++ ")"] }) ∧
    (((NewQueryBuilder t).GroupBy ["a"]).Rollup ["b", "c"]).Build ord =
      "SELECT * FROM " ++ t ++ " GROUP BY a, ROLLUP(b, c)" := by
  refine ⟨?_, ?_, ?_⟩
  · intro hcs
    have hlen : cs.length > 0 := List.length_pos.mpr hcs
    exact ⟨by simp only [QueryBuilder.Rollup, if_pos hlen, stringsJoin_eq_joined],
      by simp only [QueryBuilder.Cube, if_pos hlen, stringsJoin_eq_joined]⟩
  · intro hne hall
    have hfilter : sets.filter (fun set => decide (set ≠ [])) = sets := by
      rw [List.filter_eq_self]
      intro set hset
      exact decide_eq_true (hall set hset)
    rw [groupingSets_eq, hfilter, if_neg hne]
    rfl
  · rw [build_eq_head_tail]
    have hm : mapLen (NewQueryBuilder t).aggregates = 0 := rfl
    simp [-String.reduceAppend, QueryBuilder.GroupBy, QueryBuilder.Rollup, stringsJoin,
      NewQueryBuilder, specJoins, specTail, specList, specNum, joined, String.append_empty,
      String.append_assoc] at hm ⊢
    simp [-String.reduceAppend, hm]
    rfl

theorem grouping_constructs_witness :
    (["b", "c"] ≠ [] ∧
      ((NewQueryBuilder "t").GroupBy ["a"]).Rollup ["b", "c"] =
        { (NewQueryBuilder "t").GroupBy ["a"] with
          groupBy := ((NewQueryBuilder "t").GroupBy ["a"]).groupBy ++
            ["ROLLUP(" ++ joined ", " ["b", "c"] ++ ")"] }) ∧
    ([["a"], ["b", "c"]] ≠ [] ∧ (∀ set ∈ [["a"], ["b", "c"]], set ≠ []) ∧
      ((NewQueryBuilder "t").GroupingSets [["a"], ["b", "c"]]).groupBy =
        ["GROUPING SETS ((a), (b, c))"]) :=
  ⟨⟨by decide,
      ((grouping_constructs ((NewQueryBuilder "t").GroupBy ["a"]) ["b", "c"] [] "t" []).1
        (by decide)).1⟩,
    ⟨by decide, by decide,
      by
        rw [(grouping_constructs (NewQueryBuilder "t") [] [["a"], ["b", "c"]] "t" []).2.1
          (by decide) (by decide)]
        decide⟩⟩

/-- C30, counterexample: `GroupingSets([""])`, one set whose only column is the
empty string, appends `GROUPING SETS (())`: the text `()` of the empty grouping
set is rendered. -/
theorem groupingSets_renders_empty_brackets :
    ((NewQueryBuilder "t").GroupingSets [[""]]).groupBy = ["GROUPING SETS (())"] ∧
      ([""] : List String) ≠ [] ∧
      occursIn "()" "GROUPING SETS (())" := by
  refine ⟨by decide, by decide, ?_⟩
  unfold occursIn
  decide

theorem joined_eq_empty (set : List String) :
    joined ", " set = "" ↔ set = [] ∨ set = [""] := by
  constructor
  · intro h
    match set, h with
    | [], _ => exact Or.inl rfl
    | [a], h => right; simp only [joined] at h; rw [h]
    | a :: b :: rest, h =>
      exfalso
      simp only [joined] at h
      have hd := congrArg String.length h
      simp only [String.length_append] at hd
      have h2 : (", " : String).length = 2 := rfl
      have h0 : ("" : String).length = 0 := rfl
      omega
  · rintro (h | h)
    · subst h; rfl
    · subst h; rfl

/-- C30, amended: `GroupingSets` silently drops empty sets.  For every list of
sets the appended fragment lists only the non-empty sets, in order; when the
list is empty or every set in it is empty the builder is unchanged, as it is
after `Rollup()` and `Cube()` without columns; an empty set never contributes
`()`, and the text `()` is rendered for a set exactly when the set is the single
empty string. -/
theorem groupingSets_drops_empty (qb : QueryBuilder) (sets : List (List String)) :
    (sets.filter (fun set => decide (set ≠ [])) ≠ [] →
      qb.GroupingSets sets =
        { qb with
          groupBy := qb.groupBy ++
            ["GROUPING SETS (" ++
              joined ", "
                ((sets.filter (fun set => decide (set ≠ []))).map
                  (fun set => "(" ++ joined ", " set ++ ")")) ++ ")"] }) ∧
    ((∀ set ∈ sets, set = []) → qb.GroupingSets sets = qb) ∧
    qb.Rollup [] = qb ∧ qb.Cube [] = qb ∧
    (∀ set : List String, setClause set = "()" ↔ (set = [] ∨ set = [""])) ∧
    ((NewQueryBuilder "t").GroupingSets [["a"], [], ["b"]]).groupBy =
      ["GROUPING SETS ((a), (b))"] := by
  refine ⟨?_, ?_, rfl, rfl, ?_, by decide⟩
  · intro hne
    rw [groupingSets_eq, if_neg hne]
    rfl
  · intro hall
    have hf : sets.filter (fun set => decide (set ≠ [])) = [] := by
      rw [List.filter_eq_nil_iff]
      intro set hset
      simp [hall set hset]
    rw [groupingSets_eq, if_pos hf]
  · intro set
    rw [← joined_eq_empty]
    unfold setClause
    constructor
    · intro h
      have hd := congrArg String.length h
      simp only [String.length_append] at hd
      have h1 : ("(" : String).length = 1 := rfl
      have h2 : (")" : String).length = 1 := rfl
      have h3 : ("()" : String).length = 2 := rfl
      have hz : (joined ", " set).data.length = 0 := by
        show (joined ", " set).length = 0
        omega
      exact String.ext (List.length_eq_zero.mp hz)
    · intro h
      rw [h]
      rfl

theorem groupingSets_drops_empty_witness :
    [["a"], [], ["b"]].filter (fun set => decide (set ≠ [])) ≠ [] ∧
      ((NewQueryBuilder "t").GroupingSets [["a"], [], ["b"]]).groupBy =
        ["GROUPING SETS ((a), (b))"] ∧
      (∀ set ∈ [([] : List String), []], set = []) ∧
      (NewQueryBuilder "t").GroupingSets [[], []] = NewQueryBuilder "t" :=
  ⟨by decide,
    by
      rw [(groupingSets_drops_empty (NewQueryBuilder "t") [["a"], [], ["b"]]).1 (by decide)]
      decide,
    by decide,
    (groupingSets_drops_empty (NewQueryBuilder "t") [[], []]).2.1 (by decide)⟩

/-! ## Simple CASE expressions -/

theorem when_foldl (ord : List Entry) :
    ∀ acc : String,
      ord.foldl (fun c e => c ++ (" WHEN " ++ e.1 ++ " THEN " ++ e.2)) acc =
        acc ++ concatAll (ord.map whenSegment) := by
  induction ord with
  | nil => intro acc; simp [concatAll, String.append_empty]
  | cons e r ih =>
    intro acc
    rw [List.foldl_cons, ih, List.map_cons, concatAll, whenSegment, String.append_assoc]

theorem simpleCase_build (sce : SimpleCaseExpression) (ord : List Entry)
    (h : mapLen sce.whens ≠ 0) :
    sce.Build ord =
      "CASE " ++ sce.column ++ concatAll (ord.map whenSegment) ++
        (if sce.else_ = "" then "" else " ELSE " ++ sce.else_) ++ " END" := by
  unfold SimpleCaseExpression.Build
  rw [if_neg h]
  simp only [when_foldl, String.empty_append]
  by_cases he : sce.else_ = ""
  · simp only [he, ne_eq, not_true_eq_false, if_false, if_true, String.append_empty]
  · simp only [he, ne_eq, not_false_eq_true, if_true, if_false]

/-- C23, counterexample: a simple CASE without any mapping renders the empty
text, which neither starts with `CASE status` nor ends with ` END`. -/
theorem simple_case_without_mapping :
    RangeOrder (NewSimpleCase "status").whens [] ∧
      (NewSimpleCase "status").Build [] = "" ∧
      ¬ ("CASE " ++ "status").data <+: ((NewSimpleCase "status").Build []).data ∧
      ¬ (" END" : String).data <:+ ((NewSimpleCase "status").Build []).data := by
  refine ⟨by decide, by decide, ?_, ?_⟩ <;> decide

/-- C23, amended: `SimpleCaseExpression` rendering.  A simple CASE holding
exactly one mapping `v -> r` renders `CASE col WHEN v THEN r END` when the ELSE
value is the empty string and `CASE col WHEN v THEN r ELSE e END` when it is a
non-empty `e`; calling `When` twice with the same value keeps only the last
result; for any positive number of mappings the output is `CASE col`, then one
segment ` WHEN v THEN r` per entry of the mapping (each distinct value once, in
the order of the loop over the mapping), then the ELSE part, then ` END`, so it
starts with `CASE col` and ends with ` END`; with no mapping the output is the
empty text. -/
theorem simple_case_rendering (sce : SimpleCaseExpression) (ord : List Entry)
    (v r r1 : String) :
    (sce.whens = (∅ : StrMap).insert v r → RangeOrder sce.whens ord →
      (sce.else_ = "" →
        sce.Build ord = "CASE " ++ sce.column ++ " WHEN " ++ v ++ " THEN " ++ r ++ " END") ∧
      (sce.else_ ≠ "" →
        sce.Build ord =
          "CASE " ++ sce.column ++ " WHEN " ++ v ++ " THEN " ++ r ++ " ELSE " ++ sce.else_ ++
            " END")) ∧
    (sce.When v r1).When v r = sce.When v r ∧
    (0 < mapLen sce.whens → RangeOrder sce.whens ord →
      sce.Build ord =
        "CASE " ++ sce.column ++ concatAll (ord.map whenSegment) ++
          (if sce.else_ = "" then "" else " ELSE " ++ sce.else_) ++ " END" ∧
      ("CASE " ++ sce.column).data <+: (sce.Build ord).data ∧
      (" END" : String).data <:+ (sce.Build ord).data ∧
      (ord.map (fun e => e.1)).Nodup ∧
      (∀ a b : String, (⟨a, b⟩ : Entry) ∈ ord ↔ sce.whens.lookup a = some b)) ∧
    (mapLen sce.whens = 0 → sce.Build ord = "") := by
  refine ⟨?_, ?_, ?_, ?_⟩
  · intro hw hord
    have hperm : ord = [⟨v, r⟩] := by
      unfold RangeOrder at hord
      rw [hw, entries_insert_empty] at hord
      exact List.perm_singleton.mp (Multiset.coe_eq_coe.mp hord)
    have hlen : mapLen sce.whens ≠ 0 := by
      rw [rangeOrder_length hord, hperm]
      exact Nat.succ_ne_zero 0
    rw [simpleCase_build sce ord hlen, hperm]
    constructor
    · intro he
      simp only [he, if_true, List.map_cons, List.map_nil, concatAll, whenSegment,
        String.append_empty, String.append_assoc]
    · intro he
      simp only [he, if_false, List.map_cons, List.map_nil, concatAll, whenSegment,
        String.append_empty, String.append_assoc]
  · simp only [SimpleCaseExpression.When, Finmap.insert_insert]
  · intro hpos hord
    have hb := simpleCase_build sce ord (Nat.pos_iff_ne_zero.mp hpos)
    refine ⟨hb, ?_, ?_, ?_, ?_⟩
    · rw [hb]
      simp only [String.append_assoc, String.data_append]
      exact List.prefix_append _ _
    · rw [hb]
      simp only [String.data_append]
      exact List.suffix_append _ _
    · unfold RangeOrder at hord
      have hn := sce.whens.nodupKeys
      rw [← hord] at hn
      exact Multiset.coe_nodupKeys.mp hn
    · intro a b
      unfold RangeOrder at hord
      have hm : (⟨a, b⟩ : Entry) ∈ ord ↔ (⟨a, b⟩ : Entry) ∈ sce.whens.entries := by
        rw [← hord]; exact Iff.rfl
      rw [hm, ← Finmap.mem_lookup_iff]
      exact Iff.rfl
  · intro h0
    unfold SimpleCaseExpression.Build
    rw [if_pos h0]

theorem simple_case_rendering_witness :
    ((((NewSimpleCase "status").When "1" "'one'").Else "'other'").whens =
        (∅ : StrMap).insert "1" "'one'" ∧
      RangeOrder (((NewSimpleCase "status").When "1" "'one'").Else "'other'").whens
        [⟨"1", "'one'"⟩] ∧
      (((NewSimpleCase "status").When "1" "'one'").Else "'other'").else_ ≠ "" ∧
      (((NewSimpleCase "status").When "1" "'one'").Else "'other'").Build [⟨"1", "'one'"⟩] =
        "CASE status WHEN 1 THEN 'one' ELSE 'other' END") ∧
    (0 < mapLen (((NewSimpleCase "status").When "1" "'one'").When "2" "'two'").whens ∧
      RangeOrder (((NewSimpleCase "status").When "1" "'one'").When "2" "'two'").whens
        [⟨"2", "'two'"⟩, ⟨"1", "'one'"⟩] ∧
      (((NewSimpleCase "status").When "1" "'one'").When "2" "'two'").Build
          [⟨"2", "'two'"⟩, ⟨"1", "'one'"⟩] =
        "CASE status WHEN 2 THEN 'two' WHEN 1 THEN 'one' END") :=
  ⟨⟨by decide, by decide, by decide,
      by
        rw [((simple_case_rendering (((NewSimpleCase "status").When "1" "'one'").Else "'other'")
          [⟨"1", "'one'"⟩] "1" "'one'" "").1 (by decide) (by decide)).2 (by decide)]
        decide⟩,
    ⟨by decide, by decide,
      by
        rw [((simple_case_rendering (((NewSimpleCase "status").When "1" "'one'").When "2" "'two'")
          [⟨"2", "'two'"⟩, ⟨"1", "'one'"⟩] "" "" "").2.2.1 (by decide) (by decide)).1]
        decide⟩⟩

/-! ## The table of a builder -/

open QueryBuilder in
theorem apply_table (m : Mutator) (qb : QueryBuilder) : (m.apply qb).table = qb.table := by
  cases m <;>
    simp only [Mutator.apply, orderByAsc_eq, orderByDesc_eq,
      Select, Where, WhereEq, WhereGt, WhereLt, WhereGte, WhereLte, WhereLike, WhereIn, WhereRegex,
      WhereRegexNoCase, WhereNotRegex, WhereNotRegexNoCase, GroupBy, Aggregate, Having, OrderBy,
      Limit, Offset, InnerJoin, LeftJoin, RightJoin, FullJoin, SelectUpper, SelectLower,
      SelectTrim, SelectLTrim, SelectRTrim, SelectSubstring, SelectLPad, SelectRPad, SelectConcat,
      Reset, Rollup, Cube, GroupingSets, SelectGrouping, SelectGroupingID,
      SelectAggregateWithFilter, SelectCoalesceFixed, SelectNullifFixed, WhereCoalesceFixed,
      SelectSimpleCase, WhereIsNull, WhereIsNotNull, AggregateWithCoalesce, SelectCharLength,
      SelectStringPosition, SelectReplace, SelectCast, SelectCurrentDate, SelectCurrentTimestamp,
      SelectExtract, SelectIf, WhereBetween, WhereNotBetween, WhereArrayContains, Distinct,
      SetSelectColumns, ClearConditions, ClearGroupBy] <;>
    first
    | rfl
    | (split_ifs <;> rfl)
    | (rcases qb with ⟨_, _ | _, _, _, _, _, _, _, _, _⟩ <;> rfl)

theorem applyAll_table (ms : List Mutator) :
    ∀ qb : QueryBuilder, (ms.foldl (fun q m => m.apply q) qb).table = qb.table := by
  induction ms with
  | nil => intro qb; rfl
  | cons m ms ih => intro qb; rw [List.foldl_cons, ih, apply_table]

theorem copy_table (qb : QueryBuilder) (ord : List Entry) : (qb.Copy ord).table = qb.table := by
  have key : ∀ (l : List Entry) (q : QueryBuilder),
      (l.foldl (fun (n : QueryBuilder) e => { n with aggregates := n.aggregates.insert e.1 e.2 })
        q).table = q.table := by
    intro l
    induction l with
    | nil => intro q; rfl
    | cons e l ih => intro q; rw [List.foldl_cons, ih]
  unfold QueryBuilder.Copy
  simp only [key]
  rfl

/-- C25, counterexample: `NewQueryBuilder("")` returns a builder whose table is
the empty string; nothing is rejected at construction time, and `Build` renders
`SELECT * FROM ` with no relation name. -/
theorem newQueryBuilder_empty_table :
    (NewQueryBuilder "").table = "" ∧ (NewQueryBuilder "").Build [] = "SELECT * FROM " := by
  constructor <;> decide

/-- C25, amended: `NewQueryBuilder` stores the string it is given as the table,
without a check, so the table of the new builder is empty exactly when that
string is empty; and no mutator, no sequence of mutators, `Reset` or `Copy` ever
changes the table, so a builder constructed on `t` keeps the table `t`. -/
theorem table_never_changes (t : String) (qb : QueryBuilder) (m : Mutator) (ms : List Mutator)
    (ord : List Entry) :
    (NewQueryBuilder t).table = t ∧
    ((NewQueryBuilder t).table = "" ↔ t = "") ∧
    (m.apply qb).table = qb.table ∧
    (ms.foldl (fun q m => m.apply q) qb).table = qb.table ∧
    qb.Reset.table = qb.table ∧
    (qb.Copy ord).table = qb.table ∧
    (ms.foldl (fun q m => m.apply q) (NewQueryBuilder t)).table = t :=
  ⟨rfl, Iff.rfl, apply_table m qb, applyAll_table ms qb, rfl, copy_table qb ord,
    applyAll_table ms (NewQueryBuilder t)⟩

/-! ## Distinct -/

/-- C29: `Distinct()` depends on call order.  On a builder whose select-term
list is empty it changes nothing, so `NewQueryBuilder(t).Distinct().Select("a")`
renders `SELECT a FROM t` with no DISTINCT; on a builder whose select terms are
`x` followed by `rest` it replaces only the first term by `DISTINCT x` and
leaves every other term and field unchanged; calling it twice yields the first
term `DISTINCT DISTINCT x`, so the operation is not idempotent. -/
theorem distinct_call_order (qb : QueryBuilder) (t x : String) (rest : List String)
    (ord : List Entry) :
    (qb.columns = [] → qb.Distinct = qb) ∧
    ((NewQueryBuilder t).Distinct.Select ["a"]).Build ord = "SELECT a FROM " ++ t ∧
    (qb.columns = x :: rest →
      qb.Distinct = { qb with columns := ("DISTINCT " ++ x) :: rest } ∧
      qb.Distinct.Distinct = { qb with columns := ("DISTINCT DISTINCT " ++ x) :: rest } ∧
      qb.Distinct.Distinct ≠ qb.Distinct) := by
  refine ⟨?_, ?_, ?_⟩
  · intro h
    unfold QueryBuilder.Distinct
    rw [h]
  · rw [build_eq_head_tail]
    have hm : mapLen (NewQueryBuilder t).aggregates = 0 := rfl
    simp [-String.reduceAppend, QueryBuilder.Distinct, QueryBuilder.Select, stringsJoin,
      NewQueryBuilder, specJoins, specTail, specList, specNum, joined, String.append_empty,
      String.append_assoc] at hm ⊢
    simp [-String.reduceAppend, hm]
    rfl
  · intro h
    have h1 : qb.Distinct = { qb with columns := ("DISTINCT " ++ x) :: rest } := by
      unfold QueryBuilder.Distinct
      rw [h]
    have h2 : qb.Distinct.Distinct =
        { qb with columns := ("DISTINCT DISTINCT " ++ x) :: rest } := by
      rw [h1]
      unfold QueryBuilder.Distinct
      simp only [← String.append_assoc]
      rfl
    refine ⟨h1, h2, ?_⟩
    rw [h2, h1]
    intro he
    have hc := congrArg QueryBuilder.columns he
    simp only [List.cons.injEq, and_true] at hc
    have hl := congrArg String.length hc
    simp only [String.length_append] at hl
    have e1 : ("DISTINCT DISTINCT " : String).length = 18 := rfl
    have e2 : ("DISTINCT " : String).length = 9 := rfl
    omega

theorem distinct_call_order_witness :
    ((NewQueryBuilder "t").columns = [] ∧
      (NewQueryBuilder "t").Distinct = NewQueryBuilder "t") ∧
    (((NewQueryBuilder "t").Select ["a", "b"]).columns = "a" :: ["b"] ∧
      ((NewQueryBuilder "t").Select ["a", "b"]).Distinct.Distinct.columns =
        ["DISTINCT DISTINCT a", "b"]) :=
  ⟨⟨by decide, (distinct_call_order (NewQueryBuilder "t") "t" "" [] []).1 (by decide)⟩,
    ⟨by decide,
      by
        rw [((distinct_call_order ((NewQueryBuilder "t").Select ["a", "b"]) "t" "a" ["b"] []).2.2
          (by decide)).2.1]
        decide⟩⟩

/-! ## Execution of a query -/

theorem header_foldl (fields : List String) :
    ∀ acc : List String, fields.foldl (fun header fd => header ++ [fd]) acc = acc ++ fields := by
  induction fields with
  | nil => intro acc; simp
  | cons f r ih => intro acc; simp [ih]

theorem row_foldl (values : List DriverValue) :
    ∀ acc : List String,
      values.foldl (fun row v => row ++ [fmtV v]) acc = acc ++ values.map fmtV := by
  induction values with
  | nil => intro acc; simp
  | cons v r ih => intro acc; simp [ih]

theorem executeLoop_ok (vals : List (List DriverValue)) :
    ∀ result : List (List String),
      executeLoop (vals.map Except.ok) result =
        .ok (result ++ vals.map (fun values => values.map fmtV)) := by
  induction vals with
  | nil => intro result; simp [executeLoop]
  | cons v r ih =>
    intro result
    simp only [List.map_cons, executeLoop, ih, row_foldl, List.nil_append, List.append_assoc,
      List.singleton_append]

theorem execute_ok (qb : QueryBuilder) (ord : List Entry) (query : String → Except String Rows)
    (fields : List String) (vals : List (List DriverValue))
    (hq : query (qb.Build ord) = .ok { fields := fields, values := vals.map Except.ok, err := none }) :
    qb.Execute ord query = .ok (fields :: vals.map (fun values => values.map fmtV)) := by
  unfold QueryBuilder.Execute
  simp only [hq, executeLoop_ok, header_foldl, List.nil_append, List.singleton_append]

/-- C26, the code at the failing input: for a driver that returns the columns
`id`, `name` and the one row `1, NULL`, `QueryBuilder.Execute` returns the
header row and the data row `1`, `<nil>`: the NULL value is formatted with `%v`
and comes out as `<nil>`, not as `NULL`; `ExecuteCTEQuery` on the same rows
tests `v == nil` and returns `NULL`. -/
theorem execute_renders_nil :
    QueryBuilder.Execute (NewQueryBuilder "t") [] oneNullRow =
      .ok [["id", "name"], ["1", "<nil>"]] ∧
    ExecuteCTEQuery oneNullRow [⟨"r", "q", []⟩] (some (NewQueryBuilder "t")) [] =
      .ok [["id", "name"], ["1", "NULL"]] ∧
    fmtV DriverValue.null = "<nil>" ∧ fmtV DriverValue.null ≠ "NULL" :=
  ⟨by rfl, by rfl, by rfl, by decide⟩

/-! ## DDL operations and identifier validation -/

/-- C27, the code at the failing input: `CreateTablesWithTypes` called with the
table name `t; DROP TABLE users; --`, which `validateSQLIdent` rejects, returns
no error and issues the statement with the name interpolated;
`CreateTablesWithTypesAdvanced` does the same with an invalid column name;
`AddColumn` with the same table name returns the error of `validateSQLIdent`
and issues nothing. -/
theorem createTables_without_validation :
    validateSQLIdent "t; DROP TABLE users; --" ≠ none ∧
    (CreateTablesWithTypes freshPool "t; DROP TABLE users; --" [⟨"id", "INT", ""⟩]).1 = none ∧
    (CreateTablesWithTypes freshPool "t; DROP TABLE users; --" [⟨"id", "INT", ""⟩]).2.issued =
      ["CREATE TABLE IF NOT EXISTS t; DROP TABLE users; -- (\n\tid INT\n)"] ∧
    validateSQLIdent "id INT); DROP TABLE users; --" ≠ none ∧
    (CreateTablesWithTypesAdvanced freshPool "t" [⟨"id INT); DROP TABLE users; --", "INT", ""⟩]
      []).1 = none ∧
    (CreateTablesWithTypesAdvanced freshPool "t" [⟨"id INT); DROP TABLE users; --", "INT", ""⟩]
      []).2.issued =
      ["CREATE TABLE IF NOT EXISTS t (\n\tid INT); DROP TABLE users; -- INT\n)"] ∧
    (AddColumn freshPool "t; DROP TABLE users; --" "c" "INT" "").1 =
      validateSQLIdent "t; DROP TABLE users; --" ∧
    (AddColumn freshPool "t; DROP TABLE users; --" "c" "INT" "").2.issued = [] := by
  refine ⟨by decide, by decide, by decide, by decide, by decide, by decide, by decide, by decide⟩

/-! ## Subquery predicates -/

/-- C28: subquery inlining.  `qb.WhereExists(sub)` appends to the WHERE
predicates the text `EXISTS (` + `sub.Build()` + `)`, built from the state the
subquery has at the call, and changes no other field; on a builder with no
earlier predicate and no later section the outer `Build()` ends with
` WHERE EXISTS (` + `sub.Build()` + `)`; when `sub.Build()` is
`SELECT 1 FROM t WHERE t.x = 1` the outer text on `products` is
`SELECT * FROM products WHERE EXISTS (SELECT 1 FROM t WHERE t.x = 1)`. -/
theorem where_exists_inlined (qb sub : QueryBuilder) (ord o : List Entry) :
    qb.WhereExists sub ord =
      { qb with conditions := qb.conditions ++ ["EXISTS (" ++ sub.Build ord ++ ")"] } ∧
    (qb.conditions = [] → qb.groupBy = [] → qb.having = [] → qb.orderBy = [] →
      qb.limit ≤ 0 → qb.offset ≤ 0 →
      (" WHERE EXISTS (" ++ sub.Build ord ++ ")").data <:+
        ((qb.WhereExists sub ord).Build o).data) ∧
    subqueryOne.Build [] = "SELECT 1 FROM t WHERE t.x = 1" ∧
    ((NewQueryBuilder "products").WhereExists subqueryOne []).Build [] =
      "SELECT * FROM products WHERE EXISTS (SELECT 1 FROM t WHERE t.x = 1)" := by
  refine ⟨rfl, ?_, by decide, by decide⟩
  intro hc hg hh ho hl hf
  have hlit : (" WHERE EXISTS (" : String) = " WHERE " ++ "EXISTS (" := by decide
  have htail : specTail (qb.WhereExists sub ord) =
      " WHERE " ++ ("EXISTS (" ++ sub.Build ord ++ ")") := by
    unfold specTail QueryBuilder.WhereExists
    simp only [hc, hg, hh, ho, List.nil_append]
    have h1 : specNum " LIMIT " qb.limit = "" := (specNum_eq_empty _ _ (by decide)).mpr hl
    have h2 : specNum " OFFSET " qb.offset = "" := (specNum_eq_empty _ _ (by decide)).mpr hf
    rw [h1, h2]
    simp [-String.reduceAppend, specList, joined, String.append_empty]
  rw [hlit, build_eq_head_tail (qb.WhereExists sub ord) o, htail]
  simp only [String.data_append, List.append_assoc]
  repeat
    first
    | exact List.suffix_refl _
    | refine List.IsSuffix.trans ?_ (List.suffix_append _ _)

theorem where_exists_inlined_witness :
    (NewQueryBuilder "products").conditions = [] ∧ (NewQueryBuilder "products").groupBy = [] ∧
      (NewQueryBuilder "products").having = [] ∧ (NewQueryBuilder "products").orderBy = [] ∧
      (NewQueryBuilder "products").limit ≤ 0 ∧ (NewQueryBuilder "products").offset ≤ 0 ∧
      (" WHERE EXISTS (" ++ subqueryOne.Build [] ++ ")").data <:+
        (((NewQueryBuilder "products").WhereExists subqueryOne []).Build []).data :=
  ⟨by decide, by decide, by decide, by decide, by decide, by decide,
    (where_exists_inlined (NewQueryBuilder "products") subqueryOne [] []).2.1
      (by decide) (by decide) (by decide) (by decide) (by decide) (by decide)⟩

end BDMirea
